import Mathlib

/-!
# GDP trajectory, PPP/MER convergence and the scenario period loop

A shallow embedding of `objects/containers/source/gdp.cpp` and of
`Scenario::completeInit`, `Scenario::run` and `Scenario::solve` of
`objects/containers/source/scenario.cpp`, with the parts of
`objects/util/base/include/util.h` and `objects/util/base/include/model_time.h`
they call.

## Numbers

The C++ type `double` is embedded as `Dbl F`: the three special values NaN,
+infinity and -infinity next to the finite values, which are the elements of
an ordered field `F`.  Arithmetic on finite values is the exact arithmetic of
`F` (no rounding, no overflow, no signed zero); arithmetic on special values
follows IEEE 754, and `pow` / `log` follow the special-case table of C99
Annex F.  The two transcendental cases that no field operation computes
(a positive base raised to a non-integer exponent, the logarithm of a
positive number other than one) are taken from a `Libm F` parameter.

All definitions are generic in `F` and executable for `F = ℚ`.  A statement
about a stored value gives its operands in the order of the code, so that it
does not depend on the arithmetic being exact.  Two worked examples show the
effect of binary64 rounding itself: their inputs are chosen so that every field
operation on the way is exact in binary64 or only produces the exponent of a
`pow`, and `roundedLibm` holds the correctly rounded values of `log` and `pow`
at their arguments.

## Vectors, assertions, lookups

A `std::vector` indexed by period is a total map `Int → _`.  A failed `assert`,
a failed `std::map` lookup and a call through a null pointer have no resulting
state: every operation that can reach one returns `Option`.

## Files

`util::checkIsOpen` calls `abort()` on a stream that is not open.  Whether each
file `Scenario::run` opens does open is a parameter of `Scenario.runWith`, which
hands back the object as it is at the abort; `Scenario.run` is the run in which
every file opens.

## Collaborators

The marketplace, the world, the solver and the demographic object are not among
the sources.  A value they return is a parameter of the operation that asks for
it, and the calls made on them are recorded, in program order, in a list.
-/

namespace Gcam

/-- Values of the C++ type `double`: NaN, the two infinities, finite values. -/
inductive Dbl (F : Type) where
  | nan : Dbl F
  | pinf : Dbl F
  | ninf : Dbl F
  | fin (x : F) : Dbl F

/-- The part of `<cmath>` that is not a field operation: `rpow a b` stands for
`pow(a, b)` at a positive base and a non-integer exponent, `rlog a` for
`log(a)` at a positive argument other than one. -/
structure Libm (F : Type) where
  rpow : F → F → F
  rlog : F → F

namespace Dbl

variable {F : Type} [LinearOrderedField F] [FloorRing F]

/-- Unary minus on `double`. -/
def neg : Dbl F → Dbl F
  | nan => nan
  | pinf => ninf
  | ninf => pinf
  | fin a => fin (-a)

/-- Addition on `double`. -/
def add : Dbl F → Dbl F → Dbl F
  | nan, _ => nan
  | pinf, nan => nan
  | pinf, ninf => nan
  | pinf, _ => pinf
  | ninf, nan => nan
  | ninf, pinf => nan
  | ninf, _ => ninf
  | fin _, nan => nan
  | fin _, pinf => pinf
  | fin _, ninf => ninf
  | fin a, fin b => fin (a + b)

/-- Subtraction on `double`. -/
def sub (x y : Dbl F) : Dbl F := add x (neg y)

/-- The product of an infinity (positive when `pos`) and the finite `a`. -/
def infTimes (pos : Bool) (a : F) : Dbl F :=
  if 0 < a then (if pos then pinf else ninf)
  else if a < 0 then (if pos then ninf else pinf)
  else nan

/-- Multiplication on `double`. -/
def mul : Dbl F → Dbl F → Dbl F
  | nan, _ => nan
  | pinf, nan => nan
  | pinf, pinf => pinf
  | pinf, ninf => ninf
  | pinf, fin b => infTimes true b
  | ninf, nan => nan
  | ninf, pinf => ninf
  | ninf, ninf => pinf
  | ninf, fin b => infTimes false b
  | fin _, nan => nan
  | fin a, pinf => infTimes true a
  | fin a, ninf => infTimes false a
  | fin a, fin b => fin (a * b)

/-- Division on `double`; a finite zero divisor counts as +0. -/
def div : Dbl F → Dbl F → Dbl F
  | nan, _ => nan
  | pinf, nan => nan
  | pinf, pinf => nan
  | pinf, ninf => nan
  | pinf, fin b => if b < 0 then ninf else pinf
  | ninf, nan => nan
  | ninf, pinf => nan
  | ninf, ninf => nan
  | ninf, fin b => if b < 0 then pinf else ninf
  | fin _, nan => nan
  | fin _, pinf => fin 0
  | fin _, ninf => fin 0
  | fin a, fin b =>
    if b = 0 then (if 0 < a then pinf else if a < 0 then ninf else nan)
    else fin (a / b)

instance : Add (Dbl F) := ⟨add⟩
instance : Sub (Dbl F) := ⟨sub⟩
instance : Mul (Dbl F) := ⟨mul⟩
instance : Div (Dbl F) := ⟨div⟩

/-- The comparison `x < y` on `double`: false as soon as one side is NaN. -/
def lt : Dbl F → Dbl F → Bool
  | nan, _ => false
  | pinf, _ => false
  | ninf, nan => false
  | ninf, ninf => false
  | ninf, _ => true
  | fin _, nan => false
  | fin _, pinf => true
  | fin _, ninf => false
  | fin a, fin b => decide (a < b)

/-- The comparison `x <= y` on `double`: false as soon as one side is NaN. -/
def le : Dbl F → Dbl F → Bool
  | nan, _ => false
  | pinf, pinf => true
  | pinf, _ => false
  | ninf, nan => false
  | ninf, _ => true
  | fin _, nan => false
  | fin _, pinf => true
  | fin _, ninf => false
  | fin a, fin b => decide (a ≤ b)

/-- The comparison `x > y` on `double`. -/
def gt (x y : Dbl F) : Bool := lt y x

/-- The comparison `x >= y` on `double`. -/
def ge (x y : Dbl F) : Bool := le y x

/-- The comparison `x == y` on `double`: NaN equals nothing, itself included. -/
def eq : Dbl F → Dbl F → Bool
  | pinf, pinf => true
  | ninf, ninf => true
  | fin a, fin b => decide (a = b)
  | _, _ => false

/-- The comparison `x != y` on `double`. -/
def ne (x y : Dbl F) : Bool := !(eq x y)

/-- Conversion of an `int` to `double`. -/
def ofInt (n : Int) : Dbl F := fin (n : F)

/-- Whether the value is a finite number (neither NaN nor an infinity). -/
def isFinite : Dbl F → Bool
  | fin _ => true
  | _ => false

/-- Whether the finite value `b` is an integer. -/
def isInt (b : F) : Bool := decide (((⌊b⌋ : Int) : F) = b)

/-- Whether the finite value `b` is an odd integer. -/
def isOddInt (b : F) : Bool := isInt b && decide ((⌊b⌋ : Int) % 2 = 1)

/-- The value of `pow(a, b)` for finite `a` and finite `b ≠ 0`, `a ≠ 1`. -/
def powFin (lib : Libm F) (a b : F) : Dbl F :=
  if a = 0 then (if b < 0 then pinf else fin 0)
  else if isInt b then fin (a ^ (⌊b⌋ : Int))
  else if 0 < a then fin (lib.rpow a b)
  else nan

/-- The function `pow(x, y)` of `<cmath>` with the special cases of C99 F.9.4.4. -/
def pow (lib : Libm F) : Dbl F → Dbl F → Dbl F
  | x, fin b =>
    if b = 0 then fin 1
    else match x with
      | nan => nan
      | pinf => if b < 0 then fin 0 else pinf
      | ninf => if b < 0 then fin 0 else if isOddInt b then ninf else pinf
      | fin a => if a = 1 then fin 1 else powFin lib a b
  | fin a, nan => if a = 1 then fin 1 else nan
  | fin a, pinf =>
    if a = 1 then fin 1 else if a = -1 then fin 1
    else if |a| < 1 then fin 0 else pinf
  | fin a, ninf =>
    if a = 1 then fin 1 else if a = -1 then fin 1
    else if |a| < 1 then pinf else fin 0
  | nan, _ => nan
  | pinf, nan => nan
  | pinf, pinf => pinf
  | pinf, ninf => fin 0
  | ninf, nan => nan
  | ninf, pinf => pinf
  | ninf, ninf => fin 0

/-- The function `log(x)` of `<cmath>` with the special cases of C99 F.9.3.7. -/
def log (lib : Libm F) : Dbl F → Dbl F
  | nan => nan
  | pinf => pinf
  | ninf => nan
  | fin a =>
    if a < 0 then nan
    else if a = 0 then ninf
    else if a = 1 then fin 0
    else fin (lib.rlog a)

end Dbl

namespace util

variable {F : Type} [LinearOrderedField F] [FloorRing F]

/-- The value `std::numeric_limits<double>::infinity()`. -/
def infinity : Dbl F := Dbl.pinf

/-- Embedding of `util::isValidNumber` (util.h): the self-comparison, and where
the platform has an infinity the comparison against that one infinity. -/
def isValidNumber (number : Dbl F) : Bool :=
  let tempval := Dbl.eq number number
  if Dbl.ne (infinity : Dbl F) (Dbl.fin 0) then
    tempval && Dbl.ne number infinity
  else tempval

end util

/-- Embedding of the members of `Modeltime` (model_time.h) that the GDP object and the
scenario read.  `basePeriod` is the value returned by `getBasePeriod()`, which
gdp.cpp calls and model_time.h does not declare. -/
structure Modeltime where
  startYear : Int
  maxPeriod : Int
  periodToTimeStep : Int → Int
  modelPeriodToYear : Int → Int
  yearToModelPeriod : List (Int × Int)
  basePeriod : Int

namespace Modeltime

/-- Embedding of `Modeltime::getmaxper`. -/
def getmaxper (mt : Modeltime) : Int := mt.maxPeriod

/-- Embedding of `Modeltime::gettimestep`. -/
def gettimestep (mt : Modeltime) (period : Int) : Int := mt.periodToTimeStep period

/-- Embedding of `Modeltime::getper_to_yr`. -/
def getper_to_yr (mt : Modeltime) (period : Int) : Int := mt.modelPeriodToYear period

/-- Embedding of `Modeltime::getyr_to_per`: `yearToModelPeriod.find( year )->second`.
When the year is no key, `find` returns the end iterator, whose dereference
has no defined value: `none`. -/
def getyr_to_per (mt : Modeltime) (year : Int) : Option Int :=
  mt.yearToModelPeriod.lookup year

/-- The call `getBasePeriod()`. -/
def getBasePeriod (mt : Modeltime) : Int := mt.basePeriod

/-- The call `getStartYear()` of gdp.cpp, which model_time.h declares as `getstartyr()`. -/
def getStartYear (mt : Modeltime) : Int := mt.startYear

end Modeltime

/-- The periods visited by `for( int per = lo; per < hi; per++ )`, in order. -/
def periodRange (lo hi : Int) : List Int :=
  (List.range (hi - lo).toNat).map (fun (k : Nat) => lo + Int.ofNat k)

/-- A `for` loop over periods whose body may fail: the bodies run in order, and the
first failure is the result. -/
def forEachPeriod {σ : Type} (body : σ → Int → Option σ) : List Int → σ → Option σ
  | [], s => some s
  | per :: rest, s =>
    match body s per with
    | none => none
    | some s1 => forEachPeriod body rest s1

/-- The enumerator of `IMarketType` that gdp.cpp names (imarket_type.h is not among
the sources). -/
inductive IMarketType where
  | CALIBRATION : IMarketType

/-- A call that gdp.cpp makes on the `Marketplace` (marketplace.h is not among the
sources): the method and its arguments. -/
inductive MarketCall (F : Type) where
  | createMarket (regionName marketName goodName : String) (type : IMarketType) :
      MarketCall F
  | setPriceVector (goodName regionName : String) (prices : List (Dbl F)) : MarketCall F
  | addToDemand (goodName regionName : String) (value : Dbl F) (per : Int) : MarketCall F
  | setMarketToSolve (goodName regionName : String) (per : Int) : MarketCall F

/-- The constant `BASE_PPP_YEAR` of gdp.cpp. -/
def BASE_PPP_YEAR : Int := 1990

/-- Embedding of the data members of class `GDP`. -/
structure GDP (F : Type) where
  laborProdGrowthRate : Int → Dbl F
  laborForceParticipationPercent : Int → Dbl F
  laborForce : Int → Dbl F
  gdpValue : Int → Dbl F
  gdpPerCapita : Int → Dbl F
  gdpValueAdjusted : Int → Dbl F
  gdpPerCapitaAdjusted : Int → Dbl F
  gdpPerCapitaAdjustedPPP : Int → Dbl F
  gdpPerCapitaApproxPPP : Int → Dbl F
  gdpAdjustedFlag : Int → Bool
  calibrationGDPs : Int → Dbl F
  gdpValueNotAdjusted : Int → Dbl F
  gdpPerCapitaNotAdjusted : Int → Dbl F
  baseGDP : Dbl F
  EnergyGDPElas : Dbl F
  PPPConversionFact : Dbl F
  PPPDelta : Dbl F
  constRatio : Bool

namespace GDP

variable {F : Type} [LinearOrderedField F] [FloorRing F]

/-- The constant `CROSSOVER_POINT` of `GDP::getPPPMERRatio`. -/
def CROSSOVER_POINT : Dbl F := Dbl.fin 15

/-- Embedding of `GDP::getLaborForce`; the `assert` on the period is a failure. -/
def getLaborForce (mt : Modeltime) (g : GDP F) (per : Int) : Option (Dbl F) :=
  if 0 ≤ per ∧ per < mt.getmaxper then some (g.laborForce per) else none

/-- Embedding of `GDP::getTotalLaborProductivity`; the `assert` on the period is a
failure. -/
def getTotalLaborProductivity (lib : Libm F) (mt : Modeltime) (g : GDP F)
    (period : Int) : Option (Dbl F) :=
  if 0 ≤ period ∧ period < mt.getmaxper then
    some (Dbl.pow lib (Dbl.fin 1 + g.laborProdGrowthRate period)
      (Dbl.ofInt (mt.gettimestep period)))
  else none

/-- Embedding of `GDP::getPPPMERRatio`: the returned ratio and the object afterwards
(the call may assign `PPPDelta`).  `log` and `pow` report a domain error
through their return value and throw nothing, so both `try` bodies run to
their end and neither `catch` handler is entered. -/
def getPPPMERRatio (lib : Libm F) (mt : Modeltime) (g : GDP F) (period : Int)
    (marketGDPperCap : Dbl F) : Option (Dbl F × GDP F) :=
  if g.constRatio then some (g.PPPConversionFact, g)
  else
    match mt.getyr_to_per BASE_PPP_YEAR with
    | none => none
    | some pb =>
      if period < pb ∨ Dbl.lt g.PPPConversionFact (Dbl.fin 1) = true then
        some (g.PPPConversionFact, g)
      else
        let g1 : GDP F :=
          if period = pb then
            { g with PPPDelta :=
                Dbl.log lib g.PPPConversionFact
                  / Dbl.log lib (marketGDPperCap / CROSSOVER_POINT) }
          else g
        if Dbl.gt marketGDPperCap CROSSOVER_POINT = true then
          some (Dbl.fin 1, g1)
        else
          some (Dbl.pow lib (marketGDPperCap / CROSSOVER_POINT) g1.PPPDelta, g1)

/-- Embedding of `GDP::calculatePPPPerCap`. -/
def calculatePPPPerCap (lib : Libm F) (mt : Modeltime) (g : GDP F) (period : Int)
    (marketGDPperCap : Dbl F) : Option (Dbl F × GDP F) :=
  match getPPPMERRatio lib mt g period marketGDPperCap with
  | none => none
  | some (ratio, g1) => some (ratio * marketGDPperCap, g1)

/-- Embedding of `GDP::initialGDPcalc`. -/
def initialGDPcalc (lib : Libm F) (mt : Modeltime) (g : GDP F) (period : Int)
    (population : Dbl F) : Option (GDP F) :=
  let basePer := mt.getBasePeriod
  let g0 : GDP F :=
    { g with gdpAdjustedFlag := Function.update g.gdpAdjustedFlag period false }
  match mt.getyr_to_per 1990 with
  | none => none
  | some p90 =>
    let g1 : GDP F :=
      if period ≤ p90 then
        { g0 with gdpAdjustedFlag := Function.update g0.gdpAdjustedFlag period true }
      else g0
    let g3opt : Option (GDP F) :=
      if period = basePer then
        let g2 : GDP F :=
          { g1 with gdpValue := Function.update g1.gdpValue period g1.baseGDP }
        some { g2 with gdpValueAdjusted :=
                 Function.update g2.gdpValueAdjusted period (g2.gdpValue period) }
      else
        match getLaborForce mt g1 period with
        | none => none
        | some currentLF =>
          match getLaborForce mt g1 (period - 1) with
          | none => none
          | some lastLF =>
            match getTotalLaborProductivity lib mt g1 period with
            | none => none
            | some tlab =>
              let g2 : GDP F :=
                { g1 with gdpValue :=
                            Function.update g1.gdpValue period
                              (g1.gdpValueAdjusted (period - 1) * tlab
                                * (currentLF / lastLF)) }
              some { g2 with gdpValueAdjusted :=
                       Function.update g2.gdpValueAdjusted period (g2.gdpValue period) }
    match g3opt with
    | none => none
    | some g3 =>
      let g4 : GDP F :=
        { g3 with gdpPerCapita :=
                    Function.update g3.gdpPerCapita period (g3.gdpValue period / population) }
      let g5 : GDP F :=
        { g4 with gdpPerCapitaAdjusted :=
                    Function.update g4.gdpPerCapitaAdjusted period (g4.gdpPerCapita period) }
      let g6 : GDP F :=
        { g5 with gdpPerCapitaAdjustedPPP :=
                    Function.update g5.gdpPerCapitaAdjustedPPP period
                      (g5.gdpValue period / population) }
      match calculatePPPPerCap lib mt g6 period (g6.gdpPerCapita period) with
      | none => none
      | some (ppp, g7) =>
        some { g7 with gdpPerCapitaApproxPPP :=
                 Function.update g7.gdpPerCapitaApproxPPP period ppp }

/-- Embedding of `GDP::adjustGDP`. -/
def adjustGDP (lib : Libm F) (mt : Modeltime) (g : GDP F) (period : Int)
    (priceRatio : Dbl F) : Option (GDP F) :=
  match mt.getyr_to_per 1990 with
  | none => none
  | some p90 =>
    let g4 : GDP F :=
      if period > p90 then
        let g1 : GDP F :=
          { g with gdpValueAdjusted :=
                     Function.update g.gdpValueAdjusted period
                       (g.gdpValue period * Dbl.pow lib priceRatio g.EnergyGDPElas) }
        let g2 : GDP F :=
          if !(util.isValidNumber (g1.gdpValueAdjusted period)) then
            { g1 with gdpValueAdjusted :=
                        Function.update g1.gdpValueAdjusted period (g1.gdpValue period) }
          else g1
        let g3 : GDP F :=
          { g2 with gdpPerCapitaAdjusted :=
                      Function.update g2.gdpPerCapitaAdjusted period
                        (g2.gdpPerCapita period * g2.gdpValueAdjusted period
                          / g2.gdpValue period) }
        { g3 with gdpAdjustedFlag := Function.update g3.gdpAdjustedFlag period true }
      else g
    match calculatePPPPerCap lib mt g4 period (g4.gdpPerCapitaAdjusted period) with
    | none => none
    | some (ppp, g5) =>
      some { g5 with gdpPerCapitaAdjustedPPP :=
               Function.update g5.gdpPerCapitaAdjustedPPP period ppp }

/-- Embedding of `GDP::getApproxGDP`. -/
def getApproxGDP (g : GDP F) (period : Int) : Dbl F := g.gdpValue period

/-- Embedding of `GDP::getApproxGDPperCap`. -/
def getApproxGDPperCap (g : GDP F) (period : Int) : Dbl F := g.gdpPerCapita period

/-- Embedding of `GDP::getApproxPPPperCap`. -/
def getApproxPPPperCap (g : GDP F) (period : Int) : Dbl F := g.gdpPerCapitaApproxPPP period

/-- Embedding of `GDP::getGDP`; the message on `cerr` is not part of the value. -/
def getGDP (g : GDP F) (period : Int) : Dbl F := g.gdpValueAdjusted period

/-- Embedding of `GDP::getGDPperCap`; the message on `cerr` is not part of the value. -/
def getGDPperCap (g : GDP F) (period : Int) : Dbl F := g.gdpPerCapitaAdjusted period

/-- Embedding of `GDP::getPPPGDPperCap`; the message on `cerr` is not part of the value. -/
def getPPPGDPperCap (g : GDP F) (period : Int) : Dbl F := g.gdpPerCapitaAdjustedPPP period

/-- Embedding of `GDP::getGDPNotAdjusted`. -/
def getGDPNotAdjusted (g : GDP F) (period : Int) : Dbl F := g.gdpValueNotAdjusted period

/-- Embedding of `GDP::getGDPPerCapitaNotAdjusted`. -/
def getGDPPerCapitaNotAdjusted (g : GDP F) (period : Int) : Dbl F :=
  g.gdpPerCapitaNotAdjusted period

/-- Embedding of `GDP::getApproxScaledGDPperCap`; `assert( x )` on a `double` holds when
`x != 0`. -/
def getApproxScaledGDPperCap (mt : Modeltime) (g : GDP F) (period : Int) : Option (Dbl F) :=
  if Dbl.ne (g.gdpPerCapita mt.getBasePeriod) (Dbl.fin 0) = true then
    some (g.gdpPerCapita period / g.gdpPerCapita mt.getBasePeriod)
  else none

/-- Embedding of `GDP::getApproxScaledGDP`. -/
def getApproxScaledGDP (mt : Modeltime) (g : GDP F) (period : Int) : Option (Dbl F) :=
  if Dbl.ne (g.gdpValue mt.getBasePeriod) (Dbl.fin 0) = true then
    some (g.gdpValue period / g.gdpValue mt.getBasePeriod)
  else none

/-- Embedding of `GDP::getScaledGDPperCap`; the message on `cerr` is not part of the
value, the `assert` is a failure. -/
def getScaledGDPperCap (mt : Modeltime) (g : GDP F) (period : Int) : Option (Dbl F) :=
  if Dbl.gt (g.gdpPerCapitaAdjusted mt.getBasePeriod) (Dbl.fin 0) = true then
    some (g.gdpPerCapitaAdjusted period / g.gdpPerCapitaAdjusted mt.getBasePeriod)
  else none

/-- Embedding of `GDP::getBestScaledGDPperCap`. -/
def getBestScaledGDPperCap (mt : Modeltime) (g : GDP F) (period : Int) : Option (Dbl F) :=
  if !(g.gdpAdjustedFlag period) then getApproxScaledGDPperCap mt g period
  else getScaledGDPperCap mt g period

/-- The body of the loop of `GDP::initData` for period `i`; `regionalPop i` is the value
of `regionalPop->getTotal( i )`. -/
def initDataBody (lib : Libm F) (mt : Modeltime) (regionalPop : Int → Dbl F) (g : GDP F)
    (i : Int) : Option (GDP F) :=
  let population := regionalPop i
  if Dbl.gt population (Dbl.fin 0) = true then
    if Dbl.gt (g.laborForceParticipationPercent i) (Dbl.fin 0) = true then
      let g1 : GDP F :=
        { g with laborForce :=
                   Function.update g.laborForce i
                     (population * g.laborForceParticipationPercent i) }
      if Dbl.gt (g1.laborForce i) (Dbl.fin 0) = true then
        match initialGDPcalc lib mt g1 i population with
        | none => none
        | some g2 =>
          let g3 : GDP F :=
            { g2 with gdpValueNotAdjusted :=
                        Function.update g2.gdpValueNotAdjusted i (getApproxGDP g2 i) }
          some { g3 with gdpPerCapitaNotAdjusted :=
                           Function.update g3.gdpPerCapitaNotAdjusted i
                             (g3.gdpValueNotAdjusted i / population) }
      else none
    else none
  else none

/-- Embedding of `GDP::initData`. -/
def initData (lib : Libm F) (mt : Modeltime) (regionalPop : Int → Dbl F) (g : GDP F) :
    Option (GDP F) :=
  forEachPeriod (initDataBody lib mt regionalPop) (periodRange 0 mt.getmaxper) g

/-- The vector `tempLFPs` that `GDP::setupCalibrationMarkets` fills and publishes. -/
def tempLFPs (lib : Libm F) (mt : Modeltime) (g : GDP F) : List (Dbl F) :=
  (periodRange 0 mt.getmaxper).map (fun i =>
    Dbl.pow lib (Dbl.fin 1 + g.laborProdGrowthRate i) (Dbl.ofInt (mt.gettimestep i)))

/-- The calls the constraint loop of `GDP::setupCalibrationMarkets` makes for period `per`. -/
def constraintCalls (regionName : String) (aCalibrationGDPs : Int → Dbl F) (per : Int) :
    List (MarketCall F) :=
  if Dbl.gt (aCalibrationGDPs per) (Dbl.fin 0) = true then
    [MarketCall.addToDemand "GDP" regionName (aCalibrationGDPs per) per,
     MarketCall.setMarketToSolve "GDP" regionName per]
  else []

/-- Embedding of `GDP::setupCalibrationMarkets`: the object afterwards and the calls made
on the marketplace, in order.  `created` is the value `createMarket` returns. -/
def setupCalibrationMarkets (lib : Libm F) (mt : Modeltime) (g : GDP F)
    (regionName : String) (aCalibrationGDPs : Int → Dbl F) (created : Bool) :
    Option (GDP F × List (MarketCall F)) :=
  let goodName := "GDP"
  let calls1 : List (MarketCall F) :=
    [MarketCall.createMarket regionName regionName goodName IMarketType.CALIBRATION]
  let calls2 : List (MarketCall F) :=
    if created then
      calls1 ++ [MarketCall.setPriceVector goodName regionName (tempLFPs lib mt g)]
    else calls1
  let calls3 : List (MarketCall F) :=
    calls2 ++ (periodRange 1 mt.getmaxper).flatMap
      (constraintCalls regionName aCalibrationGDPs)
  match mt.getyr_to_per mt.getStartYear with
  | none => none
  | some basePer =>
    if Dbl.ne (aCalibrationGDPs basePer) (Dbl.fin 0) = true then
      some ({ g with baseGDP := aCalibrationGDPs basePer }, calls3)
    else some (g, calls3)

/-- Embedding of `GDP::writeBackCalibratedValues`; `totalLaborProd` is the value that
`marketplace->getPrice( goodName, regionName, period )` returns. -/
def writeBackCalibratedValues (lib : Libm F) (mt : Modeltime) (g : GDP F) (period : Int)
    (totalLaborProd : Dbl F) : GDP F :=
  let g1 : GDP F :=
    { g with laborProdGrowthRate :=
               Function.update g.laborProdGrowthRate period
                 (Dbl.pow lib totalLaborProd
                     (Dbl.fin 1 / Dbl.ofInt (mt.gettimestep period))
                   - Dbl.fin 1) }
  if Dbl.le (g1.laborProdGrowthRate period) (Dbl.fin (-1)) = true then
    { g1 with laborProdGrowthRate :=
                Function.update g1.laborProdGrowthRate period (Dbl.fin (-99 / 100)) }
  else g1

/-- Whether a call of `getPPPMERRatio` takes the branch that returns the configured
factor unchanged; `pb` is the period of `BASE_PPP_YEAR`. -/
def passThrough (g : GDP F) (period pb : Int) : Prop :=
  g.constRatio = true ∨ period < pb ∨ Dbl.lt g.PPPConversionFact (Dbl.fin 1) = true

instance (g : GDP F) (period pb : Int) : Decidable (passThrough g period pb) := by
  unfold passThrough; infer_instance

/-- The exponent a convergence-branch call of `getPPPMERRatio` works with: derived
from the arguments in the period of `BASE_PPP_YEAR`, the cached one otherwise. -/
def deltaAt (lib : Libm F) (g : GDP F) (period pb : Int) (x : Dbl F) : Dbl F :=
  if period = pb then
    Dbl.log lib g.PPPConversionFact / Dbl.log lib (x / CROSSOVER_POINT)
  else g.PPPDelta

/-- The level `GDP::initialGDPcalc` assigns to `gdpValue[ period ]`. -/
def initialLevel (lib : Libm F) (mt : Modeltime) (g : GDP F) (period : Int) : Dbl F :=
  if period = mt.getBasePeriod then g.baseGDP
  else
    g.gdpValueAdjusted (period - 1)
      * Dbl.pow lib (Dbl.fin 1 + g.laborProdGrowthRate period)
          (Dbl.ofInt (mt.gettimestep period))
      * (g.laborForce period / g.laborForce (period - 1))

/-- The level `GDP::adjustGDP` leaves in `gdpValueAdjusted[ period ]` for a period
after the period of 1990: the energy-adjusted product, or the unadjusted level
when `util::isValidNumber` rejects the product. -/
def adjustedLevel (lib : Libm F) (g : GDP F) (period : Int) (priceRatio : Dbl F) : Dbl F :=
  if util.isValidNumber (g.gdpValue period * Dbl.pow lib priceRatio g.EnergyGDPElas) = true then
    g.gdpValue period * Dbl.pow lib priceRatio g.EnergyGDPElas
  else g.gdpValue period

/-- The ratio a call `getPPPMERRatio( period, x )` returns; `pb` is the period of
`BASE_PPP_YEAR`. -/
def pppRatio (lib : Libm F) (g : GDP F) (period pb : Int) (x : Dbl F) : Dbl F :=
  if passThrough g period pb then g.PPPConversionFact
  else if Dbl.gt x CROSSOVER_POINT = true then Dbl.fin 1
  else Dbl.pow lib (x / CROSSOVER_POINT) (deltaAt lib g period pb x)

/-- The value a call `getPPPMERRatio( period, x )` leaves in `PPPDelta`. -/
def deltaAfter (lib : Libm F) (g : GDP F) (period pb : Int) (x : Dbl F) : Dbl F :=
  if passThrough g period pb then g.PPPDelta else deltaAt lib g period pb x

end GDP

/-- The exact real instance of the transcendental cases: `Real.rpow` and `Real.log`. -/
noncomputable def realLibm : Libm ℝ := ⟨Real.rpow, Real.log⟩

/-- An executable rational stand-in for the transcendental cases (first-order
expansions around one); it serves to run the definitions on concrete inputs. -/
def ratLibm : Libm ℚ := ⟨fun a b => 1 + b * (a - 1), fun a => a - 1⟩

/-- The binary64 values of `log` and `pow` at the arguments of two worked examples, written
as fractions: `log( 4 ) = 1.3862943611198906`, `log( 0.125 ) = -2.0794415416798357`,
`pow( 0.125, -0.6666666666666667 ) = 4.000000000000001` and
`pow( 64, 0.3333333333333333 ) = 3.9999999999999996`.  Each is the binary64 number
nearest to the exact value, which is what a correctly rounded library returns and what
the GNU C library returns at these arguments.  In both examples the exponent of `pow` is
the quotient of two binary64 numbers, which the machine rounds to the nearest binary64
number and the division here leaves exact: an entry of `rpow` applies to every exponent
less than half a unit in the last place away from the binary64 exponent.  At all other
arguments the value is 0, and no statement rests on it. -/
def roundedLibm : Libm ℚ :=
  { rpow := fun a b =>
      if a = 1 / 8 ∧ |b - (-3002399751580331 / 4503599627370496)| < 1 / 2 ^ 54 then
        4503599627370497 / 1125899906842624
      else if a = 64 ∧ |b - 6004799503160661 / 18014398509481984| < 1 / 2 ^ 55 then
        9007199254740991 / 2251799813685248
      else 0
    rlog := fun a =>
      if a = 4 then 6243314768165359 / 4503599627370496
      else if a = 1 / 8 then -4682486076124019 / 2251799813685248
      else 0 }

/-- A horizon of four five-year periods, 1985 to 2000: period 0 is the base
period and period 1 is the period of 1990. -/
def sampleTime : Modeltime :=
  { startYear := 1985
    maxPeriod := 4
    periodToTimeStep := fun _ => 5
    modelPeriodToYear := fun p => 1985 + 5 * p
    yearToModelPeriod := [(1985, 0), (1990, 1), (1995, 2), (2000, 3)]
    basePeriod := 0 }

/-- A GDP object on `sampleTime`: base GDP 1000, growth rate 0.02 a year, labor
force 100 in the base period and 102 afterwards, levels of 1000 in every
period, PPP conversion factor 2, energy elasticity -1. -/
def sampleGDP (F : Type) [LinearOrderedField F] : GDP F :=
  { laborProdGrowthRate := fun _ => Dbl.fin (2 / 100)
    laborForceParticipationPercent := fun _ => Dbl.fin (1 / 2)
    laborForce := fun p => if p = 0 then Dbl.fin 100 else Dbl.fin 102
    gdpValue := fun _ => Dbl.fin 1000
    gdpPerCapita := fun _ => Dbl.fin 5
    gdpValueAdjusted := fun _ => Dbl.fin 1000
    gdpPerCapitaAdjusted := fun _ => Dbl.fin 5
    gdpPerCapitaAdjustedPPP := fun _ => Dbl.fin 10
    gdpPerCapitaApproxPPP := fun _ => Dbl.fin 10
    gdpAdjustedFlag := fun p => decide (p ≤ 1)
    calibrationGDPs := fun _ => Dbl.fin 0
    gdpValueNotAdjusted := fun _ => Dbl.fin 1000
    gdpPerCapitaNotAdjusted := fun _ => Dbl.fin 5
    baseGDP := Dbl.fin 1000
    EnergyGDPElas := Dbl.fin (-1)
    PPPConversionFact := Dbl.fin 2
    PPPDelta := Dbl.fin 0
    constRatio := false }

/-- A call that `Scenario` makes on one of its collaborators (marketplace, world,
solver, reporting, main log), named after the method; the classes themselves
are not among the sources.  A period loop leaves its calls in program order. -/
inductive Event where
  | initPrices : Event
  | nullSuppliesAndDemands (per : Int) : Event
  | init_to_last (per : Int) : Event
  | initCalc (per : Int) : Event
  | calc (per : Int) : Event
  | solverSolve (per : Int) : Event
  | finalizePeriod (per : Int) : Event
  | updateSummary (per : Int) : Event
  | emiss_ind (per : Int) : Event
  | toDebugXML (per : Int) : Event
  | csvSGMOutputFile (per : Int) : Event
  | printGraphs (per : Int) : Event
  | csvSGMGenFile : Event
  | runClimateModel : Event
  | worldCompleteInit : Event
  | logNoScenarioName : Event
  | logNoWorld : Event
  | getSolver : Event
  | solverInit : Event
deriving DecidableEq

/-- A file that `Scenario::run` opens for writing: the XML debugging file, the SGM output
file, the dependency graph of a period (`printGraphs`), the general SGM output file. -/
inductive RunFile where
  | xmlDebug : RunFile
  | sgmOut : RunFile
  | dependencyGraph (per : Int) : RunFile
  | sgmGen : RunFile
deriving DecidableEq

/-- Embedding of the data members of class `Scenario`: `world` and `solver` record whether the
pointer of that name is set, `calls` the calls made on collaborators so far. -/
structure Scenario where
  name : String
  runCompleted : Bool
  unsolvedPeriods : List Int
  world : Bool
  solver : Bool
  calls : List Event

namespace Scenario

/-- One more call on a collaborator. -/
def call (s : Scenario) (e : Event) : Scenario := { s with calls := s.calls ++ [e] }

/-- Embedding of `Scenario::completeInit`: the default name, the completion of the world or the
severe log entry, then the creation and initialisation of the solver. -/
def completeInit (s : Scenario) : Scenario :=
  let s1 : Scenario :=
    if s.name = "" then { s.call Event.logNoScenarioName with name := "NoScenarioName" }
    else s
  let s2 : Scenario :=
    if s1.world then s1.call Event.worldCompleteInit
    else s1.call Event.logNoWorld
  let s3 : Scenario := { s2.call Event.getSolver with solver := true }
  s3.call Event.solverInit

/-- Embedding of `Scenario::solve`; `solverSolve period` is the value `solver->solve( period )`
returns.  With no solver the call has no defined result. -/
def solve (mt : Modeltime) (solverSolve : Int → Bool) (s : Scenario) (period : Int) :
    Option (Bool × Scenario) :=
  if s.solver then
    let s1 := s.call (Event.solverSolve period)
    let s2 : Scenario :=
      if !(solverSolve period) then
        { s1 with unsolvedPeriods := s1.unsolvedPeriods ++ [period] }
      else s1
    if mt.getmaxper - 1 = period then
      if s2.unsolvedPeriods.length = 0 then some (true, s2)
      else some (false, s2)
    else some (true, s2)
  else none

/-- How a member function that opens files ends: it returns, or `util::checkIsOpen` finds a
stream that is not open and calls `abort()`, with the object as it is at that point. -/
inductive Ended (α : Type) where
  | returned (a : α) : Ended α
  | aborted (s : Scenario) : Ended α

/-- The body of the period loop of `Scenario::run`, on the pair of the local `success` and
the object.  `printDependencyGraphs` is the value of the configuration entry of
that name, `isOpen f` whether the stream of the file `f` is open after the `open` call:
in `printGraphs` `util::checkIsOpen` aborts when the graph file of the period is not,
before the world prints. -/
def runBody (isOpen : RunFile → Bool) (mt : Modeltime) (printDependencyGraphs : Bool)
    (solverSolve : Int → Bool) (acc : Bool × Scenario) (per : Int) :
    Option (Ended (Bool × Scenario)) :=
  let success := acc.1
  let s := acc.2
  if s.world then
    let s1 := s.call (Event.nullSuppliesAndDemands per)
    let s2 := s1.call (Event.init_to_last per)
    let s3 := s2.call (Event.initCalc per)
    let s4 : Scenario :=
      if per = 0 then s3.call (Event.nullSuppliesAndDemands per) else s3
    let s5 := s4.call (Event.calc per)
    match solve mt solverSolve s5 per with
    | none => none
    | some (solved, s6) =>
      let s7 := s6.call (Event.finalizePeriod per)
      let s8 := s7.call (Event.updateSummary per)
      let s9 := s8.call (Event.emiss_ind per)
      let s10 := s9.call (Event.toDebugXML per)
      let s11 := s10.call (Event.csvSGMOutputFile per)
      if printDependencyGraphs then
        if isOpen (RunFile.dependencyGraph per) then
          some (Ended.returned (success && solved, s11.call (Event.printGraphs per)))
        else some (Ended.aborted s11)
      else some (Ended.returned (success && solved, s11))
  else none

/-- One pass of the period loop of `Scenario::run`: once `abort()` has been called no further
pass runs, and the object of the abort is handed on. -/
def runStep (isOpen : RunFile → Bool) (mt : Modeltime) (printDependencyGraphs : Bool)
    (solverSolve : Int → Bool) (r : Ended (Bool × Scenario)) (per : Int) :
    Option (Ended (Bool × Scenario)) :=
  match r with
  | Ended.aborted s => some (Ended.aborted s)
  | Ended.returned acc => runBody isOpen mt printDependencyGraphs solverSolve acc per

/-- Embedding of `Scenario::run`: how the call ends, with the returned `success` and the
object afterwards when it returns.  `util::checkIsOpen` aborts in `openDebugXMLFile`
before the first call, after `initPrices` for the SGM output file, in `printGraphs`
inside the loop, and after the loop for the general SGM output file. -/
def runWith (isOpen : RunFile → Bool) (mt : Modeltime) (printDependencyGraphs : Bool)
    (solverSolve : Int → Bool) (s : Scenario) : Option (Ended (Bool × Scenario)) :=
  if isOpen RunFile.xmlDebug then
    let s0 := s.call Event.initPrices
    if isOpen RunFile.sgmOut then
      match forEachPeriod (runStep isOpen mt printDependencyGraphs solverSolve)
          (periodRange 0 mt.getmaxper) (Ended.returned (true, s0)) with
      | none => none
      | some (Ended.aborted s1) => some (Ended.aborted s1)
      | some (Ended.returned (success, s1)) =>
        let s2 : Scenario := { s1 with runCompleted := true }
        if isOpen RunFile.sgmGen then
          if s2.world then
            let s3 := s2.call Event.csvSGMGenFile
            let s4 := s3.call Event.runClimateModel
            some (Ended.returned (success, s4))
          else none
        else some (Ended.aborted s2)
    else some (Ended.aborted s0)
  else some (Ended.aborted s)

/-- The call `Scenario::run` in an environment in which every file opens: the returned
`success` and the object afterwards. -/
def run (mt : Modeltime) (printDependencyGraphs : Bool) (solverSolve : Int → Bool)
    (s : Scenario) : Option (Bool × Scenario) :=
  match runWith (fun _ => true) mt printDependencyGraphs solverSolve s with
  | some (Ended.returned r) => some r
  | _ => none

/-- The calls the body of the period loop of `Scenario::run` makes for period `per`, in
program order. -/
def periodCalls (printDependencyGraphs : Bool) (per : Int) : List Event :=
  [Event.nullSuppliesAndDemands per, Event.init_to_last per, Event.initCalc per]
    ++ (if per = 0 then [Event.nullSuppliesAndDemands per] else [])
    ++ [Event.calc per, Event.solverSolve per, Event.finalizePeriod per,
        Event.updateSummary per, Event.emiss_ind per, Event.toDebugXML per,
        Event.csvSGMOutputFile per]
    ++ (if printDependencyGraphs then [Event.printGraphs per] else [])

/-- The periods before `n` at which the solver fails, in increasing order. -/
def failedPeriods (solverSolve : Int → Bool) (n : Int) : List Int :=
  (periodRange 0 n).filter (fun p => !(solverSolve p))

/-- Whether the call is a solve or the finalization of a period. -/
def isSolveOrFinalize : Event → Bool
  | Event.solverSolve _ => true
  | Event.finalizePeriod _ => true
  | _ => false

/-- Whether the call is a reset of the accumulators, a calculation pass of the world or a
solve. -/
def isResetCalcOrSolve : Event → Bool
  | Event.nullSuppliesAndDemands _ => true
  | Event.initCalc _ => true
  | Event.calc _ => true
  | Event.solverSolve _ => true
  | _ => false

/-- Whether the call is a reset of the accumulators. -/
def isReset : Event → Bool
  | Event.nullSuppliesAndDemands _ => true
  | _ => false

end Scenario

/-- A scenario after parsing and `completeInit`: named, with a world and a solver, nothing
run yet. -/
def sampleScenario : Scenario :=
  { name := "sample"
    runCompleted := false
    unsolvedPeriods := []
    world := true
    solver := true
    calls := [] }

/-! ## Theorems -/

set_option linter.unusedSectionVars false

namespace Dbl

variable {F : Type} [LinearOrderedField F] [FloorRing F]

theorem fin_add_fin (a b : F) : (fin a + fin b : Dbl F) = fin (a + b) := rfl

theorem fin_mul_fin (a b : F) : (fin a * fin b : Dbl F) = fin (a * b) := rfl

theorem fin_div_fin (a b : F) (hb : b ≠ 0) : (fin a / fin b : Dbl F) = fin (a / b) := by
  show div (fin a) (fin b) = fin (a / b)
  simp [div, hb]

theorem isInt_intCast (n : Int) : isInt ((n : Int) : F) = true := by
  simp [isInt]

/-- The exact case of `pow`: a finite base other than 0 and 1, a non-zero integer
exponent. -/
theorem pow_fin_ofInt (lib : Libm F) (a : F) (n : Int) (h0 : a ≠ 0) (h1 : a ≠ 1)
    (hn : n ≠ 0) : pow lib (fin a) (ofInt n) = fin (a ^ n) := by
  have hn2 : ((n : Int) : F) ≠ 0 := by exact_mod_cast hn
  simp [pow, ofInt, powFin, hn2, h0, h1, isInt_intCast]

/-- The case `pow( 1, y ) = 1` for every `y`, NaN included. -/
theorem pow_one_left (lib : Libm F) (y : Dbl F) : pow lib (fin 1) y = fin 1 := by
  cases y <;> simp [pow]

/-- The case `pow( x, 0 ) = 1` for every `x`, NaN included. -/
theorem pow_zero_right (lib : Libm F) (x : Dbl F) : pow lib x (fin 0) = fin 1 := by
  cases x <;> simp [pow]

theorem mul_fin_one (x : Dbl F) : x * fin 1 = x := by
  cases x with
  | nan => rfl
  | pinf => show infTimes true (1 : F) = pinf; simp [infTimes]
  | ninf => show infTimes false (1 : F) = ninf; simp [infTimes]
  | fin a => rw [fin_mul_fin, mul_one]

theorem fin_sub_fin (a b : F) : (fin a - fin b : Dbl F) = fin (a - b) := by
  show add (fin a) (neg (fin b)) = fin (a - b)
  simp [add, neg, sub_eq_add_neg]

theorem gt_zero_mul (x y : Dbl F) (hx : gt x (fin 0) = true) (hy : gt y (fin 0) = true) :
    gt (x * y) (fin 0) = true := by
  cases x <;> cases y <;>
    first
    | (simp [gt, lt] at hx; done)
    | (simp [gt, lt] at hy; done)
    | skip
  · rfl
  · rename_i b
    have hb : (0 : F) < b := by simpa [gt, lt] using hy
    show lt (fin 0) (infTimes true b) = true
    simp [infTimes, hb, lt]
  · rename_i a
    have ha : (0 : F) < a := by simpa [gt, lt] using hx
    show lt (fin 0) (infTimes true a) = true
    simp [infTimes, ha, lt]
  · rename_i a b
    have ha : (0 : F) < a := by simpa [gt, lt] using hx
    have hb : (0 : F) < b := by simpa [gt, lt] using hy
    show lt (fin 0) (fin (a * b)) = true
    simp [lt, mul_pos ha hb]

theorem lt_eq_false_of_le (x y : Dbl F) (h : le x y = true) : lt y x = false := by
  cases x <;> cases y <;> simp_all [le, lt]

theorem ninf_mul_fin (b : F) : (ninf * fin b : Dbl F) = infTimes false b := rfl

theorem nan_mul (x : Dbl F) : (nan * x : Dbl F) = nan := rfl

end Dbl

namespace util

variable {F : Type} [LinearOrderedField F] [FloorRing F]

theorem isValidNumber_fin (a : F) : isValidNumber (Dbl.fin a) = true := by
  simp [isValidNumber, Dbl.eq, Dbl.ne, infinity]

theorem isValidNumber_of_isFinite (x : Dbl F) (h : Dbl.isFinite x = true) :
    isValidNumber x = true := by
  cases x <;> simp_all [Dbl.isFinite, isValidNumber_fin]

theorem isValidNumber_nan : isValidNumber (Dbl.nan : Dbl F) = false := by
  simp [isValidNumber, Dbl.eq, Dbl.ne, infinity]

theorem isValidNumber_pinf : isValidNumber (Dbl.pinf : Dbl F) = false := by
  simp [isValidNumber, Dbl.eq, Dbl.ne, infinity]

theorem isValidNumber_ninf : isValidNumber (Dbl.ninf : Dbl F) = true := by
  simp [isValidNumber, Dbl.eq, Dbl.ne, infinity]

end util

/-! ### Loops over periods -/

theorem mem_periodRange (lo hi p : Int) : p ∈ periodRange lo hi ↔ lo ≤ p ∧ p < hi := by
  unfold periodRange
  simp only [List.mem_map, List.mem_range, Int.ofNat_eq_coe]
  constructor
  · rintro ⟨k, hk, rfl⟩
    omega
  · rintro ⟨h1, h2⟩
    exact ⟨(p - lo).toNat, by omega, by omega⟩

theorem forEachPeriod_append {σ : Type} (body : σ → Int → Option σ) (l1 l2 : List Int)
    (s : σ) :
    forEachPeriod body (l1 ++ l2) s
      = (forEachPeriod body l1 s).bind (forEachPeriod body l2) := by
  induction l1 generalizing s with
  | nil => rfl
  | cons per rest ih =>
    simp only [List.cons_append, forEachPeriod]
    cases body s per with
    | none => rfl
    | some s1 => exact ih s1

/-- Loop invariant rule: `P k` holds after the first `k` periods of the range. -/
theorem forEachPeriod_invariant {σ : Type} (body : σ → Int → Option σ) (lo hi : Int)
    (P : Nat → σ → Prop) (s0 : σ) (h0 : P 0 s0)
    (hstep : ∀ (k : Nat) (s : σ), k < (hi - lo).toNat → P k s →
      ∃ s1, body s (lo + Int.ofNat k) = some s1 ∧ P (k + 1) s1) :
    ∃ s1, forEachPeriod body (periodRange lo hi) s0 = some s1 ∧ P (hi - lo).toNat s1 := by
  unfold periodRange
  generalize (hi - lo).toNat = n at hstep
  induction n with
  | zero => exact ⟨s0, rfl, h0⟩
  | succ n ih =>
    obtain ⟨s1, h1, hP1⟩ := ih (fun k s hk hP => hstep k s (Nat.lt_succ_of_lt hk) hP)
    obtain ⟨s2, h2, hP2⟩ := hstep n s1 (Nat.lt_succ_self n) hP1
    refine ⟨s2, ?_, hP2⟩
    rw [List.range_succ, List.map_append, forEachPeriod_append, h1]
    simp only [List.map_cons, List.map_nil, Option.some_bind, forEachPeriod, h2]

theorem periodRange_zero_succ (n : Nat) :
    periodRange 0 (Int.ofNat (n + 1)) = periodRange 0 (Int.ofNat n) ++ [Int.ofNat n] := by
  unfold periodRange
  simp [List.range_succ]

theorem periodRange_toNat (hi : Int) :
    periodRange 0 (Int.ofNat (hi - 0).toNat) = periodRange 0 hi := by
  unfold periodRange
  have h : (Int.ofNat (hi - 0).toNat - 0).toNat = (hi - 0).toNat := by
    simp only [Int.ofNat_eq_coe]; omega
  rw [h]

/-- The natural logarithm of 2 to nineteen digits, from seventy terms of the series of
`log( 1 - x )` at `x = 1 / 2`. -/
theorem log_two_bounds :
    (0.6931471805599453094 : ℝ) < Real.log 2 ∧ Real.log 2 < 0.6931471805599453095 := by
  have t : |(2⁻¹ : ℝ)| = 2⁻¹ := by rw [abs_of_pos]; norm_num
  have z := Real.abs_log_sub_add_sum_range_le (show |(2⁻¹ : ℝ)| < 1 by rw [t]; norm_num) 70
  rw [t] at z
  norm_num1 at z
  rw [one_div (2 : ℝ), Real.log_inv, ← sub_eq_add_neg, abs_sub_comm, abs_le] at z
  constructor
  · have h := z.1
    norm_num at h ⊢
    linarith
  · have h := z.2
    norm_num at h ⊢
    linarith

/-- The exponential near 0 between its first-order expansion and a quadratic. -/
theorem exp_small_bounds (u : ℝ) (h1 : u ≤ 1 / 2) :
    1 + u ≤ Real.exp u ∧ Real.exp u ≤ 1 + u + 2 * u ^ 2 := by
  constructor
  · have := Real.add_one_le_exp u
    linarith
  · have h2 : Real.exp (-u) ≥ 1 - u := by
      have := Real.add_one_le_exp (-u)
      linarith
    have h3 : Real.exp u * Real.exp (-u) = 1 := by
      rw [← Real.exp_add]; simp
    have hpos : 0 < Real.exp u := Real.exp_pos u
    have h4 : Real.exp u * (1 - u) ≤ 1 := by
      calc Real.exp u * (1 - u) ≤ Real.exp u * Real.exp (-u) :=
            mul_le_mul_of_nonneg_left h2 hpos.le
        _ = 1 := h3
    have h5 : (1 + u + 2 * u ^ 2) * (1 - u) ≥ 1 := by
      have : 0 ≤ u ^ 2 * (1 - 2 * u) := mul_nonneg (sq_nonneg u) (by linarith)
      nlinarith
    have h6 : 0 < 1 - u := by linarith
    by_contra hc
    push_neg at hc
    have := mul_lt_mul_of_pos_right hc h6
    linarith

/-- Every entry of `roundedLibm` is the binary64 number nearest to the exact value: it lies
less than half a unit in the last place from the real logarithm, respectively the real
power, at its binary64 arguments. -/
theorem roundedLibm_nearest :
    |realLibm.rlog 4 - ((roundedLibm.rlog 4 : ℚ) : ℝ)| < 1 / 2 ^ 53
      ∧ |realLibm.rlog (1 / 8) - ((roundedLibm.rlog (1 / 8) : ℚ) : ℝ)| < 1 / 2 ^ 52
      ∧ |realLibm.rpow (1 / 8) (-3002399751580331 / 4503599627370496)
          - ((roundedLibm.rpow (1 / 8) (-3002399751580331 / 4503599627370496) : ℚ) : ℝ)|
          < 1 / 2 ^ 51
      ∧ |realLibm.rpow 64 (6004799503160661 / 18014398509481984)
          - ((roundedLibm.rpow 64 (6004799503160661 / 18014398509481984) : ℚ) : ℝ)|
          < 1 / 2 ^ 52 := by
  obtain ⟨hl1, hl2⟩ := log_two_bounds
  have hv1 : roundedLibm.rlog 4 = 6243314768165359 / 4503599627370496 := by
    norm_num [roundedLibm]
  have hv2 : roundedLibm.rlog (1 / 8) = -4682486076124019 / 2251799813685248 :=
    (if_neg (by norm_num)).trans (if_pos rfl)
  have hv3 : roundedLibm.rpow (1 / 8) (-3002399751580331 / 4503599627370496)
      = 4503599627370497 / 1125899906842624 :=
    if_pos ⟨rfl, by norm_num⟩
  have hv4 : roundedLibm.rpow 64 (6004799503160661 / 18014398509481984)
      = 9007199254740991 / 2251799813685248 :=
    (if_neg (fun h => absurd h.1 (by norm_num))).trans (if_pos ⟨rfl, by norm_num⟩)
  have hlog4 : Real.log 4 = 2 * Real.log 2 := by
    have : (4 : ℝ) = 2 ^ 2 := by norm_num
    rw [this, Real.log_pow]; norm_num
  have hlog8 : Real.log (1 / 8) = -(3 * Real.log 2) := by
    have : (1 / 8 : ℝ) = (2 ^ 3)⁻¹ := by norm_num
    rw [this, Real.log_inv, Real.log_pow]; norm_num
  refine ⟨?_, ?_, ?_, ?_⟩
  · show |Real.log 4 - _| < _
    rw [hv1, hlog4, abs_lt]
    push_cast
    constructor <;> norm_num at hl1 hl2 ⊢ <;> linarith
  · show |Real.log (1 / 8) - _| < _
    rw [hv2, hlog8, abs_lt]
    push_cast
    constructor <;> norm_num at hl1 hl2 ⊢ <;> linarith
  · show |(1 / 8 : ℝ) ^ ((-3002399751580331 : ℝ) / 4503599627370496) - _| < _
    rw [hv3]
    have hx : (1 / 8 : ℝ) ^ ((-3002399751580331 : ℝ) / 4503599627370496)
        = 4 * Real.exp (Real.log 2 / 2 ^ 52) := by
      have h8 : (1 / 8 : ℝ) = 2 ^ (-3 : ℝ) := by
        rw [Real.rpow_neg (by norm_num)]; norm_num
      rw [h8, ← Real.rpow_mul (by norm_num : (0 : ℝ) ≤ 2)]
      have he : (-3 : ℝ) * (-3002399751580331 / 4503599627370496) = 2 + 1 / 2 ^ 52 := by
        norm_num
      rw [he, Real.rpow_add (by norm_num : (0 : ℝ) < 2), Real.rpow_def_of_pos
        (by norm_num : (0 : ℝ) < 2) (1 / 2 ^ 52)]
      have h2 : (2 : ℝ) ^ (2 : ℝ) = 4 := by norm_num
      rw [h2]
      congr 2
      ring
    rw [hx]
    have hu0 : 0 ≤ Real.log 2 / 2 ^ 52 := by positivity
    have hu1 : Real.log 2 / 2 ^ 52 ≤ 1 / 2 := by
      have : Real.log 2 / 2 ^ 52 ≤ Real.log 2 := div_le_self (by linarith) (by norm_num)
      linarith
    obtain ⟨he1, he2⟩ := exp_small_bounds _ hu1
    have hub : Real.log 2 / 2 ^ 52 < 0.6931471805599453095 / 2 ^ 52 :=
      div_lt_div_of_pos_right hl2 (by positivity)
    have hlb : 0.6931471805599453094 / 2 ^ 52 < Real.log 2 / 2 ^ 52 :=
      div_lt_div_of_pos_right hl1 (by positivity)
    have hsq : 2 * (Real.log 2 / 2 ^ 52) ^ 2 ≤ 2 * (Real.log 2 / 2 ^ 52) * (1 / 2 ^ 52) := by
      have h52 : Real.log 2 / 2 ^ 52 ≤ 1 / 2 ^ 52 :=
        div_le_div_of_nonneg_right (by linarith) (by positivity)
      have := mul_le_mul_of_nonneg_left h52 hu0
      rw [sq]
      linarith
    rw [abs_lt]
    push_cast
    constructor
    · norm_num at hub hlb hsq ⊢
      nlinarith
    · norm_num at hub hlb hsq ⊢
      nlinarith
  · show |(64 : ℝ) ^ ((6004799503160661 : ℝ) / 18014398509481984) - _| < _
    rw [hv4]
    have hx : (64 : ℝ) ^ ((6004799503160661 : ℝ) / 18014398509481984)
        = 4 / Real.exp (Real.log 2 / 2 ^ 53) := by
      have h64 : (64 : ℝ) = 2 ^ (6 : ℝ) := by norm_num
      rw [h64, ← Real.rpow_mul (by norm_num : (0 : ℝ) ≤ 2)]
      have he : (6 : ℝ) * (6004799503160661 / 18014398509481984) = 2 + -(1 / 2 ^ 53) := by
        norm_num
      rw [he, Real.rpow_add (by norm_num : (0 : ℝ) < 2), Real.rpow_def_of_pos
        (by norm_num : (0 : ℝ) < 2) (-(1 / 2 ^ 53))]
      have h2 : (2 : ℝ) ^ (2 : ℝ) = 4 := by norm_num
      have h3 : Real.log 2 * -(1 / 2 ^ 53) = -(Real.log 2 / 2 ^ 53) := by ring
      rw [h2, h3, Real.exp_neg]
      ring
    rw [hx]
    have hu0 : 0 ≤ Real.log 2 / 2 ^ 53 := by positivity
    have hu1 : Real.log 2 / 2 ^ 53 ≤ 1 / 2 := by
      have : Real.log 2 / 2 ^ 53 ≤ Real.log 2 := div_le_self (by linarith) (by norm_num)
      linarith
    obtain ⟨he1, he2⟩ := exp_small_bounds _ hu1
    have hub : Real.log 2 / 2 ^ 53 < 0.6931471805599453095 / 2 ^ 53 :=
      div_lt_div_of_pos_right hl2 (by positivity)
    have hlb : 0.6931471805599453094 / 2 ^ 53 < Real.log 2 / 2 ^ 53 :=
      div_lt_div_of_pos_right hl1 (by positivity)
    have hsq : 2 * (Real.log 2 / 2 ^ 53) ^ 2 ≤ 2 * (Real.log 2 / 2 ^ 53) * (1 / 2 ^ 53) := by
      have h53 : Real.log 2 / 2 ^ 53 ≤ 1 / 2 ^ 53 :=
        div_le_div_of_nonneg_right (by linarith) (by positivity)
      have := mul_le_mul_of_nonneg_left h53 hu0
      rw [sq]
      linarith
    have hepos : 0 < Real.exp (Real.log 2 / 2 ^ 53) := Real.exp_pos _
    rw [abs_lt]
    push_cast
    constructor
    · rw [lt_sub_iff_add_lt, lt_div_iff₀ hepos]
      norm_num at hub hlb hsq ⊢
      nlinarith
    · rw [sub_lt_iff_lt_add, div_lt_iff₀ hepos]
      norm_num at hub hlb hsq ⊢
      nlinarith

namespace GDP
variable {F : Type} [LinearOrderedField F] [FloorRing F]

theorem getPPPMERRatio_passThrough (lib : Libm F) (mt : Modeltime) (g : GDP F)
    (period pb : Int) (x : Dbl F) (hl : mt.getyr_to_per 1990 = some pb)
    (h : passThrough g period pb) :
    getPPPMERRatio lib mt g period x = some (g.PPPConversionFact, g) := by
  unfold getPPPMERRatio
  by_cases hc : g.constRatio = true
  · simp [hc]
  · have h2 : period < pb ∨ Dbl.lt g.PPPConversionFact (Dbl.fin 1) = true := by
      rcases h with h | h
      · exact absurd h hc
      · exact h
    simp only [BASE_PPP_YEAR, hl]
    rw [if_neg hc, if_pos h2]

theorem getPPPMERRatio_converge (lib : Libm F) (mt : Modeltime) (g : GDP F)
    (period pb : Int) (x : Dbl F) (hl : mt.getyr_to_per 1990 = some pb)
    (h : ¬ passThrough g period pb) :
    getPPPMERRatio lib mt g period x =
      some (if Dbl.gt x CROSSOVER_POINT = true then Dbl.fin 1
            else Dbl.pow lib (x / CROSSOVER_POINT) (deltaAt lib g period pb x),
            { g with PPPDelta := deltaAt lib g period pb x }) := by
  unfold passThrough at h
  have hc : ¬ g.constRatio = true := fun hc => h (Or.inl hc)
  have h2 : ¬ (period < pb ∨ Dbl.lt g.PPPConversionFact (Dbl.fin 1) = true) :=
    fun h2 => h (Or.inr h2)
  unfold getPPPMERRatio deltaAt
  simp only [BASE_PPP_YEAR, hl]
  rw [if_neg hc, if_neg h2]
  by_cases hp : period = pb <;> by_cases hx : Dbl.gt x CROSSOVER_POINT = true <;>
    simp [hp, hx]

theorem getPPPMERRatio_frame (lib : Libm F) (mt : Modeltime) (g g1 : GDP F) (period : Int)
    (x r : Dbl F) (h : getPPPMERRatio lib mt g period x = some (r, g1)) :
    g1 = { g with PPPDelta := g1.PPPDelta } := by
  by_cases hc : g.constRatio = true
  · simp [getPPPMERRatio, hc] at h; rw [← h.2]
  · cases hl : mt.getyr_to_per 1990 with
    | none => simp [getPPPMERRatio, hc, BASE_PPP_YEAR, hl] at h
    | some pb =>
      by_cases hp : passThrough g period pb
      · rw [getPPPMERRatio_passThrough lib mt g period pb x hl hp] at h
        simp at h; rw [← h.2]
      · rw [getPPPMERRatio_converge lib mt g period pb x hl hp] at h
        simp at h; rw [← h.2]

theorem getPPPMERRatio_some (lib : Libm F) (mt : Modeltime) (g : GDP F) (period pb : Int)
    (x : Dbl F) (hl : mt.getyr_to_per 1990 = some pb) :
    ∃ r g1, getPPPMERRatio lib mt g period x = some (r, g1) := by
  by_cases hp : passThrough g period pb
  · exact ⟨_, _, getPPPMERRatio_passThrough lib mt g period pb x hl hp⟩
  · exact ⟨_, _, getPPPMERRatio_converge lib mt g period pb x hl hp⟩

theorem calculatePPPPerCap_some (lib : Libm F) (mt : Modeltime) (g : GDP F) (period pb : Int)
    (x : Dbl F) (hl : mt.getyr_to_per 1990 = some pb) :
    ∃ r g1, calculatePPPPerCap lib mt g period x = some (r, g1)
      ∧ g1 = { g with PPPDelta := g1.PPPDelta } := by
  obtain ⟨r, g1, h⟩ := getPPPMERRatio_some lib mt g period pb x hl
  refine ⟨r * x, g1, ?_, getPPPMERRatio_frame lib mt g g1 period x r h⟩
  simp [calculatePPPPerCap, h]

theorem calculatePPPPerCap_ne_none (lib : Libm F) (mt : Modeltime) (g : GDP F)
    (period pb : Int) (x : Dbl F) (hl : mt.getyr_to_per 1990 = some pb) :
    calculatePPPPerCap lib mt g period x ≠ none := by
  obtain ⟨r, g1, h, _⟩ := calculatePPPPerCap_some lib mt g period pb x hl
  rw [h]; simp

theorem calculatePPPPerCap_frame (lib : Libm F) (mt : Modeltime) (g g1 : GDP F)
    (period : Int) (x r : Dbl F) (h : calculatePPPPerCap lib mt g period x = some (r, g1)) :
    g1 = { g with PPPDelta := g1.PPPDelta } := by
  unfold calculatePPPPerCap at h
  cases hq : getPPPMERRatio lib mt g period x with
  | none => simp [hq] at h
  | some v =>
    obtain ⟨r0, g0⟩ := v
    simp [hq] at h
    rw [← h.2]
    exact getPPPMERRatio_frame lib mt g g0 period x r0 hq

/-- What `initialGDPcalc` leaves in the per-period vectors. -/
theorem initialGDPcalc_fields (lib : Libm F) (mt : Modeltime) (g : GDP F)
    (period p90 : Int) (population : Dbl F)
    (h90 : mt.getyr_to_per 1990 = some p90)
    (hr : period = mt.getBasePeriod ∨ (1 ≤ period ∧ period < mt.getmaxper)) :
    ∃ g1, initialGDPcalc lib mt g period population = some g1
      ∧ g1.gdpValue = Function.update g.gdpValue period (initialLevel lib mt g period)
      ∧ g1.gdpValueAdjusted
          = Function.update g.gdpValueAdjusted period (initialLevel lib mt g period)
      ∧ g1.gdpPerCapita
          = Function.update g.gdpPerCapita period (initialLevel lib mt g period / population)
      ∧ g1.gdpPerCapitaAdjusted
          = Function.update g.gdpPerCapitaAdjusted period
              (initialLevel lib mt g period / population)
      ∧ g1.gdpPerCapitaAdjustedPPP
          = Function.update g.gdpPerCapitaAdjustedPPP period
              (initialLevel lib mt g period / population)
      ∧ g1.gdpAdjustedFlag = Function.update g.gdpAdjustedFlag period (decide (period ≤ p90)) := by
  unfold initialGDPcalc
  simp only [h90]
  by_cases hb : period = mt.getBasePeriod
  · subst hb
    by_cases hp : mt.getBasePeriod ≤ p90 <;> simp only [hp, if_true, if_false] <;> split
    · rename_i heq
      exact absurd heq (calculatePPPPerCap_ne_none lib mt _ _ p90 _ h90)
    · rename_i ppp g7 heq
      have hf := calculatePPPPerCap_frame lib mt _ g7 _ _ ppp heq
      refine ⟨_, rfl, ?_, ?_, ?_, ?_, ?_, ?_⟩ <;> rw [hf] <;>
        simp [initialLevel, hp]
    · rename_i heq
      exact absurd heq (calculatePPPPerCap_ne_none lib mt _ _ p90 _ h90)
    · rename_i ppp g7 heq
      have hf := calculatePPPPerCap_frame lib mt _ g7 _ _ ppp heq
      refine ⟨_, rfl, ?_, ?_, ?_, ?_, ?_, ?_⟩ <;> rw [hf] <;>
        simp [initialLevel, hp]
  · have h1 : 1 ≤ period ∧ period < mt.getmaxper := by
      rcases hr with h | h
      · exact absurd h hb
      · exact h
    have ha : 0 ≤ period ∧ period < mt.getmaxper := ⟨by omega, h1.2⟩
    have hb2 : 0 ≤ period - 1 ∧ period - 1 < mt.getmaxper := ⟨by omega, by omega⟩
    by_cases hp : period ≤ p90 <;>
      simp only [hp, hb, if_false, getLaborForce, getTotalLaborProductivity, ha, hb2,
        and_self, if_true] <;> split
    · rename_i heq
      exact absurd heq (calculatePPPPerCap_ne_none lib mt _ _ p90 _ h90)
    · rename_i ppp g7 heq
      have hf := calculatePPPPerCap_frame lib mt _ g7 _ _ ppp heq
      refine ⟨_, rfl, ?_, ?_, ?_, ?_, ?_, ?_⟩ <;> rw [hf] <;>
        simp [initialLevel, hp, hb]
    · rename_i heq
      exact absurd heq (calculatePPPPerCap_ne_none lib mt _ _ p90 _ h90)
    · rename_i ppp g7 heq
      have hf := calculatePPPPerCap_frame lib mt _ g7 _ _ ppp heq
      refine ⟨_, rfl, ?_, ?_, ?_, ?_, ?_, ?_⟩ <;> rw [hf] <;>
        simp [initialLevel, hp, hb]

/-- What `adjustGDP` does in a period after the period of 1990. -/
theorem adjustGDP_after (lib : Libm F) (mt : Modeltime) (g : GDP F) (period p90 : Int)
    (priceRatio : Dbl F) (h90 : mt.getyr_to_per 1990 = some p90) (hp : p90 < period) :
    ∃ ppp delta, adjustGDP lib mt g period priceRatio = some
      { g with
        gdpValueAdjusted :=
          Function.update g.gdpValueAdjusted period (adjustedLevel lib g period priceRatio)
        gdpPerCapitaAdjusted :=
          Function.update g.gdpPerCapitaAdjusted period
            (g.gdpPerCapita period * adjustedLevel lib g period priceRatio / g.gdpValue period)
        gdpAdjustedFlag := Function.update g.gdpAdjustedFlag period true
        gdpPerCapitaAdjustedPPP := Function.update g.gdpPerCapitaAdjustedPPP period ppp
        PPPDelta := delta } := by
  unfold adjustGDP
  have hp2 : period > p90 := hp
  simp only [h90, hp2, if_true]
  split
  · rename_i heq
    exact absurd heq (calculatePPPPerCap_ne_none lib mt _ _ p90 _ h90)
  · rename_i ppp g5 heq
    have hf := calculatePPPPerCap_frame lib mt _ g5 _ _ ppp heq
    refine ⟨ppp, g5.PPPDelta, ?_⟩
    rw [hf]
    by_cases hv : util.isValidNumber
        (g.gdpValue period * Dbl.pow lib priceRatio g.EnergyGDPElas) = true <;>
      simp [adjustedLevel, hv]

/-- What `adjustGDP` does in a period at or before the period of 1990. -/
theorem adjustGDP_notAfter (lib : Libm F) (mt : Modeltime) (g : GDP F) (period p90 : Int)
    (priceRatio : Dbl F) (h90 : mt.getyr_to_per 1990 = some p90) (hp : period ≤ p90) :
    ∃ ppp delta, adjustGDP lib mt g period priceRatio = some
      { g with
        gdpPerCapitaAdjustedPPP := Function.update g.gdpPerCapitaAdjustedPPP period ppp
        PPPDelta := delta } := by
  unfold adjustGDP
  have hp2 : ¬ period > p90 := not_lt.mpr hp
  simp only [h90, hp2, if_false]
  split
  · rename_i heq
    exact absurd heq (calculatePPPPerCap_ne_none lib mt _ _ p90 _ h90)
  · rename_i ppp g5 heq
    have hf := calculatePPPPerCap_frame lib mt _ g5 _ _ ppp heq
    refine ⟨ppp, g5.PPPDelta, ?_⟩
    rw [hf]

/-- A product that is NaN or +infinity is rejected by `isValidNumber`, and the
level `adjustGDP` keeps is then the unadjusted one. -/
theorem adjustedLevel_of_nan_or_pinf (lib : Libm F) (g : GDP F) (period : Int)
    (priceRatio : Dbl F)
    (h : g.gdpValue period * Dbl.pow lib priceRatio g.EnergyGDPElas = Dbl.nan
      ∨ g.gdpValue period * Dbl.pow lib priceRatio g.EnergyGDPElas = Dbl.pinf) :
    adjustedLevel lib g period priceRatio = g.gdpValue period := by
  unfold adjustedLevel
  rcases h with h | h <;> rw [h] <;>
    simp [util.isValidNumber_nan, util.isValidNumber_pinf]

/-! ### The claims -/

/-- C1: `initialGDPcalc( period, population )` returns, and stores the unadjusted
GDP by this definition: in the base period `gdpValue[ period ]` is `baseGDP`;
in any other period it is `gdpValueAdjusted[ period - 1 ]` times
`pow( 1 + laborProdGrowthRate[ period ], timestep( period ) )` times the
labor-force ratio `laborForce[ period ] / laborForce[ period - 1 ]`; in both
cases `gdpValueAdjusted[ period ]` equals `gdpValue[ period ]`. -/
theorem initialGDPcalc_stores_unadjusted (lib : Libm F) (mt : Modeltime) (g : GDP F)
    (period p90 : Int) (population : Dbl F)
    (h90 : mt.getyr_to_per 1990 = some p90)
    (hr : period = mt.getBasePeriod ∨ (1 ≤ period ∧ period < mt.getmaxper)) :
    ∃ g1, initialGDPcalc lib mt g period population = some g1
      ∧ (period = mt.getBasePeriod → g1.gdpValue period = g.baseGDP)
      ∧ (period ≠ mt.getBasePeriod →
          g1.gdpValue period
            = g.gdpValueAdjusted (period - 1)
                * Dbl.pow lib (Dbl.fin 1 + g.laborProdGrowthRate period)
                    (Dbl.ofInt (mt.gettimestep period))
                * (g.laborForce period / g.laborForce (period - 1)))
      ∧ g1.gdpValueAdjusted period = g1.gdpValue period := by
  obtain ⟨g1, h, hv, hva, _⟩ := initialGDPcalc_fields lib mt g period p90 population h90 hr
  refine ⟨g1, h, ?_, ?_, ?_⟩
  · intro hb
    rw [hv, Function.update_same, initialLevel, if_pos hb]
  · intro hb
    rw [hv, Function.update_same, initialLevel, if_neg hb]
  · rw [hv, hva, Function.update_same, Function.update_same]

/-- C1, the worked example: base GDP 1000, growth rate 0.02, a five-year step and
a labor-force ratio of 102 / 100 give `gdpValue[ 1 ] = 1126.162419264`. -/
theorem initialGDPcalc_stores_unadjusted_witness :
    sampleTime.getyr_to_per 1990 = some 1
      ∧ (1 ≤ (1 : Int) ∧ (1 : Int) < sampleTime.getmaxper)
      ∧ ∃ g1, initialGDPcalc ratLibm sampleTime (sampleGDP ℚ) 1 (Dbl.fin 200) = some g1
          ∧ g1.gdpValue 1 = Dbl.fin 1126.162419264
          ∧ g1.gdpValueAdjusted 1 = g1.gdpValue 1 := by
  have h90 : sampleTime.getyr_to_per 1990 = some 1 := by decide
  have hr : 1 ≤ (1 : Int) ∧ (1 : Int) < sampleTime.getmaxper := by decide
  obtain ⟨g1, h, _, hv, hva⟩ :=
    initialGDPcalc_stores_unadjusted ratLibm sampleTime (sampleGDP ℚ) 1 1 (Dbl.fin 200)
      h90 (Or.inr hr)
  refine ⟨h90, hr, g1, h, ?_, hva⟩
  rw [hv (by decide)]
  have hp : Dbl.pow ratLibm (Dbl.fin (1 + 2 / 100)) (Dbl.ofInt 5)
      = Dbl.fin ((1 + 2 / 100 : ℚ) ^ (5 : Int)) :=
    Dbl.pow_fin_ofInt ratLibm _ 5 (by norm_num) (by norm_num) (by norm_num)
  simp [sampleGDP, sampleTime, Modeltime.gettimestep, Dbl.fin_add_fin, Dbl.fin_mul_fin,
    Dbl.fin_div_fin]
  rw [hp, Dbl.fin_mul_fin, Dbl.fin_mul_fin]
  norm_num

/-- C2, refuted as stated: in the period of 1990 itself ("at" the adjustment-begin
year) the product `gdpValue * pow( priceRatio, EnergyGDPElas )` is the finite
number 500, and `adjustGDP` leaves `gdpValueAdjusted` at 1000. -/
theorem adjustGDP_at_begin_period_counterexample :
    sampleTime.getyr_to_per 1990 = some 1
      ∧ (sampleGDP ℚ).gdpValue 1 * Dbl.pow ratLibm (Dbl.fin 2) (sampleGDP ℚ).EnergyGDPElas
          = Dbl.fin 500
      ∧ ∃ g1, adjustGDP ratLibm sampleTime (sampleGDP ℚ) 1 (Dbl.fin 2) = some g1
          ∧ g1.gdpValueAdjusted 1 = Dbl.fin 1000
          ∧ g1.gdpValueAdjusted 1
              ≠ (sampleGDP ℚ).gdpValue 1
                  * Dbl.pow ratLibm (Dbl.fin 2) (sampleGDP ℚ).EnergyGDPElas := by
  have h90 : sampleTime.getyr_to_per 1990 = some 1 := by decide
  have hprod : (sampleGDP ℚ).gdpValue 1
      * Dbl.pow ratLibm (Dbl.fin 2) (sampleGDP ℚ).EnergyGDPElas = Dbl.fin 500 := by
    have hpw : Dbl.pow ratLibm (Dbl.fin 2) (Dbl.ofInt (-1)) = Dbl.fin ((2 : ℚ) ^ (-1 : Int)) :=
      Dbl.pow_fin_ofInt ratLibm _ (-1) (by norm_num) (by norm_num) (by norm_num)
    have he : (sampleGDP ℚ).EnergyGDPElas = Dbl.ofInt (-1) := by
      simp [sampleGDP, Dbl.ofInt]
    rw [he, hpw]
    simp [sampleGDP, Dbl.fin_mul_fin]
    norm_num
  obtain ⟨ppp, delta, h⟩ :=
    adjustGDP_notAfter ratLibm sampleTime (sampleGDP ℚ) 1 1 (Dbl.fin 2) h90 (le_refl 1)
  refine ⟨h90, hprod, _, h, ?_, ?_⟩
  · simp [sampleGDP]
  · rw [hprod]
    simp [sampleGDP]

/-- C2, amended: for a period strictly after the period of 1990 and a product
`gdpValue[ period ] * pow( priceRatio, EnergyGDPElas )` that is a finite
number, `adjustGDP` returns, stores that product in
`gdpValueAdjusted[ period ]` and sets `gdpAdjustedFlag[ period ]`. -/
theorem adjustGDP_stores_product (lib : Libm F) (mt : Modeltime) (g : GDP F)
    (period p90 : Int) (priceRatio : Dbl F)
    (h90 : mt.getyr_to_per 1990 = some p90) (hp : p90 < period)
    (hfin : Dbl.isFinite (g.gdpValue period * Dbl.pow lib priceRatio g.EnergyGDPElas) = true) :
    ∃ g1, adjustGDP lib mt g period priceRatio = some g1
      ∧ g1.gdpValueAdjusted period
          = g.gdpValue period * Dbl.pow lib priceRatio g.EnergyGDPElas
      ∧ g1.gdpAdjustedFlag period = true := by
  obtain ⟨ppp, delta, h⟩ := adjustGDP_after lib mt g period p90 priceRatio h90 hp
  refine ⟨_, h, ?_, ?_⟩
  · simp [adjustedLevel, util.isValidNumber_of_isFinite _ hfin]
  · simp

/-- C2, amended, at a concrete input: period 2 of the sample horizon with price
ratio 2 and elasticity -1 stores 1000 / 2 = 500. -/
theorem adjustGDP_stores_product_witness :
    sampleTime.getyr_to_per 1990 = some 1
      ∧ (1 : Int) < 2
      ∧ Dbl.isFinite ((sampleGDP ℚ).gdpValue 2
          * Dbl.pow ratLibm (Dbl.fin 2) (sampleGDP ℚ).EnergyGDPElas) = true
      ∧ ∃ g1, adjustGDP ratLibm sampleTime (sampleGDP ℚ) 2 (Dbl.fin 2) = some g1
          ∧ g1.gdpValueAdjusted 2 = Dbl.fin 500
          ∧ g1.gdpAdjustedFlag 2 = true := by
  have h90 : sampleTime.getyr_to_per 1990 = some 1 := by decide
  have hprod : (sampleGDP ℚ).gdpValue 2
      * Dbl.pow ratLibm (Dbl.fin 2) (sampleGDP ℚ).EnergyGDPElas = Dbl.fin 500 := by
    have hpw : Dbl.pow ratLibm (Dbl.fin 2) (Dbl.ofInt (-1)) = Dbl.fin ((2 : ℚ) ^ (-1 : Int)) :=
      Dbl.pow_fin_ofInt ratLibm _ (-1) (by norm_num) (by norm_num) (by norm_num)
    have he : (sampleGDP ℚ).EnergyGDPElas = Dbl.ofInt (-1) := by
      simp [sampleGDP, Dbl.ofInt]
    rw [he, hpw]
    simp [sampleGDP, Dbl.fin_mul_fin]
    norm_num
  have hfin : Dbl.isFinite ((sampleGDP ℚ).gdpValue 2
      * Dbl.pow ratLibm (Dbl.fin 2) (sampleGDP ℚ).EnergyGDPElas) = true := by
    rw [hprod]; rfl
  obtain ⟨g1, h, hv, hflag⟩ :=
    adjustGDP_stores_product ratLibm sampleTime (sampleGDP ℚ) 2 1 (Dbl.fin 2) h90
      (by decide) hfin
  exact ⟨h90, by decide, hfin, g1, h, by rw [hv, hprod], hflag⟩

theorem not_passThrough_of (g : GDP F) (period pb : Int) (hc : g.constRatio = false)
    (hper : pb ≤ period) (hC : Dbl.lt g.PPPConversionFact (Dbl.fin 1) = false) :
    ¬ passThrough g period pb := by
  unfold passThrough
  rintro (h | h | h)
  · rw [hc] at h; exact Bool.noConfusion h
  · omega
  · rw [hC] at h; exact Bool.noConfusion h

/-- C3, the code at the failing input: with `gdpValue[ 2 ] = -1000`, price ratio 0
and elasticity -1 the product is `-1000 * pow( 0, -1 ) = -1000 * (+infinity)`,
which is -infinity; `isValidNumber` accepts it, and `adjustGDP` stores
-infinity in `gdpValueAdjusted[ 2 ]` although `gdpValue[ 2 ]` is finite. -/
theorem adjustGDP_stores_negative_infinity (lib : Libm ℚ) :
    ({ sampleGDP ℚ with gdpValue := fun _ => Dbl.fin (-1000) } : GDP ℚ).gdpValue 2
        * Dbl.pow lib (Dbl.fin 0) (sampleGDP ℚ).EnergyGDPElas = Dbl.ninf
      ∧ util.isValidNumber (Dbl.ninf : Dbl ℚ) = true
      ∧ ∃ g1, adjustGDP lib sampleTime
            { sampleGDP ℚ with gdpValue := fun _ => Dbl.fin (-1000) } 2 (Dbl.fin 0) = some g1
          ∧ g1.gdpValue 2 = Dbl.fin (-1000)
          ∧ g1.gdpValueAdjusted 2 = Dbl.ninf
          ∧ g1.gdpAdjustedFlag 2 = true := by
  have h90 : sampleTime.getyr_to_per 1990 = some 1 := by decide
  have hpw : Dbl.pow lib (Dbl.fin 0) (sampleGDP ℚ).EnergyGDPElas = Dbl.pinf := by
    simp [sampleGDP, Dbl.pow, Dbl.powFin]
  have hprod : ({ sampleGDP ℚ with gdpValue := fun _ => Dbl.fin (-1000) } : GDP ℚ).gdpValue 2
      * Dbl.pow lib (Dbl.fin 0) (sampleGDP ℚ).EnergyGDPElas = Dbl.ninf := by
    rw [hpw]
    show Dbl.mul (Dbl.fin (-1000)) Dbl.pinf = Dbl.ninf
    simp [Dbl.mul, Dbl.infTimes]
  obtain ⟨ppp, delta, h⟩ := adjustGDP_after lib sampleTime
    { sampleGDP ℚ with gdpValue := fun _ => Dbl.fin (-1000) } 2 1 (Dbl.fin 0) h90 (by decide)
  refine ⟨hprod, util.isValidNumber_ninf, _, h, rfl, ?_, ?_⟩
  · have hprod2 : Dbl.fin (-1000) * Dbl.pow lib (Dbl.fin 0) (sampleGDP ℚ).EnergyGDPElas
        = Dbl.ninf := hprod
    simp [adjustedLevel, hprod2, util.isValidNumber_ninf]
  · simp

/-- C4: with the period `pb` of `BASE_PPP_YEAR` registered, `getPPPMERRatio( period, x )`
returns, and its value is the configured `PPPConversionFact` if `constRatio`
is set or `period < pb` or `PPPConversionFact < 1`; otherwise 1 if
`x > 15`; otherwise `pow( x / 15, delta )` with `delta` equal to
`log( PPPConversionFact ) / log( x / 15 )` when `period = pb` and to the cached
`PPPDelta` for any later period. -/
theorem getPPPMERRatio_piecewise (lib : Libm F) (mt : Modeltime) (g : GDP F)
    (period pb : Int) (x : Dbl F) (hl : mt.getyr_to_per BASE_PPP_YEAR = some pb) :
    ∃ g1, getPPPMERRatio lib mt g period x = some
      (if g.constRatio = true ∨ period < pb
            ∨ Dbl.lt g.PPPConversionFact (Dbl.fin 1) = true then
          g.PPPConversionFact
        else if Dbl.gt x (Dbl.fin 15) = true then Dbl.fin 1
        else
          Dbl.pow lib (x / Dbl.fin 15)
            (if period = pb then
              Dbl.log lib g.PPPConversionFact / Dbl.log lib (x / Dbl.fin 15)
            else g.PPPDelta),
        g1) := by
  by_cases hp : passThrough g period pb
  · refine ⟨g, ?_⟩
    rw [getPPPMERRatio_passThrough lib mt g period pb x hl hp]
    unfold passThrough at hp
    rw [if_pos hp]
  · refine ⟨{ g with PPPDelta := deltaAt lib g period pb x }, ?_⟩
    rw [getPPPMERRatio_converge lib mt g period pb x hl hp]
    unfold passThrough at hp
    rw [if_neg hp]
    rfl

/-- C4 at a concrete input: in period 2 of the sample horizon, with conversion
factor 2, cached exponent -1 and `x = 5`, the ratio is `(5 / 15)^(-1) = 3`. -/
theorem getPPPMERRatio_piecewise_witness :
    sampleTime.getyr_to_per BASE_PPP_YEAR = some 1
      ∧ ∃ g1, getPPPMERRatio ratLibm sampleTime
          { sampleGDP ℚ with PPPDelta := Dbl.fin (-1) } 2 (Dbl.fin 5) = some (Dbl.fin 3, g1) := by
  have hl : sampleTime.getyr_to_per BASE_PPP_YEAR = some 1 := by decide
  obtain ⟨g1, h⟩ := getPPPMERRatio_piecewise ratLibm sampleTime
    { sampleGDP ℚ with PPPDelta := Dbl.fin (-1) } 2 1 (Dbl.fin 5) hl
  refine ⟨hl, g1, ?_⟩
  rw [h]
  have hpw : Dbl.pow ratLibm (Dbl.fin (5 / 15)) (Dbl.ofInt (-1))
      = Dbl.fin ((5 / 15 : ℚ) ^ (-1 : Int)) :=
    Dbl.pow_fin_ofInt ratLibm _ (-1) (by norm_num) (by norm_num) (by norm_num)
  have he : (Dbl.fin (-1) : Dbl ℚ) = Dbl.ofInt (-1) := by simp [Dbl.ofInt]
  have hd : (Dbl.fin 5 / Dbl.fin 15 : Dbl ℚ) = Dbl.fin (5 / 15) :=
    Dbl.fin_div_fin 5 15 (by norm_num)
  simp only [sampleGDP, Dbl.lt, Dbl.gt, hd, he]
  rw [if_neg (by decide : ¬ (2 : Int) = 1), hpw]
  norm_num

/-- C5, refuted as stated: with the freeze flag set and conversion factor 5 / 2,
the call at `marketGDPperCap = 20 >= 15` returns 5 / 2, not 1. -/
theorem getPPPMERRatio_frozen_counterexample :
    Dbl.ge (Dbl.fin 20 : Dbl ℚ) (Dbl.fin 15) = true
      ∧ getPPPMERRatio ratLibm sampleTime
          { sampleGDP ℚ with constRatio := true, PPPConversionFact := Dbl.fin (5 / 2) }
          2 (Dbl.fin 20)
        = some (Dbl.fin (5 / 2),
            { sampleGDP ℚ with constRatio := true, PPPConversionFact := Dbl.fin (5 / 2) })
      ∧ (Dbl.fin (5 / 2) : Dbl ℚ) ≠ Dbl.fin 1 := by
  refine ⟨?_, ?_, ?_⟩
  · simp [Dbl.ge, Dbl.le]; norm_num
  · simp [getPPPMERRatio]
  · simp; norm_num

/-- C5, amended: whenever the call does not take the pass-through branch (freeze
flag off, period at or after the period of `BASE_PPP_YEAR`, not
`PPPConversionFact < 1`), `getPPPMERRatio( period, marketGDPperCap )` returns
exactly 1 for every `marketGDPperCap >= 15`, the boundary value 15 included,
whatever the cached `PPPDelta`. -/
theorem getPPPMERRatio_saturates (lib : Libm F) (mt : Modeltime) (g : GDP F)
    (period pb : Int) (x : Dbl F) (hl : mt.getyr_to_per BASE_PPP_YEAR = some pb)
    (hc : g.constRatio = false) (hper : pb ≤ period)
    (hC : Dbl.lt g.PPPConversionFact (Dbl.fin 1) = false)
    (hx : Dbl.ge x (Dbl.fin 15) = true) :
    ∃ g1, getPPPMERRatio lib mt g period x = some (Dbl.fin 1, g1) := by
  have hp := not_passThrough_of g period pb hc hper hC
  refine ⟨{ g with PPPDelta := deltaAt lib g period pb x }, ?_⟩
  rw [getPPPMERRatio_converge lib mt g period pb x hl hp]
  cases x with
  | nan => simp [Dbl.ge, Dbl.le] at hx
  | ninf => simp [Dbl.ge, Dbl.le] at hx
  | pinf => simp [Dbl.gt, Dbl.lt, CROSSOVER_POINT]
  | fin a =>
    have ha : (15 : F) ≤ a := by simpa [Dbl.ge, Dbl.le] using hx
    by_cases h15 : (15 : F) < a
    · simp [Dbl.gt, Dbl.lt, CROSSOVER_POINT, h15]
    · have hEq : a = 15 := le_antisymm (not_lt.mp h15) ha
      subst hEq
      have hd : (Dbl.fin 15 / CROSSOVER_POINT : Dbl F) = Dbl.fin 1 := by
        rw [CROSSOVER_POINT, Dbl.fin_div_fin 15 15 (by norm_num)]
        norm_num
      rw [hd, Dbl.pow_one_left]
      simp [Dbl.gt, Dbl.lt, CROSSOVER_POINT]

/-- C5, amended, at the boundary: the sample object in the period of 1990 with
`marketGDPperCap = 15` yields exactly 1. -/
theorem getPPPMERRatio_saturates_witness :
    sampleTime.getyr_to_per BASE_PPP_YEAR = some 1
      ∧ (sampleGDP ℚ).constRatio = false
      ∧ (1 : Int) ≤ 1
      ∧ Dbl.lt (sampleGDP ℚ).PPPConversionFact (Dbl.fin 1) = false
      ∧ Dbl.ge (Dbl.fin 15 : Dbl ℚ) (Dbl.fin 15) = true
      ∧ ∃ g1, getPPPMERRatio ratLibm sampleTime (sampleGDP ℚ) 1 (Dbl.fin 15)
          = some (Dbl.fin 1, g1) := by
  have hl : sampleTime.getyr_to_per BASE_PPP_YEAR = some 1 := by decide
  have hC : Dbl.lt (sampleGDP ℚ).PPPConversionFact (Dbl.fin 1) = false := by
    norm_num [sampleGDP, Dbl.lt]
  have hx : Dbl.ge (Dbl.fin 15 : Dbl ℚ) (Dbl.fin 15) = true := by
    simp [Dbl.ge, Dbl.le]
  exact ⟨hl, rfl, le_refl 1, hC, hx,
    getPPPMERRatio_saturates ratLibm sampleTime (sampleGDP ℚ) 1 1 (Dbl.fin 15) hl rfl
      (le_refl 1) hC hx⟩

/-- C6: with the period `pb` of `BASE_PPP_YEAR` registered, (a) a call in `pb` with the
freeze flag off and `PPPConversionFact >= 1` returns and leaves
`PPPDelta = log( PPPConversionFact ) / log( x / 15 )`; (b) a call for any later period,
with any `marketGDPperCap`, returns and leaves `PPPDelta` unchanged; (c) a call that
takes the pass-through branch returns and leaves `PPPDelta` unchanged. -/
theorem getPPPMERRatio_caches_delta (lib : Libm F) (mt : Modeltime) (g : GDP F)
    (pb : Int) (x : Dbl F) (hl : mt.getyr_to_per BASE_PPP_YEAR = some pb) :
    (g.constRatio = false → Dbl.ge g.PPPConversionFact (Dbl.fin 1) = true →
        ∃ r g1, getPPPMERRatio lib mt g pb x = some (r, g1)
          ∧ g1.PPPDelta
              = Dbl.log lib g.PPPConversionFact / Dbl.log lib (x / Dbl.fin 15))
      ∧ (∀ (period : Int) (y : Dbl F), pb < period →
          ∃ r g1, getPPPMERRatio lib mt g period y = some (r, g1)
            ∧ g1.PPPDelta = g.PPPDelta)
      ∧ (∀ (period : Int) (y : Dbl F),
          (g.constRatio = true ∨ period < pb
            ∨ Dbl.lt g.PPPConversionFact (Dbl.fin 1) = true) →
          ∃ r g1, getPPPMERRatio lib mt g period y = some (r, g1)
            ∧ g1.PPPDelta = g.PPPDelta) := by
  have hpass : ∀ (period : Int) (y : Dbl F), passThrough g period pb →
      ∃ r g1, getPPPMERRatio lib mt g period y = some (r, g1)
        ∧ g1.PPPDelta = g.PPPDelta := fun period y hp =>
    ⟨_, _, getPPPMERRatio_passThrough lib mt g period pb y hl hp, rfl⟩
  refine ⟨?_, ?_, hpass⟩
  · intro hc hC
    have hp := not_passThrough_of g pb pb hc (le_refl pb)
      (Dbl.lt_eq_false_of_le _ _ hC)
    refine ⟨_, _, getPPPMERRatio_converge lib mt g pb pb x hl hp, ?_⟩
    simp [deltaAt, CROSSOVER_POINT]
  · intro period y hlt
    by_cases hp : passThrough g period pb
    · exact hpass period y hp
    · refine ⟨_, _, getPPPMERRatio_converge lib mt g period pb y hl hp, ?_⟩
      have hne : period ≠ pb := by omega
      simp [deltaAt, hne]

/-- C6 at a concrete input: the sample object (factor 2, freeze flag off) on the
sample horizon, called in the period of 1990 with `x = 5`. -/
theorem getPPPMERRatio_caches_delta_witness :
    sampleTime.getyr_to_per BASE_PPP_YEAR = some 1
      ∧ ∃ r g1, getPPPMERRatio ratLibm sampleTime (sampleGDP ℚ) 1 (Dbl.fin 5) = some (r, g1)
          ∧ g1.PPPDelta
              = Dbl.log ratLibm (Dbl.fin 2) / Dbl.log ratLibm (Dbl.fin 5 / Dbl.fin 15) := by
  have hl : sampleTime.getyr_to_per BASE_PPP_YEAR = some 1 := by decide
  have hC : Dbl.ge (sampleGDP ℚ).PPPConversionFact (Dbl.fin 1) = true := by
    norm_num [sampleGDP, Dbl.ge, Dbl.le]
  exact ⟨hl,
    (getPPPMERRatio_caches_delta ratLibm sampleTime (sampleGDP ℚ) 1 (Dbl.fin 5) hl).1 rfl hC⟩

/-- A convergence-branch call in the period of `BASE_PPP_YEAR` overwrites `PPPDelta`. -/
theorem getPPPMERRatio_base (lib : Libm F) (mt : Modeltime) (g : GDP F) (pb : Int)
    (x : Dbl F) (hl : mt.getyr_to_per 1990 = some pb) (hp : ¬ passThrough g pb pb) :
    ∃ r, getPPPMERRatio lib mt g pb x = some
      (r, { g with PPPDelta :=
              Dbl.log lib g.PPPConversionFact / Dbl.log lib (x / Dbl.fin 15) }) := by
  refine ⟨if Dbl.gt x CROSSOVER_POINT = true then Dbl.fin 1
    else Dbl.pow lib (x / CROSSOVER_POINT) (deltaAt lib g pb pb x), ?_⟩
  rw [getPPPMERRatio_converge lib mt g pb pb x hl hp]
  simp [deltaAt, CROSSOVER_POINT]

/-- C7, refuted as stated: in exact real arithmetic, on the sample object (factor 2),
a first call in the period of 1990 with `marketGDPperCap = 5` caches
`log 2 / log (5 / 15)`, and a second call in the same period with
`marketGDPperCap = 3` replaces it by `log 2 / log (3 / 15)`, a different number. -/
theorem getPPPMERRatio_rederives_delta_counterexample :
    ∃ r1 g1 r2 g2,
      getPPPMERRatio realLibm sampleTime (sampleGDP ℝ) 1 (Dbl.fin 5) = some (r1, g1)
        ∧ getPPPMERRatio realLibm sampleTime g1 1 (Dbl.fin 3) = some (r2, g2)
        ∧ g1.PPPDelta = Dbl.fin (Real.log 2 / Real.log (5 / 15))
        ∧ g2.PPPDelta = Dbl.fin (Real.log 2 / Real.log (3 / 15))
        ∧ g2.PPPDelta ≠ g1.PPPDelta := by
  have hl : sampleTime.getyr_to_per 1990 = some 1 := by decide
  have hC : Dbl.lt (sampleGDP ℝ).PPPConversionFact (Dbl.fin 1) = false := by
    norm_num [sampleGDP, Dbl.lt]
  have hp := not_passThrough_of (sampleGDP ℝ) 1 1 rfl (le_refl 1) hC
  obtain ⟨r1, h1⟩ := getPPPMERRatio_base realLibm sampleTime (sampleGDP ℝ) 1 (Dbl.fin 5) hl hp
  have hp2 := not_passThrough_of
    ({ sampleGDP ℝ with
        PPPDelta :=
          Dbl.log realLibm (sampleGDP ℝ).PPPConversionFact
            / Dbl.log realLibm (Dbl.fin 5 / Dbl.fin 15) } : GDP ℝ)
    1 1 rfl (le_refl 1) hC
  obtain ⟨r2, h2⟩ := getPPPMERRatio_base realLibm sampleTime _ 1 (Dbl.fin 3) hl hp2
  have hlog2 : Dbl.log realLibm (Dbl.fin 2) = Dbl.fin (Real.log 2) := by
    norm_num [Dbl.log, realLibm]
  have hL5 : Real.log (5 / 15) < 0 := Real.log_neg (by norm_num) (by norm_num)
  have hL3 : Real.log (3 / 15) < 0 := Real.log_neg (by norm_num) (by norm_num)
  have hlog5 : Dbl.log realLibm (Dbl.fin 5 / Dbl.fin 15)
      = Dbl.fin (Real.log (5 / 15)) := by
    rw [Dbl.fin_div_fin 5 15 (by norm_num)]
    norm_num [Dbl.log, realLibm]
  have hlog3 : Dbl.log realLibm (Dbl.fin 3 / Dbl.fin 15)
      = Dbl.fin (Real.log (3 / 15)) := by
    rw [Dbl.fin_div_fin 3 15 (by norm_num)]
    norm_num [Dbl.log, realLibm]
  have hd1 : Dbl.log realLibm (Dbl.fin 2) / Dbl.log realLibm (Dbl.fin 5 / Dbl.fin 15)
      = Dbl.fin (Real.log 2 / Real.log (5 / 15)) := by
    rw [hlog2, hlog5, Dbl.fin_div_fin _ _ (ne_of_lt hL5)]
  have hd2 : Dbl.log realLibm (Dbl.fin 2) / Dbl.log realLibm (Dbl.fin 3 / Dbl.fin 15)
      = Dbl.fin (Real.log 2 / Real.log (3 / 15)) := by
    rw [hlog2, hlog3, Dbl.fin_div_fin _ _ (ne_of_lt hL3)]
  refine ⟨_, _, _, _, h1, h2, hd1, hd2, ?_⟩
  show Dbl.log realLibm (Dbl.fin 2) / Dbl.log realLibm (Dbl.fin 3 / Dbl.fin 15)
    ≠ Dbl.log realLibm (Dbl.fin 2) / Dbl.log realLibm (Dbl.fin 5 / Dbl.fin 15)
  rw [hd1, hd2]
  intro hEq
  have hEq2 : Real.log 2 / Real.log (3 / 15) = Real.log 2 / Real.log (5 / 15) := by
    injection hEq
  have h2pos : 0 < Real.log 2 := Real.log_pos (by norm_num)
  have hlt : Real.log (3 / 15) < Real.log (5 / 15) :=
    Real.log_lt_log (by norm_num) (by norm_num)
  rw [div_eq_div_iff (ne_of_lt hL3) (ne_of_lt hL5)] at hEq2
  have := mul_left_cancel₀ (ne_of_gt h2pos) hEq2
  linarith

/-- C7, amended: each convergence-branch call in the period of `BASE_PPP_YEAR` derives
`PPPDelta` anew from its own `marketGDPperCap`.  After a first such call with
`x`, a further call with `y` in the same period returns and leaves
`PPPDelta = log( PPPConversionFact ) / log( y / 15 )`; it therefore leaves
`PPPDelta` unchanged when `y` is the `x` of the first call. -/
theorem getPPPMERRatio_rederives_delta (lib : Libm F) (mt : Modeltime) (g : GDP F)
    (pb : Int) (x y : Dbl F) (hl : mt.getyr_to_per BASE_PPP_YEAR = some pb)
    (hc : g.constRatio = false)
    (hC : Dbl.lt g.PPPConversionFact (Dbl.fin 1) = false) :
    ∃ r1 g1 r2 g2,
      getPPPMERRatio lib mt g pb x = some (r1, g1)
        ∧ getPPPMERRatio lib mt g1 pb y = some (r2, g2)
        ∧ g1.PPPDelta = Dbl.log lib g.PPPConversionFact / Dbl.log lib (x / Dbl.fin 15)
        ∧ g2.PPPDelta = Dbl.log lib g.PPPConversionFact / Dbl.log lib (y / Dbl.fin 15)
        ∧ (y = x → g2.PPPDelta = g1.PPPDelta) := by
  have hp := not_passThrough_of g pb pb hc (le_refl pb) hC
  obtain ⟨r1, h1⟩ := getPPPMERRatio_base lib mt g pb x hl hp
  have hp2 := not_passThrough_of
    ({ g with
        PPPDelta :=
          Dbl.log lib g.PPPConversionFact / Dbl.log lib (x / Dbl.fin 15) } : GDP F)
    pb pb hc (le_refl pb) hC
  obtain ⟨r2, h2⟩ := getPPPMERRatio_base lib mt _ pb y hl hp2
  refine ⟨_, _, _, _, h1, h2, rfl, rfl, ?_⟩
  intro hxy
  rw [hxy]

/-- C7, amended, at a concrete input: two calls on the sample object in the period
of 1990, both with `marketGDPperCap = 5`. -/
theorem getPPPMERRatio_rederives_delta_witness :
    sampleTime.getyr_to_per BASE_PPP_YEAR = some 1
      ∧ (sampleGDP ℚ).constRatio = false
      ∧ Dbl.lt (sampleGDP ℚ).PPPConversionFact (Dbl.fin 1) = false
      ∧ ∃ r1 g1 r2 g2,
          getPPPMERRatio ratLibm sampleTime (sampleGDP ℚ) 1 (Dbl.fin 5) = some (r1, g1)
            ∧ getPPPMERRatio ratLibm sampleTime g1 1 (Dbl.fin 5) = some (r2, g2)
            ∧ g2.PPPDelta = g1.PPPDelta := by
  have hl : sampleTime.getyr_to_per BASE_PPP_YEAR = some 1 := by decide
  have hC : Dbl.lt (sampleGDP ℚ).PPPConversionFact (Dbl.fin 1) = false := by
    norm_num [sampleGDP, Dbl.lt]
  obtain ⟨r1, g1, r2, g2, h1, h2, _, _, h5⟩ :=
    getPPPMERRatio_rederives_delta ratLibm sampleTime (sampleGDP ℚ) 1 (Dbl.fin 5) (Dbl.fin 5)
      hl rfl hC
  exact ⟨hl, rfl, hC, r1, g1, r2, g2, h1, h2, h5 rfl⟩

/-- C8, the code at two failing inputs, for every instance of the transcendental
cases.  (a) Period of 1990, factor 2, `marketGDPperCap = -1`: `log( -1 / 15 )`
is NaN, nothing is thrown, `PPPDelta` becomes NaN and the returned ratio is
`pow( -1 / 15, NaN )`, which is NaN.  (b) A later period with the cached exponent
1 / 2 and `marketGDPperCap = -1`: the returned ratio is `pow( -1 / 15, 1 / 2 )`,
which is NaN. -/
theorem getPPPMERRatio_negative_input_is_nan (lib : Libm ℚ) :
    getPPPMERRatio lib sampleTime (sampleGDP ℚ) 1 (Dbl.fin (-1))
        = some (Dbl.nan, { sampleGDP ℚ with PPPDelta := Dbl.nan })
      ∧ getPPPMERRatio lib sampleTime { sampleGDP ℚ with PPPDelta := Dbl.fin (1 / 2) } 2
            (Dbl.fin (-1))
          = some (Dbl.nan, { sampleGDP ℚ with PPPDelta := Dbl.fin (1 / 2) }) := by
  have hl : sampleTime.getyr_to_per 1990 = some 1 := by decide
  have hC : Dbl.lt (sampleGDP ℚ).PPPConversionFact (Dbl.fin 1) = false := by
    norm_num [sampleGDP, Dbl.lt]
  have hd : (Dbl.fin (-1) / CROSSOVER_POINT : Dbl ℚ) = Dbl.fin (-1 / 15) := by
    rw [CROSSOVER_POINT, Dbl.fin_div_fin _ _ (by norm_num)]
  have hgt : Dbl.gt (Dbl.fin (-1) : Dbl ℚ) CROSSOVER_POINT = false := by
    norm_num [Dbl.gt, Dbl.lt, CROSSOVER_POINT]
  have hlogx : Dbl.log lib (Dbl.fin (-1 / 15) : Dbl ℚ) = Dbl.nan := by
    norm_num [Dbl.log]
  constructor
  · have hp := not_passThrough_of (sampleGDP ℚ) 1 1 rfl (le_refl 1) hC
    rw [getPPPMERRatio_converge lib sampleTime (sampleGDP ℚ) 1 1 (Dbl.fin (-1)) hl hp]
    have hdelta : deltaAt lib (sampleGDP ℚ) 1 1 (Dbl.fin (-1)) = Dbl.nan := by
      rw [deltaAt, if_pos rfl, hd, hlogx]
      cases Dbl.log lib (sampleGDP ℚ).PPPConversionFact <;> rfl
    rw [hdelta, hd, hgt]
    norm_num [Dbl.pow]
  · have hp := not_passThrough_of
      ({ sampleGDP ℚ with PPPDelta := Dbl.fin (1 / 2) } : GDP ℚ) 2 1 rfl (by decide) hC
    rw [getPPPMERRatio_converge lib sampleTime _ 2 1 (Dbl.fin (-1)) hl hp]
    have hdelta : deltaAt lib ({ sampleGDP ℚ with PPPDelta := Dbl.fin (1 / 2) } : GDP ℚ)
        2 1 (Dbl.fin (-1)) = Dbl.fin (1 / 2) := by
      rw [deltaAt, if_neg (by decide)]
    rw [hdelta, hd, hgt]
    have hni : Dbl.isInt (1 / 2 : ℚ) = false := by
      have hf : ⌊(1 / 2 : ℚ)⌋ = 0 := by
        rw [Int.floor_eq_iff]; norm_num
      unfold Dbl.isInt
      rw [hf]
      norm_num
    norm_num [Dbl.pow, Dbl.powFin, hni]

/-- In exact real arithmetic `pow( b, log c / log b ) = c` for `0 < b < 1 <= c`. -/
theorem pow_log_ratio (b c : ℝ) (hb0 : 0 < b) (hb1 : b < 1) (hc1 : 1 ≤ c) :
    Dbl.pow realLibm (Dbl.fin b) (Dbl.log realLibm (Dbl.fin c) / Dbl.log realLibm (Dbl.fin b))
      = Dbl.fin c := by
  have hL : Real.log b < 0 := Real.log_neg hb0 hb1
  have hlogb : Dbl.log realLibm (Dbl.fin b) = Dbl.fin (Real.log b) := by
    simp [Dbl.log, not_lt.mpr hb0.le, ne_of_gt hb0, ne_of_lt hb1, realLibm]
  rw [hlogb]
  by_cases hc : c = 1
  · subst hc
    have hlog1 : Dbl.log realLibm (Dbl.fin (1 : ℝ)) = Dbl.fin 0 := by
      simp [Dbl.log]
    rw [hlog1, Dbl.fin_div_fin _ _ (ne_of_lt hL), zero_div, Dbl.pow_zero_right]
  · have hc0 : 0 < c := by linarith
    have hcgt : 1 < c := lt_of_le_of_ne hc1 (Ne.symm hc)
    have hlogc : Dbl.log realLibm (Dbl.fin c) = Dbl.fin (Real.log c) := by
      simp [Dbl.log, not_lt.mpr hc0.le, ne_of_gt hc0, hc, realLibm]
    have hCpos : 0 < Real.log c := Real.log_pos hcgt
    have hd : Real.log c / Real.log b ≠ 0 :=
      div_ne_zero (ne_of_gt hCpos) (ne_of_lt hL)
    have hrpow : b ^ (Real.log c / Real.log b) = c := by
      rw [Real.rpow_def_of_pos hb0, mul_div_cancel₀ _ (ne_of_lt hL), Real.exp_log hc0]
    rw [hlogc, Dbl.fin_div_fin _ _ (ne_of_lt hL)]
    unfold Dbl.pow
    simp only [hd, if_false, ne_of_lt hb1]
    unfold Dbl.powFin
    rw [if_neg (ne_of_gt hb0)]
    by_cases hi : Dbl.isInt (Real.log c / Real.log b) = true
    · rw [if_pos hi]
      have hcast : ((⌊Real.log c / Real.log b⌋ : Int) : ℝ) = Real.log c / Real.log b := by
        simpa [Dbl.isInt] using hi
      congr 1
      rw [← Real.rpow_intCast, hcast, hrpow]
    · rw [if_neg hi, if_pos hb0]
      congr 1

/-- C9, refuted as stated: in binary64 arithmetic with correctly rounded `log` and `pow`
(`roundedLibm`), the freeze flag off and the conversion factor 4, the call
`getPPPMERRatio( pb, 1.875 )` in the period of `BASE_PPP_YEAR` divides
`log( 4 ) = 1.3862943611198906` by `log( 0.125 ) = -2.0794415416798357` and returns
`pow( 0.125, -0.6666666666666667 ) = 4.000000000000001`, not 4, and
`calculatePPPPerCap( pb, 1.875 )` does not return `4 * 1.875`. -/
theorem getPPPMERRatio_base_year_rounding_counterexample :
    ({ sampleGDP ℚ with PPPConversionFact := Dbl.fin 4 } : GDP ℚ).constRatio = false
      ∧ sampleTime.getyr_to_per BASE_PPP_YEAR = some 1
      ∧ ∃ g1, getPPPMERRatio roundedLibm sampleTime
            { sampleGDP ℚ with PPPConversionFact := Dbl.fin 4 } 1 (Dbl.fin (15 / 8))
            = some (Dbl.fin (4 + 1 / 2 ^ 50), g1)
          ∧ (Dbl.fin (4 + 1 / 2 ^ 50) : Dbl ℚ) ≠ Dbl.fin 4
          ∧ calculatePPPPerCap roundedLibm sampleTime
              { sampleGDP ℚ with PPPConversionFact := Dbl.fin 4 } 1 (Dbl.fin (15 / 8))
            = some (Dbl.fin (4 + 1 / 2 ^ 50) * Dbl.fin (15 / 8), g1)
          ∧ (Dbl.fin (4 + 1 / 2 ^ 50) * Dbl.fin (15 / 8) : Dbl ℚ) ≠ Dbl.fin (4 * (15 / 8)) := by
  have hl : sampleTime.getyr_to_per 1990 = some 1 := by decide
  have hp : ¬ passThrough ({ sampleGDP ℚ with PPPConversionFact := Dbl.fin 4 } : GDP ℚ) 1 1 :=
    not_passThrough_of _ 1 1 rfl le_rfl (by norm_num [Dbl.lt])
  have hgt : Dbl.gt (Dbl.fin (15 / 8)) (CROSSOVER_POINT : Dbl ℚ) = false := by
    norm_num [Dbl.gt, Dbl.lt, CROSSOVER_POINT]
  have hd : (Dbl.fin (15 / 8) / CROSSOVER_POINT : Dbl ℚ) = Dbl.fin (1 / 8) := by
    rw [CROSSOVER_POINT, Dbl.fin_div_fin _ _ (by norm_num)]
    norm_num
  have hlog4 : Dbl.log roundedLibm (Dbl.fin 4)
      = Dbl.fin (6243314768165359 / 4503599627370496) := by
    norm_num [Dbl.log, roundedLibm]
  have hlog8 : Dbl.log roundedLibm (Dbl.fin (1 / 8))
      = Dbl.fin (-4682486076124019 / 2251799813685248) := by
    norm_num [Dbl.log, roundedLibm]
  have hdelta : deltaAt roundedLibm
      ({ sampleGDP ℚ with PPPConversionFact := Dbl.fin 4 } : GDP ℚ) 1 1 (Dbl.fin (15 / 8))
      = Dbl.fin (-6243314768165359 / 9364972152248038) := by
    rw [deltaAt, if_pos rfl, hd]
    show Dbl.log roundedLibm (Dbl.fin 4) / Dbl.log roundedLibm (Dbl.fin (1 / 8)) = _
    rw [hlog4, hlog8, Dbl.fin_div_fin _ _ (by norm_num)]
    norm_num
  have hfloor : ⌊(-6243314768165359 / 9364972152248038 : ℚ)⌋ = -1 := by
    rw [Int.floor_eq_iff]; norm_num
  have hni : Dbl.isInt (-6243314768165359 / 9364972152248038 : ℚ) = false := by
    unfold Dbl.isInt
    rw [hfloor]
    norm_num
  have hnear : |(-6243314768165359 / 9364972152248038 : ℚ)
      - (-3002399751580331 / 4503599627370496)| < 1 / 2 ^ 54 := by
    rw [abs_lt]; norm_num
  have hpow : Dbl.pow roundedLibm (Dbl.fin (1 / 8))
      (Dbl.fin (-6243314768165359 / 9364972152248038)) = Dbl.fin (4 + 1 / 2 ^ 50) := by
    have hv : roundedLibm.rpow (1 / 8) (-6243314768165359 / 9364972152248038)
        = 4 + 1 / 2 ^ 50 := by
      have ht : roundedLibm.rpow (1 / 8) (-6243314768165359 / 9364972152248038)
          = 4503599627370497 / 1125899906842624 := if_pos ⟨rfl, hnear⟩
      rw [ht]
      norm_num
    have h0 : ¬ (-6243314768165359 / 9364972152248038 : ℚ) = 0 := by norm_num
    have h1 : ¬ (1 / 8 : ℚ) = 1 := by norm_num
    have h2 : ¬ (1 / 8 : ℚ) = 0 := by norm_num
    have h3 : (0 : ℚ) < 1 / 8 := by norm_num
    simp only [Dbl.pow, Dbl.powFin, h0, h1, h2, h3, hni, if_false, if_true, hv,
      Bool.false_eq_true]
  have hv : getPPPMERRatio roundedLibm sampleTime
      { sampleGDP ℚ with PPPConversionFact := Dbl.fin 4 } 1 (Dbl.fin (15 / 8))
      = some (Dbl.fin (4 + 1 / 2 ^ 50),
          { sampleGDP ℚ with
            PPPConversionFact := Dbl.fin 4
            PPPDelta := Dbl.fin (-6243314768165359 / 9364972152248038) }) := by
    rw [getPPPMERRatio_converge roundedLibm sampleTime _ 1 1 _ hl hp, hgt, hd, hdelta, hpow]
    rfl
  refine ⟨rfl, by decide, _, hv, ?_, ?_, ?_⟩
  · intro h
    have h2 := Dbl.fin.inj h
    norm_num at h2
  · rw [calculatePPPPerCap, hv]
  · rw [Dbl.fin_mul_fin]
    intro h
    have h2 := Dbl.fin.inj h
    norm_num at h2

/-- C9, amended: with the freeze flag off, a conversion factor that is not below 1 and a
`marketGDPperCap` that is not above 15, the call `getPPPMERRatio( pb, marketGDPperCap )`
in the period `pb` of `BASE_PPP_YEAR` stores
`PPPDelta = log( PPPConversionFact ) / log( marketGDPperCap / 15 )` and returns
`pow( marketGDPperCap / 15, PPPDelta )`, and `calculatePPPPerCap( pb, marketGDPperCap )`
returns that value times `marketGDPperCap`. -/
theorem getPPPMERRatio_base_year_operands (lib : Libm F) (mt : Modeltime) (g : GDP F)
    (pb : Int) (x : Dbl F)
    (hl : mt.getyr_to_per BASE_PPP_YEAR = some pb) (hfreeze : g.constRatio = false)
    (hC : Dbl.lt g.PPPConversionFact (Dbl.fin 1) = false)
    (hx : Dbl.gt x CROSSOVER_POINT = false) :
    getPPPMERRatio lib mt g pb x
        = some (Dbl.pow lib (x / CROSSOVER_POINT)
            (Dbl.log lib g.PPPConversionFact / Dbl.log lib (x / CROSSOVER_POINT)),
          { g with PPPDelta :=
                     Dbl.log lib g.PPPConversionFact / Dbl.log lib (x / CROSSOVER_POINT) })
      ∧ calculatePPPPerCap lib mt g pb x
        = some (Dbl.pow lib (x / CROSSOVER_POINT)
              (Dbl.log lib g.PPPConversionFact / Dbl.log lib (x / CROSSOVER_POINT)) * x,
          { g with PPPDelta :=
                     Dbl.log lib g.PPPConversionFact / Dbl.log lib (x / CROSSOVER_POINT) }) := by
  have hp := not_passThrough_of g pb pb hfreeze (le_refl pb) hC
  have hv : getPPPMERRatio lib mt g pb x
      = some (Dbl.pow lib (x / CROSSOVER_POINT)
          (Dbl.log lib g.PPPConversionFact / Dbl.log lib (x / CROSSOVER_POINT)),
        { g with PPPDelta :=
                   Dbl.log lib g.PPPConversionFact / Dbl.log lib (x / CROSSOVER_POINT) }) := by
    rw [getPPPMERRatio_converge lib mt g pb pb x hl hp, hx]
    simp [deltaAt]
  refine ⟨hv, ?_⟩
  rw [calculatePPPPerCap, hv]

/-- C9, amended, at a concrete input: the sample object (factor 2) in the period of 1990 with
`marketGDPperCap = 5`. -/
theorem getPPPMERRatio_base_year_operands_witness :
    sampleTime.getyr_to_per BASE_PPP_YEAR = some 1
      ∧ (sampleGDP ℚ).constRatio = false
      ∧ Dbl.lt (sampleGDP ℚ).PPPConversionFact (Dbl.fin 1) = false
      ∧ Dbl.gt (Dbl.fin 5) (CROSSOVER_POINT : Dbl ℚ) = false
      ∧ getPPPMERRatio ratLibm sampleTime (sampleGDP ℚ) 1 (Dbl.fin 5)
        = some (Dbl.pow ratLibm (Dbl.fin 5 / CROSSOVER_POINT)
            (Dbl.log ratLibm (Dbl.fin 2) / Dbl.log ratLibm (Dbl.fin 5 / CROSSOVER_POINT)),
          { sampleGDP ℚ with
            PPPDelta :=
              Dbl.log ratLibm (Dbl.fin 2) / Dbl.log ratLibm (Dbl.fin 5 / CROSSOVER_POINT) }) :=
  ⟨by decide, rfl, by norm_num [sampleGDP, Dbl.lt],
    by norm_num [Dbl.gt, Dbl.lt, CROSSOVER_POINT],
    (getPPPMERRatio_base_year_operands ratLibm sampleTime (sampleGDP ℚ) 1 (Dbl.fin 5)
      (by decide) rfl (by norm_num [sampleGDP, Dbl.lt])
      (by norm_num [Dbl.gt, Dbl.lt, CROSSOVER_POINT])).1⟩

/-- C10: for a period `p` at or before the period of 1990, `initialGDPcalc( p, · )`
returns with `gdpAdjustedFlag[ p ]` true, and from every state and for every
price ratio `adjustGDP( p, priceRatio )` returns with `gdpValueAdjusted`,
`gdpPerCapitaAdjusted` and `gdpAdjustedFlag` unchanged, so no energy
feedback is applied and the flag stays true. -/
theorem historical_period_not_adjusted (lib : Libm F) (mt : Modeltime) (g : GDP F)
    (p p90 : Int) (population : Dbl F)
    (h90 : mt.getyr_to_per 1990 = some p90) (hp : p ≤ p90)
    (hr : p = mt.getBasePeriod ∨ (1 ≤ p ∧ p < mt.getmaxper)) :
    ∃ g1, initialGDPcalc lib mt g p population = some g1
      ∧ g1.gdpAdjustedFlag p = true
      ∧ ∀ (s : GDP F) (priceRatio : Dbl F),
          ∃ s1, adjustGDP lib mt s p priceRatio = some s1
            ∧ s1.gdpValueAdjusted = s.gdpValueAdjusted
            ∧ s1.gdpPerCapitaAdjusted = s.gdpPerCapitaAdjusted
            ∧ s1.gdpAdjustedFlag = s.gdpAdjustedFlag
            ∧ (s.gdpAdjustedFlag p = true → s1.gdpAdjustedFlag p = true) := by
  obtain ⟨g1, h, _, _, _, _, _, hflag⟩ :=
    initialGDPcalc_fields lib mt g p p90 population h90 hr
  refine ⟨g1, h, ?_, ?_⟩
  · rw [hflag, Function.update_same]
    exact decide_eq_true hp
  · intro s priceRatio
    obtain ⟨ppp, delta, hs⟩ := adjustGDP_notAfter lib mt s p p90 priceRatio h90 hp
    exact ⟨_, hs, rfl, rfl, rfl, fun hf => hf⟩

/-- C10 at a concrete input: period 1 (the period of 1990) of the sample horizon. -/
theorem historical_period_not_adjusted_witness :
    sampleTime.getyr_to_per 1990 = some 1
      ∧ (1 : Int) ≤ 1
      ∧ (1 ≤ (1 : Int) ∧ (1 : Int) < sampleTime.getmaxper)
      ∧ ∃ g1, initialGDPcalc ratLibm sampleTime (sampleGDP ℚ) 1 (Dbl.fin 200) = some g1
          ∧ g1.gdpAdjustedFlag 1 = true
          ∧ ∃ g2, adjustGDP ratLibm sampleTime g1 1 (Dbl.fin 2) = some g2
              ∧ g2.gdpValueAdjusted 1 = g1.gdpValueAdjusted 1
              ∧ g2.gdpPerCapitaAdjusted 1 = g1.gdpPerCapitaAdjusted 1
              ∧ g2.gdpAdjustedFlag 1 = true := by
  have h90 : sampleTime.getyr_to_per 1990 = some 1 := by decide
  have hr : 1 ≤ (1 : Int) ∧ (1 : Int) < sampleTime.getmaxper := by decide
  obtain ⟨g1, h, hflag, hadj⟩ :=
    historical_period_not_adjusted ratLibm sampleTime (sampleGDP ℚ) 1 1 (Dbl.fin 200)
      h90 (le_refl 1) (Or.inr hr)
  obtain ⟨g2, h2, hv, hpc, _, hkeep⟩ := hadj g1 (Dbl.fin 2)
  exact ⟨h90, le_refl 1, hr, g1, h, hflag, g2, h2, by rw [hv], by rw [hpc], hkeep hflag⟩

/-- C11: for a period at or after the period of 1990, with the adjusted level of the
period of 1990 equal to the unadjusted one (as `initialGDPcalc` leaves it), if
`priceRatio` is 1 or `EnergyGDPElas` is 0 then `adjustGDP( period, priceRatio )` returns
and leaves `gdpValueAdjusted[ period ] = gdpValue[ period ]`, with `gdpValue` untouched. -/
theorem adjustGDP_noop (lib : Libm F) (mt : Modeltime) (g : GDP F) (period p90 : Int)
    (priceRatio : Dbl F) (h90 : mt.getyr_to_per 1990 = some p90) (hp : p90 ≤ period)
    (hpre : period = p90 → g.gdpValueAdjusted period = g.gdpValue period)
    (hno : priceRatio = Dbl.fin 1 ∨ g.EnergyGDPElas = Dbl.fin 0) :
    ∃ g1, adjustGDP lib mt g period priceRatio = some g1
      ∧ g1.gdpValueAdjusted period = g1.gdpValue period
      ∧ g1.gdpValue = g.gdpValue := by
  have hprod : g.gdpValue period * Dbl.pow lib priceRatio g.EnergyGDPElas
      = g.gdpValue period := by
    rcases hno with h | h
    · rw [h, Dbl.pow_one_left, Dbl.mul_fin_one]
    · rw [h, Dbl.pow_zero_right, Dbl.mul_fin_one]
  rcases lt_or_eq_of_le hp with hlt | heq
  · obtain ⟨ppp, delta, h⟩ := adjustGDP_after lib mt g period p90 priceRatio h90 hlt
    refine ⟨_, h, ?_, rfl⟩
    have hlevel : adjustedLevel lib g period priceRatio = g.gdpValue period := by
      unfold adjustedLevel
      rw [hprod]
      split_ifs <;> rfl
    simp [hlevel]
  · obtain ⟨ppp, delta, h⟩ :=
      adjustGDP_notAfter lib mt g period p90 priceRatio h90 (le_of_eq heq.symm)
    exact ⟨_, h, hpre heq.symm, rfl⟩

/-- C11 at a concrete input: period 2 of the sample horizon with price ratio 1. -/
theorem adjustGDP_noop_witness :
    sampleTime.getyr_to_per 1990 = some 1
      ∧ (1 : Int) ≤ 2
      ∧ ((2 : Int) = 1 → (sampleGDP ℚ).gdpValueAdjusted 2 = (sampleGDP ℚ).gdpValue 2)
      ∧ ((Dbl.fin 1 : Dbl ℚ) = Dbl.fin 1 ∨ (sampleGDP ℚ).EnergyGDPElas = Dbl.fin 0)
      ∧ ∃ g1, adjustGDP ratLibm sampleTime (sampleGDP ℚ) 2 (Dbl.fin 1) = some g1
          ∧ g1.gdpValueAdjusted 2 = g1.gdpValue 2
          ∧ g1.gdpValue = (sampleGDP ℚ).gdpValue :=
  ⟨by decide, by decide, fun _ => rfl, Or.inl rfl,
    adjustGDP_noop ratLibm sampleTime (sampleGDP ℚ) 2 1 (Dbl.fin 1) (by decide) (by decide)
      (fun _ => rfl) (Or.inl rfl)⟩

/-- C12, refuted as stated: with a one-year step and the solved market value 1 / 200 the
stored growth rate is `1 / 200 - 1 = -199 / 200`, which is not `<= -1`, is left as it
is, and lies below -99 / 100. -/
theorem writeBackCalibratedValues_below_floor_counterexample :
    (writeBackCalibratedValues ratLibm { sampleTime with periodToTimeStep := fun _ => 1 }
        (sampleGDP ℚ) 2 (Dbl.fin (1 / 200))).laborProdGrowthRate 2 = Dbl.fin (-199 / 200)
      ∧ Dbl.lt (Dbl.fin (-199 / 200) : Dbl ℚ) (Dbl.fin (-99 / 100)) = true := by
  have hpw : Dbl.pow ratLibm (Dbl.fin (1 / 200)) (Dbl.ofInt 1)
      = Dbl.fin ((1 / 200 : ℚ) ^ (1 : Int)) :=
    Dbl.pow_fin_ofInt ratLibm _ 1 (by norm_num) (by norm_num) (by norm_num)
  have he : (Dbl.fin 1 / Dbl.ofInt 1 : Dbl ℚ) = Dbl.ofInt 1 := by
    rw [Dbl.ofInt, Dbl.fin_div_fin _ _ (by norm_num)]
    norm_num
  constructor
  · simp only [writeBackCalibratedValues, Modeltime.gettimestep, Function.update_same, he,
      hpw, Dbl.fin_sub_fin, Dbl.le]
    norm_num
  · norm_num [Dbl.lt]

/-- C12, amended: after `writeBackCalibratedValues( region, period )` with solved market value
`P` and timestep `ts`, `laborProdGrowthRate[ period ]` is `pow( P, 1 / ts ) - 1`, unless
that value is `<= -1`, in which case it is -99 / 100; the stored rate is never `<= -1`. -/
theorem writeBackCalibratedValues_rate (lib : Libm F) (mt : Modeltime) (g : GDP F)
    (period : Int) (P : Dbl F) :
    (writeBackCalibratedValues lib mt g period P).laborProdGrowthRate period
        = (if Dbl.le
              (Dbl.pow lib P (Dbl.fin 1 / Dbl.ofInt (mt.gettimestep period)) - Dbl.fin 1)
              (Dbl.fin (-1)) = true then
            Dbl.fin (-99 / 100)
          else Dbl.pow lib P (Dbl.fin 1 / Dbl.ofInt (mt.gettimestep period)) - Dbl.fin 1)
      ∧ Dbl.le ((writeBackCalibratedValues lib mt g period P).laborProdGrowthRate period)
          (Dbl.fin (-1)) = false := by
  have hfloor : Dbl.le (Dbl.fin (-99 / 100) : Dbl F) (Dbl.fin (-1)) = false := by
    simp [Dbl.le]; norm_num
  unfold writeBackCalibratedValues
  by_cases h : Dbl.le
      (Dbl.pow lib P (Dbl.fin 1 / Dbl.ofInt (mt.gettimestep period)) - Dbl.fin 1)
      (Dbl.fin (-1)) = true
  · simp [h, hfloor]
  · simp [h]

/-- In exact real arithmetic `pow` at a positive finite base and a finite exponent is
`Real.rpow`. -/
theorem pow_realLibm_pos (c e : ℝ) (hc : 0 < c) :
    Dbl.pow realLibm (Dbl.fin c) (Dbl.fin e) = Dbl.fin (c ^ e) := by
  unfold Dbl.pow
  by_cases he : e = 0
  · simp [he]
  · simp only [he, if_false]
    by_cases h1 : c = 1
    · simp [h1]
    · simp only [h1, if_false]
      unfold Dbl.powFin
      rw [if_neg (ne_of_gt hc)]
      by_cases hi : Dbl.isInt e = true
      · rw [if_pos hi]
        have hcast : ((⌊e⌋ : Int) : ℝ) = e := by simpa [Dbl.isInt] using hi
        congr 1
        rw [← Real.rpow_intCast, hcast]
      · rw [if_neg hi, if_pos hc]
        rfl

/-- In exact real arithmetic the `ts`-th root taken by `writeBackCalibratedValues` undoes the
`ts`-th power taken by `setupCalibrationMarkets`. -/
theorem pow_root_round_trip (b : ℝ) (n : Int) (hb : 0 < b) (hn : 1 ≤ n) :
    Dbl.pow realLibm (Dbl.pow realLibm (Dbl.fin b) (Dbl.ofInt n))
      (Dbl.fin 1 / Dbl.ofInt n) = Dbl.fin b := by
  have hn0 : ((n : Int) : ℝ) ≠ 0 := by
    have : (0 : ℝ) < ((n : Int) : ℝ) := by exact_mod_cast (by omega : (0 : Int) < n)
    exact ne_of_gt this
  have hP : Dbl.pow realLibm (Dbl.fin b) (Dbl.ofInt n) = Dbl.fin (b ^ ((n : Int) : ℝ)) :=
    pow_realLibm_pos b _ hb
  have he : (Dbl.fin 1 / Dbl.ofInt n : Dbl ℝ) = Dbl.fin (1 / ((n : Int) : ℝ)) :=
    Dbl.fin_div_fin _ _ hn0
  rw [hP, he, pow_realLibm_pos _ _ (Real.rpow_pos_of_pos hb _), ← Real.rpow_mul hb.le,
    mul_one_div_cancel hn0, Real.rpow_one]

theorem getElem?_tempLFPs (lib : Libm F) (mt : Modeltime) (g : GDP F) (period : Int)
    (hper : 0 ≤ period ∧ period < mt.getmaxper) :
    (tempLFPs lib mt g)[period.toNat]?
      = some (Dbl.pow lib (Dbl.fin 1 + g.laborProdGrowthRate period)
          (Dbl.ofInt (mt.gettimestep period))) := by
  have h1 : period.toNat < (mt.getmaxper - 0).toNat := by omega
  have h2 : (0 : Int) + Int.ofNat period.toNat = period := by
    simp only [Int.ofNat_eq_coe]; omega
  unfold tempLFPs periodRange
  rw [List.map_map, List.getElem?_map, List.getElem?_range h1]
  simp only [Option.map_some', Function.comp, h2]

/-- What `writeBackCalibratedValues` leaves in `laborProdGrowthRate[ period ]`. -/
theorem writeBackCalibratedValues_eq (lib : Libm F) (mt : Modeltime) (s : GDP F)
    (period : Int) (totalLaborProd : Dbl F) :
    (writeBackCalibratedValues lib mt s period totalLaborProd).laborProdGrowthRate period
      = (if Dbl.le (Dbl.pow lib totalLaborProd
              (Dbl.fin 1 / Dbl.ofInt (mt.gettimestep period)) - Dbl.fin 1)
            (Dbl.fin (-1)) = true then Dbl.fin (-99 / 100)
          else Dbl.pow lib totalLaborProd
              (Dbl.fin 1 / Dbl.ofInt (mt.gettimestep period)) - Dbl.fin 1) := by
  unfold writeBackCalibratedValues
  simp only [Function.update_same]
  split_ifs <;> simp

/-- C13, refuted as stated: in binary64 arithmetic with a correctly rounded `pow`
(`roundedLibm`), for the growth rate 3 and a timestep of 3 years `setupCalibrationMarkets`
publishes `pow( 1 + 3, 3 ) = 64`, and `writeBackCalibratedValues` reading 64 back stores
`pow( 64, 0.3333333333333333 ) - 1 = 2.9999999999999996`, not 3. -/
theorem calibration_round_trip_rounding_counterexample :
    ({ sampleTime with periodToTimeStep := fun _ => 3 } : Modeltime).gettimestep 2 = 3
      ∧ ({ sampleGDP ℚ with laborProdGrowthRate := fun _ => Dbl.fin 3 }
          : GDP ℚ).laborProdGrowthRate 2 = Dbl.fin 3
      ∧ ∃ g1 calls prices,
          setupCalibrationMarkets roundedLibm { sampleTime with periodToTimeStep := fun _ => 3 }
              { sampleGDP ℚ with laborProdGrowthRate := fun _ => Dbl.fin 3 } "USA"
              (fun _ => Dbl.fin 0) true = some (g1, calls)
            ∧ MarketCall.setPriceVector "GDP" "USA" prices ∈ calls
            ∧ prices[(2 : Int).toNat]? = some (Dbl.fin 64)
            ∧ (writeBackCalibratedValues roundedLibm
                  { sampleTime with periodToTimeStep := fun _ => 3 } g1 2
                  (Dbl.fin 64)).laborProdGrowthRate 2
                = Dbl.fin (3 - 1 / 2 ^ 51)
            ∧ (Dbl.fin (3 - 1 / 2 ^ 51) : Dbl ℚ) ≠ Dbl.fin 3 := by
  have hP : Dbl.pow roundedLibm (Dbl.fin 1 + Dbl.fin 3) (Dbl.ofInt 3) = (Dbl.fin 64 : Dbl ℚ) := by
    rw [Dbl.fin_add_fin]
    have h4 : ((1 : ℚ) + 3) = 4 := by norm_num
    rw [h4, Dbl.pow_fin_ofInt roundedLibm 4 3 (by norm_num) (by norm_num) (by norm_num)]
    norm_num
  have hprices := getElem?_tempLFPs roundedLibm
    { sampleTime with periodToTimeStep := fun _ => 3 }
    { sampleGDP ℚ with laborProdGrowthRate := fun _ => Dbl.fin 3 } 2 (by decide)
  have hprices2 : (tempLFPs roundedLibm { sampleTime with periodToTimeStep := fun _ => 3 }
      ({ sampleGDP ℚ with laborProdGrowthRate := fun _ => Dbl.fin 3 }
        : GDP ℚ))[(2 : Int).toNat]? = some (Dbl.fin 64) := by
    rw [hprices]
    exact congrArg some hP
  have hexp : (Dbl.fin 1 / Dbl.ofInt 3 : Dbl ℚ) = Dbl.fin (1 / 3) := by
    unfold Dbl.ofInt
    rw [Dbl.fin_div_fin _ _ (by norm_num)]
    norm_num
  have hfloor : ⌊(1 / 3 : ℚ)⌋ = 0 := by
    rw [Int.floor_eq_iff]; norm_num
  have hni : Dbl.isInt (1 / 3 : ℚ) = false := by
    unfold Dbl.isInt
    rw [hfloor]
    norm_num
  have hnear : |(1 / 3 : ℚ) - 6004799503160661 / 18014398509481984| < 1 / 2 ^ 55 := by
    rw [abs_lt]; norm_num
  have hroot : Dbl.pow roundedLibm (Dbl.fin 64) (Dbl.fin (1 / 3))
      = Dbl.fin (9007199254740991 / 2251799813685248) := by
    have hv : roundedLibm.rpow 64 (1 / 3) = 9007199254740991 / 2251799813685248 :=
      (if_neg (fun h => absurd h.1 (by norm_num))).trans (if_pos ⟨rfl, hnear⟩)
    have h0 : ¬ (1 / 3 : ℚ) = 0 := by norm_num
    have h1 : ¬ (64 : ℚ) = 1 := by norm_num
    have h2 : ¬ (64 : ℚ) = 0 := by norm_num
    have h3 : (0 : ℚ) < 64 := by norm_num
    simp only [Dbl.pow, Dbl.powFin, h0, h1, h2, h3, hni, if_false, if_true, hv,
      Bool.false_eq_true]
  have hwb : ∀ s : GDP ℚ,
      (writeBackCalibratedValues roundedLibm { sampleTime with periodToTimeStep := fun _ => 3 }
          s 2 (Dbl.fin 64)).laborProdGrowthRate 2 = Dbl.fin (3 - 1 / 2 ^ 51) := by
    intro s
    rw [writeBackCalibratedValues_eq]
    show (if Dbl.le (Dbl.pow roundedLibm (Dbl.fin 64) (Dbl.fin 1 / Dbl.ofInt 3) - Dbl.fin 1)
        (Dbl.fin (-1)) = true then Dbl.fin (-99 / 100)
      else Dbl.pow roundedLibm (Dbl.fin 64) (Dbl.fin 1 / Dbl.ofInt 3) - Dbl.fin 1) = _
    rw [hexp, hroot, Dbl.fin_sub_fin]
    norm_num [Dbl.le]
  refine ⟨rfl, rfl, ?_⟩
  unfold setupCalibrationMarkets
  have hstart : ({ sampleTime with periodToTimeStep := fun _ => 3 } : Modeltime).getyr_to_per
      ({ sampleTime with periodToTimeStep := fun _ => 3 } : Modeltime).getStartYear
      = some 0 := by decide
  simp only [hstart, if_true]
  have hb0 : ¬ Dbl.ne ((fun _ => Dbl.fin 0 : Int → Dbl ℚ) 0) (Dbl.fin 0) = true := by
    simp [Dbl.ne, Dbl.eq]
  rw [if_neg hb0]
  refine ⟨_, _, _, rfl, by simp, hprices2, hwb _, ?_⟩
  intro h
  have h2 := Dbl.fin.inj h
  norm_num at h2

/-- C13, amended: for a period in range `setupCalibrationMarkets` (on a newly created market)
publishes the vector whose entry for the period is
`P = pow( 1 + laborProdGrowthRate[ period ], timestep( period ) )`, and
`writeBackCalibratedValues` reading `P` back, on the object in whatever state, stores
`pow( P, 1 / timestep( period ) ) - 1` in `laborProdGrowthRate[ period ]`, or -0.99 when
that value is not above -1. -/
theorem calibration_write_back (lib : Libm F) (mt : Modeltime) (g : GDP F)
    (regionName : String) (aCalibrationGDPs : Int → Dbl F) (period basePer : Int)
    (hstart : mt.getyr_to_per mt.getStartYear = some basePer)
    (hper : 0 ≤ period ∧ period < mt.getmaxper) :
    ∃ g1 calls prices,
      setupCalibrationMarkets lib mt g regionName aCalibrationGDPs true = some (g1, calls)
        ∧ MarketCall.setPriceVector "GDP" regionName prices ∈ calls
        ∧ prices[period.toNat]?
            = some (Dbl.pow lib (Dbl.fin 1 + g.laborProdGrowthRate period)
                (Dbl.ofInt (mt.gettimestep period)))
        ∧ ∀ s : GDP F,
            (writeBackCalibratedValues lib mt s period
                (Dbl.pow lib (Dbl.fin 1 + g.laborProdGrowthRate period)
                  (Dbl.ofInt (mt.gettimestep period)))).laborProdGrowthRate period
              = (if Dbl.le
                    (Dbl.pow lib
                        (Dbl.pow lib (Dbl.fin 1 + g.laborProdGrowthRate period)
                          (Dbl.ofInt (mt.gettimestep period)))
                        (Dbl.fin 1 / Dbl.ofInt (mt.gettimestep period)) - Dbl.fin 1)
                    (Dbl.fin (-1)) = true then Dbl.fin (-99 / 100)
                  else
                    Dbl.pow lib
                        (Dbl.pow lib (Dbl.fin 1 + g.laborProdGrowthRate period)
                          (Dbl.ofInt (mt.gettimestep period)))
                        (Dbl.fin 1 / Dbl.ofInt (mt.gettimestep period)) - Dbl.fin 1) := by
  have hprices := getElem?_tempLFPs lib mt g period hper
  unfold setupCalibrationMarkets
  simp only [hstart, if_true]
  by_cases hb0 : Dbl.ne (aCalibrationGDPs basePer) (Dbl.fin 0) = true
  · rw [if_pos hb0]
    exact ⟨_, _, _, rfl, by simp, hprices,
      fun s => writeBackCalibratedValues_eq lib mt s period _⟩
  · rw [if_neg hb0]
    exact ⟨_, _, _, rfl, by simp, hprices,
      fun s => writeBackCalibratedValues_eq lib mt s period _⟩

/-- C13, amended, at a concrete input: the sample object (growth rate 2 / 100, five-year
steps) publishes `pow( 1 + 2 / 100, 5 )` for period 2, and the write-back on an object
whose rate of period 2 has been set to 7 in between replaces the 7. -/
theorem calibration_write_back_witness :
    sampleTime.getyr_to_per sampleTime.getStartYear = some 0
      ∧ ((0 : Int) ≤ 2 ∧ (2 : Int) < sampleTime.getmaxper)
      ∧ ∃ g1 calls prices,
          setupCalibrationMarkets ratLibm sampleTime (sampleGDP ℚ) "USA"
              (fun _ => Dbl.fin 0) true = some (g1, calls)
            ∧ MarketCall.setPriceVector "GDP" "USA" prices ∈ calls
            ∧ prices[(2 : Int).toNat]?
                = some (Dbl.pow ratLibm (Dbl.fin 1 + Dbl.fin (2 / 100)) (Dbl.ofInt 5))
            ∧ (writeBackCalibratedValues ratLibm sampleTime
                  { sampleGDP ℚ with laborProdGrowthRate := fun _ => Dbl.fin 7 } 2
                  (Dbl.pow ratLibm (Dbl.fin 1 + Dbl.fin (2 / 100))
                    (Dbl.ofInt 5))).laborProdGrowthRate 2
                = (if Dbl.le
                      (Dbl.pow ratLibm
                          (Dbl.pow ratLibm (Dbl.fin 1 + Dbl.fin (2 / 100)) (Dbl.ofInt 5))
                          (Dbl.fin 1 / Dbl.ofInt 5) - Dbl.fin 1)
                      (Dbl.fin (-1)) = true then Dbl.fin (-99 / 100)
                    else
                      Dbl.pow ratLibm
                          (Dbl.pow ratLibm (Dbl.fin 1 + Dbl.fin (2 / 100)) (Dbl.ofInt 5))
                          (Dbl.fin 1 / Dbl.ofInt 5) - Dbl.fin 1) := by
  obtain ⟨g1, calls, prices, h, hmem, hp, hwb⟩ :=
    calibration_write_back ratLibm sampleTime (sampleGDP ℚ) "USA" (fun _ => Dbl.fin 0) 2 0
      (by decide) (by decide)
  exact ⟨by decide, by decide, g1, calls, prices, h, hmem, hp,
    hwb { sampleGDP ℚ with laborProdGrowthRate := fun _ => Dbl.fin 7 }⟩

/-- The calls `setupCalibrationMarkets` makes: the creation of the market, the price vector
when the market is new, then the constraint calls of the periods from 1 on. -/
theorem setupCalibrationMarkets_calls (lib : Libm F) (mt : Modeltime) (g : GDP F)
    (regionName : String) (aCalibrationGDPs : Int → Dbl F) (created : Bool) (basePer : Int)
    (hstart : mt.getyr_to_per mt.getStartYear = some basePer) :
    ∃ g1, setupCalibrationMarkets lib mt g regionName aCalibrationGDPs created
      = some (g1,
          (if created then
              [MarketCall.createMarket regionName regionName "GDP" IMarketType.CALIBRATION,
               MarketCall.setPriceVector "GDP" regionName (tempLFPs lib mt g)]
            else
              [MarketCall.createMarket regionName regionName "GDP" IMarketType.CALIBRATION])
            ++ (periodRange 1 mt.getmaxper).flatMap
                (constraintCalls regionName aCalibrationGDPs)) := by
  unfold setupCalibrationMarkets
  simp only [hstart]
  by_cases hb0 : Dbl.ne (aCalibrationGDPs basePer) (Dbl.fin 0) = true <;>
    cases created <;> simp [hb0]

/-- C14, refuted as stated: with a positive calibration target in every period of the
sample horizon, no demand is added and no market is marked for period 0. -/
theorem setupCalibrationMarkets_period_zero_counterexample :
    Dbl.gt (Dbl.fin 5 : Dbl ℚ) (Dbl.fin 0) = true
      ∧ ∃ g1 calls,
          setupCalibrationMarkets ratLibm sampleTime (sampleGDP ℚ) "USA"
              (fun _ => Dbl.fin 5) true = some (g1, calls)
            ∧ MarketCall.addToDemand "GDP" "USA" (Dbl.fin 5) 0 ∉ calls
            ∧ MarketCall.setMarketToSolve "GDP" "USA" 0 ∉ calls := by
  obtain ⟨g1, h⟩ := setupCalibrationMarkets_calls ratLibm sampleTime (sampleGDP ℚ) "USA"
    (fun _ => Dbl.fin 5) true 0 (by decide)
  refine ⟨by norm_num [Dbl.gt, Dbl.lt], g1, _, h, ?_, ?_⟩
  · simp only [if_true, List.mem_append, List.mem_cons, List.mem_flatMap, mem_periodRange,
      constraintCalls]
    rintro (h1 | ⟨q, hq, h2⟩)
    · simp at h1
    · split_ifs at h2
      · simp at h2; omega
      · simp at h2
  · simp only [if_true, List.mem_append, List.mem_cons, List.mem_flatMap, mem_periodRange,
      constraintCalls]
    rintro (h1 | ⟨q, hq, h2⟩)
    · simp at h1
    · split_ifs at h2
      · simp at h2; omega
      · simp at h2

/-- C14, amended: `setupCalibrationMarkets` returns, and for every period `p` it adds demand to
the (region, "GDP") market for `p`, with value `aCalibrationGDPs[ p ]`, and marks that
market to be solved in `p`, if and only if `1 <= p < maxPeriod` and
`aCalibrationGDPs[ p ] > 0`; period 0 gets no constraint. -/
theorem setupCalibrationMarkets_constraints (lib : Libm F) (mt : Modeltime) (g : GDP F)
    (regionName : String) (aCalibrationGDPs : Int → Dbl F) (created : Bool) (basePer : Int)
    (hstart : mt.getyr_to_per mt.getStartYear = some basePer) :
    ∃ g1 calls,
      setupCalibrationMarkets lib mt g regionName aCalibrationGDPs created = some (g1, calls)
        ∧ ∀ (p : Int) (v : Dbl F),
            (MarketCall.addToDemand "GDP" regionName v p ∈ calls
                ↔ (1 ≤ p ∧ p < mt.getmaxper)
                    ∧ Dbl.gt (aCalibrationGDPs p) (Dbl.fin 0) = true
                    ∧ v = aCalibrationGDPs p)
              ∧ (MarketCall.setMarketToSolve "GDP" regionName p ∈ calls
                ↔ (1 ≤ p ∧ p < mt.getmaxper)
                    ∧ Dbl.gt (aCalibrationGDPs p) (Dbl.fin 0) = true) := by
  obtain ⟨g1, h⟩ := setupCalibrationMarkets_calls lib mt g regionName aCalibrationGDPs
    created basePer hstart
  refine ⟨g1, _, h, ?_⟩
  intro p v
  constructor
  · simp only [List.mem_append, List.mem_flatMap, mem_periodRange, constraintCalls]
    constructor
    · rintro (h1 | ⟨q, hq, h2⟩)
      · cases created <;> simp at h1
      · split_ifs at h2 with hpos
        · simp at h2
          obtain ⟨rfl, rfl⟩ := h2
          exact ⟨hq, hpos, rfl⟩
        · simp at h2
    · rintro ⟨hp, hpos, rfl⟩
      exact Or.inr ⟨p, hp, by simp [hpos]⟩
  · simp only [List.mem_append, List.mem_flatMap, mem_periodRange, constraintCalls]
    constructor
    · rintro (h1 | ⟨q, hq, h2⟩)
      · cases created <;> simp at h1
      · split_ifs at h2 with hpos
        · simp at h2
          subst h2
          exact ⟨hq, hpos⟩
        · simp at h2
    · rintro ⟨hp, hpos⟩
      exact Or.inr ⟨p, hp, by simp [hpos]⟩

/-- C14, amended, at a concrete input: a target of 5 in every period of the sample horizon
puts a demand of 5 on period 2. -/
theorem setupCalibrationMarkets_constraints_witness :
    sampleTime.getyr_to_per sampleTime.getStartYear = some 0
      ∧ ∃ g1 calls,
          setupCalibrationMarkets ratLibm sampleTime (sampleGDP ℚ) "USA"
              (fun _ => Dbl.fin 5) true = some (g1, calls)
            ∧ MarketCall.addToDemand "GDP" "USA" (Dbl.fin 5) 2 ∈ calls
            ∧ MarketCall.setMarketToSolve "GDP" "USA" 2 ∈ calls := by
  obtain ⟨g1, calls, h, hall⟩ := setupCalibrationMarkets_constraints ratLibm sampleTime
    (sampleGDP ℚ) "USA" (fun _ => Dbl.fin 5) true 0 (by decide)
  have hpos : Dbl.gt (Dbl.fin 5 : Dbl ℚ) (Dbl.fin 0) = true := by norm_num [Dbl.gt, Dbl.lt]
  exact ⟨by decide, g1, calls, h,
    ((hall 2 (Dbl.fin 5)).1).2 ⟨by decide, hpos, rfl⟩,
    ((hall 2 (Dbl.fin 5)).2).2 ⟨by decide, hpos⟩⟩

end GDP

namespace Scenario

theorem call_calls (s : Scenario) (e : Event) : (s.call e).calls = s.calls ++ [e] := rfl

/-- What `solve` does on an object with a solver. -/
theorem solve_eq (mt : Modeltime) (solverSolve : Int → Bool) (s : Scenario) (period : Int)
    (hs : s.solver = true) :
    solve mt solverSolve s period = some
      (if mt.getmaxper - 1 = period then
          decide ((s.unsolvedPeriods
            ++ (if solverSolve period then [] else [period])).length = 0)
        else true,
        { s with
          unsolvedPeriods :=
            s.unsolvedPeriods ++ (if solverSolve period then [] else [period])
          calls := s.calls ++ [Event.solverSolve period] }) := by
  unfold solve
  rw [if_pos hs]
  cases hsol : solverSolve period <;> by_cases hlast : mt.getmaxper - 1 = period <;>
    simp [call, hlast]
  · cases hu : s.unsolvedPeriods <;> simp

/-- What the body of the period loop does on an object with a world and a solver when the
graph file of the period, if one is asked for, opens. -/
theorem runBody_eq (isOpen : RunFile → Bool) (mt : Modeltime) (pg : Bool)
    (solverSolve : Int → Bool) (b : Bool) (s : Scenario) (per : Int)
    (hw : s.world = true) (hs : s.solver = true)
    (hopen : pg = true → isOpen (RunFile.dependencyGraph per) = true) :
    runBody isOpen mt pg solverSolve (b, s) per = some (Ended.returned
      (b && (if mt.getmaxper - 1 = per then
          decide ((s.unsolvedPeriods
            ++ (if solverSolve per then [] else [per])).length = 0)
        else true),
        { s with
          unsolvedPeriods :=
            s.unsolvedPeriods ++ (if solverSolve per then [] else [per])
          calls := s.calls ++ periodCalls pg per })) := by
  unfold runBody
  simp only [hw, if_true]
  rw [solve_eq mt solverSolve _ per (by cases hp : decide (per = 0) <;> simp_all [call])]
  cases pg with
  | false => by_cases hp : per = 0 <;> simp [call, periodCalls, hp, hw, hs]
  | true =>
    have ho := hopen rfl
    by_cases hp : per = 0
    · subst hp
      simp [call, periodCalls, hw, hs, ho]
    · simp [call, periodCalls, hp, hw, hs, ho]

theorem failedPeriods_succ (solverSolve : Int → Bool) (k : Nat) :
    failedPeriods solverSolve (Int.ofNat (k + 1))
      = failedPeriods solverSolve (Int.ofNat k)
          ++ (if solverSolve (Int.ofNat k) then [] else [Int.ofNat k]) := by
  unfold failedPeriods
  rw [periodRange_zero_succ, List.filter_append]
  simp only [Int.ofNat_eq_coe]
  cases h : solverSolve (k : Int) <;> simp [List.filter, h]

/-- The state of the period loop of `run` after it has finished, when every graph file
that is asked for opens. -/
theorem runLoop_eq (isOpen : RunFile → Bool) (mt : Modeltime) (pg : Bool)
    (solverSolve : Int → Bool) (s : Scenario)
    (hw : s.world = true) (hs : s.solver = true)
    (hopen : pg = true → ∀ per : Int, 0 ≤ per → per < mt.getmaxper →
      isOpen (RunFile.dependencyGraph per) = true) :
    forEachPeriod (runStep isOpen mt pg solverSolve) (periodRange 0 mt.getmaxper)
        (Ended.returned (true, s))
      = some (Ended.returned
        (if 0 < mt.getmaxper then
            decide ((s.unsolvedPeriods
              ++ failedPeriods solverSolve mt.getmaxper).length = 0)
          else true,
          { s with
            unsolvedPeriods := s.unsolvedPeriods ++ failedPeriods solverSolve mt.getmaxper
            calls := s.calls ++ (periodRange 0 mt.getmaxper).flatMap (periodCalls pg) })) := by
  obtain ⟨r, hr, hP⟩ := forEachPeriod_invariant (runStep isOpen mt pg solverSolve)
    0 mt.getmaxper
    (fun k r =>
      r = Ended.returned
        ((if k = (mt.getmaxper - 0).toNat ∧ 0 < mt.getmaxper then
            decide ((s.unsolvedPeriods
              ++ failedPeriods solverSolve (Int.ofNat k)).length = 0)
          else true),
          { s with
            unsolvedPeriods :=
              s.unsolvedPeriods ++ failedPeriods solverSolve (Int.ofNat k)
            calls := s.calls
              ++ (periodRange 0 (Int.ofNat k)).flatMap (periodCalls pg) }))
    (Ended.returned (true, s))
    (by
      have h0 : ¬ (0 = (mt.getmaxper - 0).toNat ∧ 0 < mt.getmaxper) := by omega
      simp only [h0, if_false]
      simp [failedPeriods, periodRange])
    (by
      intro k r hk hr
      subst hr
      have hne : ¬ (k = (mt.getmaxper - 0).toNat ∧ 0 < mt.getmaxper) := by omega
      have hk0 : (0 : Int) ≤ Int.ofNat k := by simp only [Int.ofNat_eq_coe]; omega
      have hkN : Int.ofNat k < mt.getmaxper := by simp only [Int.ofNat_eq_coe]; omega
      rw [if_neg hne]
      refine ⟨_, ?_, rfl⟩
      show runBody isOpen mt pg solverSolve _ (0 + Int.ofNat k) = _
      have hb := runBody_eq isOpen mt pg solverSolve true
        { s with
          unsolvedPeriods := s.unsolvedPeriods ++ failedPeriods solverSolve (Int.ofNat k)
          calls := s.calls ++ (periodRange 0 (Int.ofNat k)).flatMap (periodCalls pg) }
        (Int.ofNat k) hw hs (fun hpg => hopen hpg _ hk0 hkN)
      rw [zero_add, hb]
      simp only [failedPeriods_succ, periodRange_zero_succ, List.flatMap_append,
        List.append_assoc, Bool.true_and]
      have hiff : (mt.getmaxper - 1 = Int.ofNat k)
          ↔ (k + 1 = (mt.getmaxper - 0).toNat ∧ 0 < mt.getmaxper) := by
        simp only [Int.ofNat_eq_coe]; omega
      by_cases hlast : mt.getmaxper - 1 = Int.ofNat k
      · rw [if_pos hlast, if_pos (hiff.mp hlast)]
        simp
      · rw [if_neg hlast, if_neg (fun h => hlast (hiff.mpr h))]
        simp)
  rw [hr, hP]
  have hfail : failedPeriods solverSolve (Int.ofNat (mt.getmaxper - 0).toNat)
      = failedPeriods solverSolve mt.getmaxper := by
    unfold failedPeriods; rw [periodRange_toNat]
  rw [hfail, periodRange_toNat]
  by_cases h : 0 < mt.getmaxper <;> simp [h]

/-- What `runWith` does on an object with a world and a solver when every file the run
opens does open. -/
theorem runWith_eq (isOpen : RunFile → Bool) (mt : Modeltime) (pg : Bool)
    (solverSolve : Int → Bool) (s : Scenario)
    (hw : s.world = true) (hs : s.solver = true)
    (hxml : isOpen RunFile.xmlDebug = true) (hout : isOpen RunFile.sgmOut = true)
    (hgen : isOpen RunFile.sgmGen = true)
    (hopen : pg = true → ∀ per : Int, 0 ≤ per → per < mt.getmaxper →
      isOpen (RunFile.dependencyGraph per) = true) :
    runWith isOpen mt pg solverSolve s = some (Ended.returned
      (if 0 < mt.getmaxper then
          decide ((s.unsolvedPeriods
            ++ failedPeriods solverSolve mt.getmaxper).length = 0)
        else true,
        { s with
          runCompleted := true
          unsolvedPeriods := s.unsolvedPeriods ++ failedPeriods solverSolve mt.getmaxper
          calls := s.calls ++ ([Event.initPrices]
            ++ (periodRange 0 mt.getmaxper).flatMap (periodCalls pg)
            ++ [Event.csvSGMGenFile, Event.runClimateModel]) })) := by
  unfold runWith
  simp only [hxml, hout, hgen, if_true]
  rw [runLoop_eq isOpen mt pg solverSolve (s.call Event.initPrices) hw hs hopen]
  simp [call, hw]

/-- What `run` does on an object with a world and a solver. -/
theorem run_eq (mt : Modeltime) (pg : Bool) (solverSolve : Int → Bool) (s : Scenario)
    (hw : s.world = true) (hs : s.solver = true) :
    run mt pg solverSolve s = some
      (if 0 < mt.getmaxper then
          decide ((s.unsolvedPeriods
            ++ failedPeriods solverSolve mt.getmaxper).length = 0)
        else true,
        { s with
          runCompleted := true
          unsolvedPeriods := s.unsolvedPeriods ++ failedPeriods solverSolve mt.getmaxper
          calls := s.calls ++ ([Event.initPrices]
            ++ (periodRange 0 mt.getmaxper).flatMap (periodCalls pg)
            ++ [Event.csvSGMGenFile, Event.runClimateModel]) }) := by
  unfold run
  rw [runWith_eq (fun _ => true) mt pg solverSolve s hw hs rfl rfl rfl
    (fun _ _ _ _ => rfl)]

theorem periodRange_pairwise (lo hi : Int) : (periodRange lo hi).Pairwise (· < ·) := by
  unfold periodRange
  refine List.Pairwise.map _ ?_ (List.pairwise_lt_range _)
  intro a b hab
  simp only [Int.ofNat_eq_coe]
  omega

/-- C15: for an object with a world and a solver whose unsolved-period list is empty, for
every number of periods and every pattern of solver outcomes, `run` returns, the
unsolved-period list afterwards is exactly the periods `0 <= p < maxPeriod` at which the
solver failed, in increasing order, and the returned value is true if and only if that
list is empty. -/
theorem run_success_iff_all_solved (mt : Modeltime) (printDependencyGraphs : Bool)
    (solverSolve : Int → Bool) (s : Scenario) (hw : s.world = true) (hs : s.solver = true)
    (hempty : s.unsolvedPeriods = []) :
    ∃ b s1, run mt printDependencyGraphs solverSolve s = some (b, s1)
      ∧ s1.unsolvedPeriods = (periodRange 0 mt.getmaxper).filter (fun p => !(solverSolve p))
      ∧ (∀ p, p ∈ s1.unsolvedPeriods
          ↔ (0 ≤ p ∧ p < mt.getmaxper) ∧ solverSolve p = false)
      ∧ s1.unsolvedPeriods.Pairwise (· < ·)
      ∧ (b = true ↔ s1.unsolvedPeriods = []) := by
  refine ⟨_, _, run_eq mt printDependencyGraphs solverSolve s hw hs, ?_, ?_, ?_, ?_⟩
  · simp [hempty, failedPeriods]
  · intro p
    simp [hempty, failedPeriods, mem_periodRange]
  · simp only [hempty, List.nil_append, failedPeriods]
    exact List.Pairwise.filter _ (periodRange_pairwise 0 mt.getmaxper)
  · simp only [hempty, List.nil_append]
    by_cases hN : 0 < mt.getmaxper
    · simp [hN]
    · have hnil : periodRange 0 mt.getmaxper = [] := by
        unfold periodRange
        have : (mt.getmaxper - 0).toNat = 0 := by omega
        rw [this]; rfl
      simp [hN, failedPeriods, hnil]

/-- C15, the worked example: on the four-period sample horizon a solver that fails only at
period 2 gives the list `[2]` and the result false. -/
theorem run_success_iff_all_solved_witness :
    sampleScenario.world = true ∧ sampleScenario.solver = true
      ∧ sampleScenario.unsolvedPeriods = []
      ∧ ∃ s1, run sampleTime false (fun p => decide (p ≠ 2)) sampleScenario = some (false, s1)
          ∧ s1.unsolvedPeriods = [2] := by
  obtain ⟨b, s1, h, hlist, _, _, hb⟩ :=
    run_success_iff_all_solved sampleTime false (fun p => decide (p ≠ 2)) sampleScenario
      rfl rfl rfl
  have h2 : s1.unsolvedPeriods = [2] := by
    rw [hlist]; decide
  have hb2 : b = false := by
    cases b
    · rfl
    · rw [hb.mp rfl] at h2; cases h2
  subst hb2
  exact ⟨rfl, rfl, rfl, s1, h, h2⟩

theorem filter_periodCalls (pg : Bool) (per : Int) :
    (periodCalls pg per).filter isSolveOrFinalize
      = [Event.solverSolve per, Event.finalizePeriod per] := by
  by_cases hp : per = 0 <;> cases pg <;> simp [periodCalls, isSolveOrFinalize, hp]

/-- C16, refuted as stated: with dependency graphs asked for and the graph file of period 0
not opening, `run` on the four-period sample horizon with a solver that always succeeds
is ended by the `abort()` of `util::checkIsOpen` inside `printGraphs( 0 )`: the only
solve and the only finalization made are those of period 0, and periods 1 to 3 are never
solved. -/
theorem runWith_abort_counterexample :
    ∃ s1, runWith (fun f => decide (f ≠ RunFile.dependencyGraph 0)) sampleTime true
          (fun _ => true) sampleScenario = some (Ended.aborted s1)
      ∧ s1.calls.filter isSolveOrFinalize = [Event.solverSolve 0, Event.finalizePeriod 0]
      ∧ Event.solverSolve 1 ∉ s1.calls := by
  refine ⟨_, rfl, ?_, ?_⟩ <;> decide

/-- C16, amended: for an object with a world and a solver, when every file that `run` opens
does open (the XML debugging file, the SGM output file, the general SGM output file, and
the graph file of every period if dependency graphs are asked for), then for every number
of periods and every pattern of solver outcomes `run` returns, and among the calls it
makes the solves and period finalizations are exactly
`solve 0, finalize 0, solve 1, finalize 1, ...` up to period `maxPeriod - 1`: one solve
per period, in increasing order, each followed by the finalization of its period,
whatever the solver returned before. -/
theorem runWith_solves_each_period_once (isOpen : RunFile → Bool) (mt : Modeltime)
    (printDependencyGraphs : Bool) (solverSolve : Int → Bool) (s : Scenario)
    (hw : s.world = true) (hs : s.solver = true)
    (hxml : isOpen RunFile.xmlDebug = true) (hout : isOpen RunFile.sgmOut = true)
    (hgen : isOpen RunFile.sgmGen = true)
    (hgraph : printDependencyGraphs = true → ∀ per : Int, 0 ≤ per → per < mt.getmaxper →
      isOpen (RunFile.dependencyGraph per) = true) :
    ∃ b s1 trace,
      runWith isOpen mt printDependencyGraphs solverSolve s = some (Ended.returned (b, s1))
      ∧ s1.calls = s.calls ++ trace
      ∧ trace.filter isSolveOrFinalize
          = (periodRange 0 mt.getmaxper).flatMap
              (fun p => [Event.solverSolve p, Event.finalizePeriod p]) := by
  refine ⟨_, _, _,
    runWith_eq isOpen mt printDependencyGraphs solverSolve s hw hs hxml hout hgen hgraph,
    rfl, ?_⟩
  rw [List.filter_append, List.filter_append, List.filter_flatMap]
  simp [filter_periodCalls, isSolveOrFinalize]

/-- C16, amended, at a concrete input: the sample scenario on the four-period horizon with
dependency graphs asked for, every file opening except the graph file of a period 7 that
the horizon does not have, and a solver that fails at period 1. -/
theorem runWith_solves_each_period_once_witness :
    sampleScenario.world = true ∧ sampleScenario.solver = true
      ∧ ∃ b s1, runWith (fun f => decide (f ≠ RunFile.dependencyGraph 7)) sampleTime true
            (fun p => decide (p ≠ 1)) sampleScenario = some (Ended.returned (b, s1))
          ∧ s1.calls.filter isSolveOrFinalize
              = [Event.solverSolve 0, Event.finalizePeriod 0,
                 Event.solverSolve 1, Event.finalizePeriod 1,
                 Event.solverSolve 2, Event.finalizePeriod 2,
                 Event.solverSolve 3, Event.finalizePeriod 3] := by
  obtain ⟨b, s1, trace, h, hcalls, hfilter⟩ :=
    runWith_solves_each_period_once (fun f => decide (f ≠ RunFile.dependencyGraph 7))
      sampleTime true (fun p => decide (p ≠ 1)) sampleScenario rfl rfl
      (by decide) (by decide) (by decide)
      (by
        intro _ per h0 h4
        have h4b : per < 4 := h4
        have hne : per ≠ 7 := by omega
        simp [hne])
  refine ⟨rfl, rfl, b, s1, h, ?_⟩
  rw [hcalls]
  show List.filter isSolveOrFinalize ([] ++ trace) = _
  rw [List.nil_append, hfilter]
  decide

/-- C17: for every object with a solver and every period, `solve( period )` returns, and the
unsolved-period list afterwards is the old list when the solver succeeded and the old
list with `period` appended at the end when it failed. -/
theorem solve_only_appends (mt : Modeltime) (solverSolve : Int → Bool) (s : Scenario)
    (period : Int) (hs : s.solver = true) :
    ∃ b s1, solve mt solverSolve s period = some (b, s1)
      ∧ (solverSolve period = true → s1.unsolvedPeriods = s.unsolvedPeriods)
      ∧ (solverSolve period = false → s1.unsolvedPeriods = s.unsolvedPeriods ++ [period]) := by
  refine ⟨_, _, solve_eq mt solverSolve s period hs, ?_, ?_⟩
  · intro h; simp [h]
  · intro h; simp [h]

/-- C17 at a concrete input: a failed solve of period 3 on a list that already holds period 1. -/
theorem solve_only_appends_witness :
    ({ sampleScenario with unsolvedPeriods := [1] } : Scenario).solver = true
      ∧ ∃ b s1, solve sampleTime (fun _ => false)
            { sampleScenario with unsolvedPeriods := [1] } 3 = some (b, s1)
          ∧ s1.unsolvedPeriods = [1, 3] := by
  obtain ⟨b, s1, h, _, hfail⟩ :=
    solve_only_appends sampleTime (fun _ => false)
      { sampleScenario with unsolvedPeriods := [1] } 3 rfl
  exact ⟨rfl, b, s1, h, hfail rfl⟩

/-- On an object without a world `run` has no defined result: its first call on the world goes
through a null pointer. -/
theorem run_without_world (mt : Modeltime) (pg : Bool) (solverSolve : Int → Bool)
    (s : Scenario) (hw : s.world = false) : run mt pg solverSolve s = none := by
  unfold run runWith
  cases hl : periodRange 0 mt.getmaxper with
  | nil => simp [forEachPeriod, call, hw]
  | cons per rest => simp [forEachPeriod, runStep, runBody, call, hw]

/-- C18, refuted as stated: on an object for which no world was parsed, `completeInit` makes the
severe log entry and then creates and initialises the solver. -/
theorem completeInit_without_world_counterexample :
    completeInit { sampleScenario with world := false, solver := false }
      = { sampleScenario with
          world := false
          solver := true
          calls := [Event.logNoWorld, Event.getSolver, Event.solverInit] } := by
  simp [completeInit, sampleScenario, call]

/-- C18, amended: if no world container was parsed, `completeInit` reports it with a severe
log entry and does not stop: its next calls create and initialise the solver, and the
object afterwards has a solver and still no world. -/
theorem completeInit_without_world (s : Scenario) (hw : s.world = false) :
    (completeInit s).solver = true
      ∧ (completeInit s).world = false
      ∧ ∃ before, (completeInit s).calls
          = before ++ [Event.logNoWorld, Event.getSolver, Event.solverInit] := by
  unfold completeInit
  by_cases hn : s.name = ""
  · exact ⟨by simp [hn, hw, call], by simp [hn, hw, call],
      s.calls ++ [Event.logNoScenarioName], by simp [hn, hw, call]⟩
  · exact ⟨by simp [hn, hw, call], by simp [hn, hw, call], s.calls, by simp [hn, hw, call]⟩

/-- C18, amended, at a concrete input: the sample scenario without a world. -/
theorem completeInit_without_world_witness :
    ({ sampleScenario with world := false, solver := false } : Scenario).world = false
      ∧ (completeInit { sampleScenario with world := false, solver := false }).solver = true
      ∧ (completeInit { sampleScenario with world := false, solver := false }).world = false :=
  ⟨rfl,
    (completeInit_without_world { sampleScenario with world := false, solver := false } rfl).1,
    (completeInit_without_world { sampleScenario with world := false, solver := false } rfl).2.1⟩

end Scenario

namespace GDP

variable {F : Type} [LinearOrderedField F] [FloorRing F]

/-- The object `initialGDPcalc` returns: the argument with the entries of `period` replaced in
the flag and in six vectors, and with `gdpPerCapitaApproxPPP[ period ]` and `PPPDelta` as
`calculatePPPPerCap` leaves them. -/
theorem initialGDPcalc_eq (lib : Libm F) (mt : Modeltime) (g : GDP F)
    (period p90 : Int) (population : Dbl F)
    (h90 : mt.getyr_to_per 1990 = some p90)
    (hr : period = mt.getBasePeriod ∨ (1 ≤ period ∧ period < mt.getmaxper)) :
    ∃ ppp delta, initialGDPcalc lib mt g period population = some
      { g with
        gdpAdjustedFlag := Function.update g.gdpAdjustedFlag period (decide (period ≤ p90))
        gdpValue := Function.update g.gdpValue period (initialLevel lib mt g period)
        gdpValueAdjusted :=
          Function.update g.gdpValueAdjusted period (initialLevel lib mt g period)
        gdpPerCapita :=
          Function.update g.gdpPerCapita period (initialLevel lib mt g period / population)
        gdpPerCapitaAdjusted :=
          Function.update g.gdpPerCapitaAdjusted period
            (initialLevel lib mt g period / population)
        gdpPerCapitaAdjustedPPP :=
          Function.update g.gdpPerCapitaAdjustedPPP period
            (initialLevel lib mt g period / population)
        gdpPerCapitaApproxPPP := Function.update g.gdpPerCapitaApproxPPP period ppp
        PPPDelta := delta } := by
  unfold initialGDPcalc
  simp only [h90]
  by_cases hb : period = mt.getBasePeriod
  · subst hb
    by_cases hp : mt.getBasePeriod ≤ p90 <;> simp only [hp, if_true, if_false] <;> split
    · rename_i heq
      exact absurd heq (calculatePPPPerCap_ne_none lib mt _ _ p90 _ h90)
    · rename_i ppp g7 heq
      have hf := calculatePPPPerCap_frame lib mt _ g7 _ _ ppp heq
      refine ⟨ppp, g7.PPPDelta, ?_⟩
      rw [hf]
      simp [initialLevel, hp]
    · rename_i heq
      exact absurd heq (calculatePPPPerCap_ne_none lib mt _ _ p90 _ h90)
    · rename_i ppp g7 heq
      have hf := calculatePPPPerCap_frame lib mt _ g7 _ _ ppp heq
      refine ⟨ppp, g7.PPPDelta, ?_⟩
      rw [hf]
      simp [initialLevel, hp]
  · have h1 : 1 ≤ period ∧ period < mt.getmaxper := by
      rcases hr with h | h
      · exact absurd h hb
      · exact h
    have ha : 0 ≤ period ∧ period < mt.getmaxper := ⟨by omega, h1.2⟩
    have hb2 : 0 ≤ period - 1 ∧ period - 1 < mt.getmaxper := ⟨by omega, by omega⟩
    by_cases hp : period ≤ p90 <;>
      simp only [hp, hb, if_false, getLaborForce, getTotalLaborProductivity, ha, hb2,
        and_self, if_true] <;> split
    · rename_i heq
      exact absurd heq (calculatePPPPerCap_ne_none lib mt _ _ p90 _ h90)
    · rename_i ppp g7 heq
      have hf := calculatePPPPerCap_frame lib mt _ g7 _ _ ppp heq
      refine ⟨ppp, g7.PPPDelta, ?_⟩
      rw [hf]
      simp [initialLevel, hp, hb]
    · rename_i heq
      exact absurd heq (calculatePPPPerCap_ne_none lib mt _ _ p90 _ h90)
    · rename_i ppp g7 heq
      have hf := calculatePPPPerCap_frame lib mt _ g7 _ _ ppp heq
      refine ⟨ppp, g7.PPPDelta, ?_⟩
      rw [hf]
      simp [initialLevel, hp, hb]

/-- C19: `getBestScaledGDPperCap( p )` is `getApproxScaledGDPperCap( p )` when
`gdpAdjustedFlag[ p ]` is false and `getScaledGDPperCap( p )` when it is true; with the
`assert` of the accessor holding, the value is `gdpPerCapita[ p ] / gdpPerCapita[ basePeriod ]`
in the first case and `gdpPerCapitaAdjusted[ p ] / gdpPerCapitaAdjusted[ basePeriod ]` in the
second. -/
theorem getBestScaledGDPperCap_eq (mt : Modeltime) (g : GDP F) (p : Int) :
    (g.gdpAdjustedFlag p = false →
        getBestScaledGDPperCap mt g p = getApproxScaledGDPperCap mt g p
          ∧ (Dbl.ne (g.gdpPerCapita mt.getBasePeriod) (Dbl.fin 0) = true →
              getApproxScaledGDPperCap mt g p
                = some (g.gdpPerCapita p / g.gdpPerCapita mt.getBasePeriod)))
      ∧ (g.gdpAdjustedFlag p = true →
        getBestScaledGDPperCap mt g p = getScaledGDPperCap mt g p
          ∧ (Dbl.gt (g.gdpPerCapitaAdjusted mt.getBasePeriod) (Dbl.fin 0) = true →
              getScaledGDPperCap mt g p
                = some (g.gdpPerCapitaAdjusted p
                    / g.gdpPerCapitaAdjusted mt.getBasePeriod))) := by
  constructor
  · intro hflag
    refine ⟨by simp [getBestScaledGDPperCap, hflag], ?_⟩
    intro hassert
    simp [getApproxScaledGDPperCap, hassert]
  · intro hflag
    refine ⟨by simp [getBestScaledGDPperCap, hflag], ?_⟩
    intro hassert
    simp [getScaledGDPperCap, hassert]

/-- C19 at concrete inputs: on the sample object period 2 is not adjusted and period 1 is;
with per-capita levels of 5 everywhere both scaled values are `5 / 5`. -/
theorem getBestScaledGDPperCap_eq_witness :
    (sampleGDP ℚ).gdpAdjustedFlag 2 = false
      ∧ Dbl.ne ((sampleGDP ℚ).gdpPerCapita sampleTime.getBasePeriod) (Dbl.fin 0) = true
      ∧ getBestScaledGDPperCap sampleTime (sampleGDP ℚ) 2 = some (Dbl.fin 5 / Dbl.fin 5)
      ∧ (sampleGDP ℚ).gdpAdjustedFlag 1 = true
      ∧ Dbl.gt ((sampleGDP ℚ).gdpPerCapitaAdjusted sampleTime.getBasePeriod) (Dbl.fin 0) = true
      ∧ getBestScaledGDPperCap sampleTime (sampleGDP ℚ) 1 = some (Dbl.fin 5 / Dbl.fin 5) := by
  have hf2 : (sampleGDP ℚ).gdpAdjustedFlag 2 = false := by decide
  have hf1 : (sampleGDP ℚ).gdpAdjustedFlag 1 = true := by decide
  have ha2 : Dbl.ne ((sampleGDP ℚ).gdpPerCapita sampleTime.getBasePeriod) (Dbl.fin 0)
      = true := by
    norm_num [sampleGDP, Dbl.ne, Dbl.eq]
  have ha1 : Dbl.gt ((sampleGDP ℚ).gdpPerCapitaAdjusted sampleTime.getBasePeriod) (Dbl.fin 0)
      = true := by
    norm_num [sampleGDP, Dbl.gt, Dbl.lt]
  have h2 := (getBestScaledGDPperCap_eq sampleTime (sampleGDP ℚ) 2).1 hf2
  have h1 := (getBestScaledGDPperCap_eq sampleTime (sampleGDP ℚ) 1).2 hf1
  exact ⟨hf2, ha2, by rw [h2.1, h2.2 ha2]; rfl, hf1, ha1, by rw [h1.1, h1.2 ha1]; rfl⟩

/-- What one pass of the loop of `initData` does when its three `assert`s hold. -/
theorem initDataBody_spec (lib : Libm F) (mt : Modeltime) (regionalPop : Int → Dbl F)
    (g : GDP F) (i p90 : Int) (h90 : mt.getyr_to_per 1990 = some p90)
    (hr : i = mt.getBasePeriod ∨ (1 ≤ i ∧ i < mt.getmaxper))
    (hpop : Dbl.gt (regionalPop i) (Dbl.fin 0) = true)
    (hprt : Dbl.gt (g.laborForceParticipationPercent i) (Dbl.fin 0) = true) :
    ∃ g1, initDataBody lib mt regionalPop g i = some g1
      ∧ g1.laborForce
          = Function.update g.laborForce i (regionalPop i * g.laborForceParticipationPercent i)
      ∧ g1.laborForceParticipationPercent = g.laborForceParticipationPercent
      ∧ g1.laborProdGrowthRate = g.laborProdGrowthRate
      ∧ g1.baseGDP = g.baseGDP
      ∧ g1.gdpValueAdjusted
          = Function.update g.gdpValueAdjusted i
              (initialLevel lib mt
                { g with laborForce :=
                           Function.update g.laborForce i
                             (regionalPop i * g.laborForceParticipationPercent i) } i)
      ∧ g1.gdpValueNotAdjusted
          = Function.update g.gdpValueNotAdjusted i
              (initialLevel lib mt
                { g with laborForce :=
                           Function.update g.laborForce i
                             (regionalPop i * g.laborForceParticipationPercent i) } i)
      ∧ g1.gdpPerCapitaNotAdjusted
          = Function.update g.gdpPerCapitaNotAdjusted i
              (initialLevel lib mt
                { g with laborForce :=
                           Function.update g.laborForce i
                             (regionalPop i * g.laborForceParticipationPercent i) } i
                / regionalPop i) := by
  obtain ⟨ppp, delta, hinit⟩ := initialGDPcalc_eq lib mt
    { g with laborForce :=
               Function.update g.laborForce i
                 (regionalPop i * g.laborForceParticipationPercent i) }
    i p90 (regionalPop i) h90 hr
  have hlfpos : Dbl.gt (regionalPop i * g.laborForceParticipationPercent i) (Dbl.fin 0)
      = true := Dbl.gt_zero_mul _ _ hpop hprt
  unfold initDataBody
  simp only [hpop, hprt, if_true, Function.update_same]
  rw [if_pos hlfpos, hinit]
  refine ⟨_, rfl, ?_, ?_, ?_, ?_, ?_, ?_, ?_⟩ <;> simp [getApproxGDP]

/-- C20: with 1990 a registered year, base period 0, and a positive population and a positive
participation in every period of the horizon, `initData( regionalPop )` returns, and for
every period `i` of the horizon `laborForce[ i ]` is the product
`population_i * laborForceParticipationPercent[ i ]`. -/
theorem initData_laborForce (lib : Libm F) (mt : Modeltime) (g : GDP F)
    (regionalPop : Int → Dbl F) (p90 : Int)
    (h90 : mt.getyr_to_per 1990 = some p90) (hbase : mt.getBasePeriod = 0)
    (hpos : ∀ i : Int, 0 ≤ i → i < mt.getmaxper →
      Dbl.gt (regionalPop i) (Dbl.fin 0) = true
        ∧ Dbl.gt (g.laborForceParticipationPercent i) (Dbl.fin 0) = true) :
    ∃ g1, initData lib mt regionalPop g = some g1
      ∧ ∀ i : Int, 0 ≤ i → i < mt.getmaxper →
          g1.laborForce i = regionalPop i * g.laborForceParticipationPercent i := by
  obtain ⟨g1, h, hpart, hlf⟩ := forEachPeriod_invariant (initDataBody lib mt regionalPop)
    0 mt.getmaxper
    (fun k s =>
      s.laborForceParticipationPercent = g.laborForceParticipationPercent
        ∧ ∀ i : Int, 0 ≤ i → i < Int.ofNat k →
            s.laborForce i = regionalPop i * g.laborForceParticipationPercent i)
    g
    ⟨rfl, fun i h0 hk => by simp only [Int.ofNat_eq_coe] at hk; omega⟩
    (by
      intro k s hk ⟨hsp, hsl⟩
      have hk0 : (0 : Int) ≤ Int.ofNat k := by simp only [Int.ofNat_eq_coe]; omega
      have hkN : Int.ofNat k < mt.getmaxper := by simp only [Int.ofNat_eq_coe]; omega
      obtain ⟨hpop, hprt⟩ := hpos (Int.ofNat k) hk0 hkN
      have hr : Int.ofNat k = mt.getBasePeriod
          ∨ (1 ≤ Int.ofNat k ∧ Int.ofNat k < mt.getmaxper) := by
        rw [hbase]; simp only [Int.ofNat_eq_coe] at hk0 hkN ⊢; omega
      rw [← hsp] at hprt
      obtain ⟨s1, hs1, hlf1, hp1, _⟩ :=
        initDataBody_spec lib mt regionalPop s (Int.ofNat k) p90 h90 hr hpop hprt
      refine ⟨s1, by rw [zero_add]; exact hs1, hp1.trans hsp, ?_⟩
      intro i hi0 hik
      rw [hlf1]
      by_cases hik2 : i = Int.ofNat k
      · subst hik2
        rw [Function.update_same, hsp]
      · have hlt : i < Int.ofNat k := by
          simp only [Int.ofNat_eq_coe] at hik hik2 ⊢; omega
        rw [Function.update_noteq hik2, hsl i hi0 hlt])
  refine ⟨g1, h, ?_⟩
  intro i hi0 hiN
  apply hlf i hi0
  simp only [Int.ofNat_eq_coe]; omega

/-- C20 at a concrete input: the sample object on the sample horizon with a population of 200
in every period has a labor force of `200 * (1 / 2)` in period 3. -/
theorem initData_laborForce_witness :
    sampleTime.getyr_to_per 1990 = some 1
      ∧ sampleTime.getBasePeriod = 0
      ∧ (∀ i : Int, 0 ≤ i → i < sampleTime.getmaxper →
          Dbl.gt ((fun _ => Dbl.fin 200 : Int → Dbl ℚ) i) (Dbl.fin 0) = true
            ∧ Dbl.gt ((sampleGDP ℚ).laborForceParticipationPercent i) (Dbl.fin 0) = true)
      ∧ ∃ g1, initData ratLibm sampleTime (fun _ => Dbl.fin 200) (sampleGDP ℚ) = some g1
          ∧ g1.laborForce 3 = Dbl.fin 200 * Dbl.fin (1 / 2) := by
  have hpos : ∀ i : Int, 0 ≤ i → i < sampleTime.getmaxper →
      Dbl.gt ((fun _ => Dbl.fin 200 : Int → Dbl ℚ) i) (Dbl.fin 0) = true
        ∧ Dbl.gt ((sampleGDP ℚ).laborForceParticipationPercent i) (Dbl.fin 0) = true := by
    intro i _ _
    constructor <;> norm_num [sampleGDP, Dbl.gt, Dbl.lt]
  obtain ⟨g1, h, hall⟩ := initData_laborForce ratLibm sampleTime (sampleGDP ℚ)
    (fun _ => Dbl.fin 200) 1 (by decide) rfl hpos
  exact ⟨by decide, rfl, hpos, g1, h, hall 3 (by decide) (by decide)⟩

/-- The value and the object a call of `getPPPMERRatio` returns. -/
theorem getPPPMERRatio_eq (lib : Libm F) (mt : Modeltime) (g : GDP F) (period pb : Int)
    (x : Dbl F) (hl : mt.getyr_to_per 1990 = some pb) :
    getPPPMERRatio lib mt g period x
      = some (pppRatio lib g period pb x,
          { g with PPPDelta := deltaAfter lib g period pb x }) := by
  by_cases hp : passThrough g period pb
  · rw [getPPPMERRatio_passThrough lib mt g period pb x hl hp]
    simp [pppRatio, deltaAfter, hp]
  · rw [getPPPMERRatio_converge lib mt g period pb x hl hp]
    simp [pppRatio, deltaAfter, hp]

/-- The object `adjustGDP` returns for a period after the period of 1990. -/
theorem adjustGDP_after_eq (lib : Libm F) (mt : Modeltime) (g : GDP F) (period p90 : Int)
    (priceRatio : Dbl F) (h90 : mt.getyr_to_per 1990 = some p90) (hp : p90 < period) :
    adjustGDP lib mt g period priceRatio = some
      { g with
        gdpValueAdjusted :=
          Function.update g.gdpValueAdjusted period (adjustedLevel lib g period priceRatio)
        gdpPerCapitaAdjusted :=
          Function.update g.gdpPerCapitaAdjusted period
            (g.gdpPerCapita period * adjustedLevel lib g period priceRatio / g.gdpValue period)
        gdpAdjustedFlag := Function.update g.gdpAdjustedFlag period true
        gdpPerCapitaAdjustedPPP :=
          Function.update g.gdpPerCapitaAdjustedPPP period
            (pppRatio lib g period p90
                (g.gdpPerCapita period * adjustedLevel lib g period priceRatio
                  / g.gdpValue period)
              * (g.gdpPerCapita period * adjustedLevel lib g period priceRatio
                  / g.gdpValue period))
        PPPDelta :=
          deltaAfter lib g period p90
            (g.gdpPerCapita period * adjustedLevel lib g period priceRatio
              / g.gdpValue period) } := by
  unfold adjustGDP
  have hp2 : period > p90 := hp
  simp only [h90, hp2, if_true, calculatePPPPerCap]
  by_cases hv : util.isValidNumber
      (g.gdpValue period * Dbl.pow lib priceRatio g.EnergyGDPElas) = true
  · simp only [Function.update_same, hv, Bool.not_true, Bool.false_eq_true, if_false]
    rw [getPPPMERRatio_eq lib mt _ period p90 _ h90]
    simp [adjustedLevel, hv, pppRatio, deltaAfter, passThrough, deltaAt]
  · simp only [Function.update_same, hv, Bool.not_false, if_true]
    rw [getPPPMERRatio_eq lib mt _ period p90 _ h90]
    simp [adjustedLevel, hv, pppRatio, deltaAfter, passThrough, deltaAt]

/-- The object `adjustGDP` returns for a period at or before the period of 1990. -/
theorem adjustGDP_notAfter_eq (lib : Libm F) (mt : Modeltime) (g : GDP F) (period p90 : Int)
    (priceRatio : Dbl F) (h90 : mt.getyr_to_per 1990 = some p90) (hp : period ≤ p90) :
    adjustGDP lib mt g period priceRatio = some
      { g with
        gdpPerCapitaAdjustedPPP :=
          Function.update g.gdpPerCapitaAdjustedPPP period
            (pppRatio lib g period p90 (g.gdpPerCapitaAdjusted period)
              * g.gdpPerCapitaAdjusted period)
        PPPDelta := deltaAfter lib g period p90 (g.gdpPerCapitaAdjusted period) } := by
  unfold adjustGDP
  have hp2 : ¬ period > p90 := not_lt.mpr hp
  simp only [h90, hp2, if_false, calculatePPPPerCap]
  rw [getPPPMERRatio_eq lib mt _ period p90 _ h90]

/-- C21: with 1990 a registered year, from every state and for every period `p` and price
ratio, `adjustGDP( p, priceRatio )` returns, leaves `gdpValueNotAdjusted`,
`gdpPerCapitaNotAdjusted`, `gdpValue`, `gdpPerCapita`, `laborForce` and
`laborProdGrowthRate` unchanged in every period, and leaves `gdpValueAdjusted`,
`gdpPerCapitaAdjusted`, `gdpPerCapitaAdjustedPPP` and `gdpAdjustedFlag` unchanged in every
period other than `p`. -/
theorem adjustGDP_frame (lib : Libm F) (mt : Modeltime) (g : GDP F) (p p90 : Int)
    (priceRatio : Dbl F) (h90 : mt.getyr_to_per 1990 = some p90) :
    ∃ g1, adjustGDP lib mt g p priceRatio = some g1
      ∧ g1.gdpValueNotAdjusted = g.gdpValueNotAdjusted
      ∧ g1.gdpPerCapitaNotAdjusted = g.gdpPerCapitaNotAdjusted
      ∧ g1.gdpValue = g.gdpValue
      ∧ g1.gdpPerCapita = g.gdpPerCapita
      ∧ g1.laborForce = g.laborForce
      ∧ g1.laborProdGrowthRate = g.laborProdGrowthRate
      ∧ ∀ q : Int, q ≠ p →
          g1.gdpValueAdjusted q = g.gdpValueAdjusted q
            ∧ g1.gdpPerCapitaAdjusted q = g.gdpPerCapitaAdjusted q
            ∧ g1.gdpPerCapitaAdjustedPPP q = g.gdpPerCapitaAdjustedPPP q
            ∧ g1.gdpAdjustedFlag q = g.gdpAdjustedFlag q := by
  by_cases hp : p90 < p
  · refine ⟨_, adjustGDP_after_eq lib mt g p p90 priceRatio h90 hp,
      rfl, rfl, rfl, rfl, rfl, rfl, ?_⟩
    intro q hq
    simp [Function.update_noteq hq]
  · refine ⟨_, adjustGDP_notAfter_eq lib mt g p p90 priceRatio h90 (not_lt.mp hp),
      rfl, rfl, rfl, rfl, rfl, rfl, ?_⟩
    intro q hq
    simp [Function.update_noteq hq]

/-- C21 at a concrete input: adjusting period 2 of the sample object leaves period 3 alone. -/
theorem adjustGDP_frame_witness :
    sampleTime.getyr_to_per 1990 = some 1
      ∧ ∃ g1, adjustGDP ratLibm sampleTime (sampleGDP ℚ) 2 (Dbl.fin 2) = some g1
          ∧ g1.gdpValueNotAdjusted = (sampleGDP ℚ).gdpValueNotAdjusted
          ∧ g1.gdpValue = (sampleGDP ℚ).gdpValue
          ∧ g1.gdpValueAdjusted 3 = (sampleGDP ℚ).gdpValueAdjusted 3
          ∧ g1.gdpAdjustedFlag 3 = (sampleGDP ℚ).gdpAdjustedFlag 3 := by
  obtain ⟨g1, h, h1, _, h3, _, _, _, hq⟩ :=
    adjustGDP_frame ratLibm sampleTime (sampleGDP ℚ) 2 1 (Dbl.fin 2) (by decide)
  exact ⟨by decide, g1, h, h1, h3, (hq 3 (by decide)).1, (hq 3 (by decide)).2.2.2⟩

end GDP

namespace Modeltime

/-- C22, the code at a failing input: on the sample horizon the year 1991 is no key of the
year-to-period map, `find` returns the end iterator and the call has no defined value;
for the key 1990 it returns the mapped period 1. -/
theorem getyr_to_per_unregistered_year :
    (∀ p : Int, ((1991 : Int), p) ∉ sampleTime.yearToModelPeriod)
      ∧ sampleTime.getyr_to_per 1991 = none
      ∧ sampleTime.getyr_to_per 1990 = some 1 := by
  refine ⟨?_, by decide, by decide⟩
  intro p hp
  simp [sampleTime] at hp

end Modeltime

namespace util

variable {F : Type} [LinearOrderedField F] [FloorRing F]

/-- C23, the code at the failing input: `isValidNumber` returns true for -infinity; it
returns false for NaN and for +infinity, and true for every finite value. -/
theorem isValidNumber_accepts_negative_infinity :
    isValidNumber (Dbl.ninf : Dbl F) = true
      ∧ isValidNumber (Dbl.nan : Dbl F) = false
      ∧ isValidNumber (Dbl.pinf : Dbl F) = false
      ∧ ∀ a : F, isValidNumber (Dbl.fin a) = true := by
  refine ⟨?_, ?_, ?_, ?_⟩ <;> simp [isValidNumber, Dbl.eq, Dbl.ne, infinity]

end util

namespace Scenario

theorem filter_periodCalls_reset (pg : Bool) (per : Int) :
    (periodCalls pg per).filter isResetCalcOrSolve
      = (if per = 0 then
          [Event.nullSuppliesAndDemands per, Event.initCalc per,
           Event.nullSuppliesAndDemands per, Event.calc per, Event.solverSolve per]
        else
          [Event.nullSuppliesAndDemands per, Event.initCalc per, Event.calc per,
           Event.solverSolve per]) := by
  by_cases hp : per = 0 <;> cases pg <;> simp [periodCalls, isResetCalcOrSolve, hp]

/-- C24, refuted as stated: on a one-period horizon the calls of `run` are, in order, the
reset, `init_to_last`, `initCalc`, the second reset, `calc`, the solve and the rest: the
second reset comes before `calc( 0 )`, the pass that calculates the initial supply and
demand, and `calc( 0 )` runs between that reset and the solve. -/
theorem run_calc_after_second_reset_counterexample :
    ∃ b s1, run { sampleTime with maxPeriod := 1 } false (fun _ => true) sampleScenario
        = some (b, s1)
      ∧ s1.calls
          = [Event.initPrices,
             Event.nullSuppliesAndDemands 0, Event.init_to_last 0, Event.initCalc 0,
             Event.nullSuppliesAndDemands 0, Event.calc 0, Event.solverSolve 0,
             Event.finalizePeriod 0, Event.updateSummary 0, Event.emiss_ind 0,
             Event.toDebugXML 0, Event.csvSGMOutputFile 0,
             Event.csvSGMGenFile, Event.runClimateModel] := by
  refine ⟨_, _, run_eq { sampleTime with maxPeriod := 1 } false (fun _ => true)
    sampleScenario rfl rfl, ?_⟩
  decide

/-- C24, amended: for an object with a world and a solver, among the calls `run` makes the
resets, the two calculation passes of the world and the solves are, period after period:
in period 0 the reset, `initCalc( 0 )`, a second reset, `calc( 0 )` and the solve; in every
later period one reset, `initCalc`, `calc` and the solve.  The second reset of period 0
therefore follows `initCalc( 0 )` and precedes `calc( 0 )`, which runs between it and the
solve, and every later period has exactly one reset, at its start. -/
theorem run_resets (mt : Modeltime) (printDependencyGraphs : Bool)
    (solverSolve : Int → Bool) (s : Scenario) (hw : s.world = true) (hs : s.solver = true) :
    ∃ b s1 trace, run mt printDependencyGraphs solverSolve s = some (b, s1)
      ∧ s1.calls = s.calls ++ trace
      ∧ trace.filter isResetCalcOrSolve
          = (periodRange 0 mt.getmaxper).flatMap (fun p =>
              if p = 0 then
                [Event.nullSuppliesAndDemands p, Event.initCalc p,
                 Event.nullSuppliesAndDemands p, Event.calc p, Event.solverSolve p]
              else
                [Event.nullSuppliesAndDemands p, Event.initCalc p, Event.calc p,
                 Event.solverSolve p])
      ∧ trace.filter isReset
          = (periodRange 0 mt.getmaxper).flatMap (fun p =>
              if p = 0 then
                [Event.nullSuppliesAndDemands p, Event.nullSuppliesAndDemands p]
              else [Event.nullSuppliesAndDemands p]) := by
  refine ⟨_, _, _, run_eq mt printDependencyGraphs solverSolve s hw hs, rfl, ?_, ?_⟩
  · rw [List.filter_append, List.filter_append, List.filter_flatMap]
    simp [filter_periodCalls_reset, isResetCalcOrSolve]
  · rw [List.filter_append, List.filter_append, List.filter_flatMap]
    have hper : ∀ per : Int, (periodCalls printDependencyGraphs per).filter isReset
        = (if per = 0 then
            [Event.nullSuppliesAndDemands per, Event.nullSuppliesAndDemands per]
          else [Event.nullSuppliesAndDemands per]) := by
      intro per
      by_cases hp : per = 0 <;> cases printDependencyGraphs <;>
        simp [periodCalls, isReset, hp]
    simp [hper, isReset]

/-- C24, amended, at a concrete input: the resets of a run of the sample scenario over the
four-period horizon. -/
theorem run_resets_witness :
    sampleScenario.world = true ∧ sampleScenario.solver = true
      ∧ ∃ b s1, run sampleTime false (fun _ => true) sampleScenario = some (b, s1)
          ∧ s1.calls.filter isReset
              = [Event.nullSuppliesAndDemands 0, Event.nullSuppliesAndDemands 0,
                 Event.nullSuppliesAndDemands 1, Event.nullSuppliesAndDemands 2,
                 Event.nullSuppliesAndDemands 3] := by
  obtain ⟨b, s1, trace, h, hcalls, _, hreset⟩ :=
    run_resets sampleTime false (fun _ => true) sampleScenario rfl rfl
  refine ⟨rfl, rfl, b, s1, h, ?_⟩
  rw [hcalls]
  show List.filter isReset ([] ++ trace) = _
  rw [List.nil_append, hreset]
  decide

end Scenario

namespace GDP

variable {F : Type} [LinearOrderedField F] [FloorRing F]

/-- The object `initialGDPcalc` returns, in full. -/
theorem initialGDPcalc_full (lib : Libm F) (mt : Modeltime) (g : GDP F)
    (period p90 : Int) (population : Dbl F)
    (h90 : mt.getyr_to_per 1990 = some p90)
    (hr : period = mt.getBasePeriod ∨ (1 ≤ period ∧ period < mt.getmaxper)) :
    initialGDPcalc lib mt g period population = some
      { g with
        gdpAdjustedFlag := Function.update g.gdpAdjustedFlag period (decide (period ≤ p90))
        gdpValue := Function.update g.gdpValue period (initialLevel lib mt g period)
        gdpValueAdjusted :=
          Function.update g.gdpValueAdjusted period (initialLevel lib mt g period)
        gdpPerCapita :=
          Function.update g.gdpPerCapita period (initialLevel lib mt g period / population)
        gdpPerCapitaAdjusted :=
          Function.update g.gdpPerCapitaAdjusted period
            (initialLevel lib mt g period / population)
        gdpPerCapitaAdjustedPPP :=
          Function.update g.gdpPerCapitaAdjustedPPP period
            (initialLevel lib mt g period / population)
        gdpPerCapitaApproxPPP :=
          Function.update g.gdpPerCapitaApproxPPP period
            (pppRatio lib g period p90 (initialLevel lib mt g period / population)
              * (initialLevel lib mt g period / population))
        PPPDelta :=
          deltaAfter lib g period p90 (initialLevel lib mt g period / population) } := by
  unfold initialGDPcalc
  simp only [h90, calculatePPPPerCap]
  by_cases hb : period = mt.getBasePeriod
  · subst hb
    by_cases hp : mt.getBasePeriod ≤ p90 <;>
      simp only [hp, if_true, if_false, Function.update_same]
    · rw [getPPPMERRatio_eq lib mt _ _ p90 _ h90]
      simp [initialLevel, hp, pppRatio, deltaAfter, passThrough, deltaAt]
    · rw [getPPPMERRatio_eq lib mt _ _ p90 _ h90]
      simp [initialLevel, hp, pppRatio, deltaAfter, passThrough, deltaAt]
  · have h1 : 1 ≤ period ∧ period < mt.getmaxper := by
      rcases hr with h | h
      · exact absurd h hb
      · exact h
    have ha : 0 ≤ period ∧ period < mt.getmaxper := ⟨by omega, h1.2⟩
    have hb2 : 0 ≤ period - 1 ∧ period - 1 < mt.getmaxper := ⟨by omega, by omega⟩
    by_cases hp : period ≤ p90 <;>
      simp only [hp, hb, if_false, getLaborForce, getTotalLaborProductivity, ha, hb2,
        and_self, if_true, Function.update_same]
    · rw [getPPPMERRatio_eq lib mt _ _ p90 _ h90]
      simp [initialLevel, hp, hb, pppRatio, deltaAfter, passThrough, deltaAt]
    · rw [getPPPMERRatio_eq lib mt _ _ p90 _ h90]
      simp [initialLevel, hp, hb, pppRatio, deltaAfter, passThrough, deltaAt]

/-- C25, refuted as stated: on the sample object with the conversion factor 2 frozen and no
productivity growth, after `initialGDPcalc( 2, 200 )` the flag of period 2 is false,
`getPPPGDPperCap( 2 )` is the market-basis value `1000 / 200 = 5`, and
`getApproxPPPperCap( 2 )` is `2 * 5 = 10`. -/
theorem getPPPGDPperCap_stale_counterexample :
    ∃ g1, initialGDPcalc ratLibm sampleTime
          { sampleGDP ℚ with constRatio := true, laborProdGrowthRate := fun _ => Dbl.fin 0 }
          2 (Dbl.fin 200) = some g1
      ∧ g1.gdpAdjustedFlag 2 = false
      ∧ getPPPGDPperCap g1 2 = Dbl.fin 5
      ∧ getApproxPPPperCap g1 2 = Dbl.fin 10
      ∧ getPPPGDPperCap g1 2 ≠ getApproxPPPperCap g1 2 := by
  have hL : initialLevel ratLibm sampleTime
      ({ sampleGDP ℚ with constRatio := true, laborProdGrowthRate := fun _ => Dbl.fin 0 }
        : GDP ℚ) 2 = Dbl.fin 1000 := by
    have h1 : (Dbl.fin 1 + Dbl.fin 0 : Dbl ℚ) = Dbl.fin 1 := by
      rw [Dbl.fin_add_fin]; norm_num
    have hd : (Dbl.fin 102 / Dbl.fin 102 : Dbl ℚ) = Dbl.fin 1 := by
      rw [Dbl.fin_div_fin _ _ (by norm_num)]; norm_num
    simp [initialLevel, sampleGDP, sampleTime, Modeltime.getBasePeriod, h1,
      Dbl.pow_one_left, hd, Dbl.mul_fin_one]
  have hq : (Dbl.fin 1000 / Dbl.fin 200 : Dbl ℚ) = Dbl.fin 5 := by
    rw [Dbl.fin_div_fin _ _ (by norm_num)]; norm_num
  have hr : pppRatio ratLibm
      ({ sampleGDP ℚ with constRatio := true, laborProdGrowthRate := fun _ => Dbl.fin 0 }
        : GDP ℚ) 2 1 (Dbl.fin 5) = Dbl.fin 2 := by
    simp [pppRatio, passThrough, sampleGDP]
  have hm : (Dbl.fin 2 * Dbl.fin 5 : Dbl ℚ) = Dbl.fin 10 := by
    rw [Dbl.fin_mul_fin]; norm_num
  refine ⟨_, initialGDPcalc_full ratLibm sampleTime _ 2 1 (Dbl.fin 200) (by decide)
    (Or.inr (by decide)), ?_, ?_, ?_, ?_⟩
  · simp
  · simp [getPPPGDPperCap, hL, hq]
  · simp [getApproxPPPperCap, hL, hq, hr, hm]
  · simp [getPPPGDPperCap, getApproxPPPperCap, hL, hq, hr, hm]

/-- C25, amended: for a period `p` after the period of 1990, `initialGDPcalc( p, population )`
returns and leaves `gdpAdjustedFlag[ p ]` false, and then `getGDP( p ) = getApproxGDP( p )`,
`getGDPperCap( p ) = getApproxGDPperCap( p )` and
`getPPPGDPperCap( p ) = getApproxGDPperCap( p )`, the market-basis value
`gdpValue[ p ] / population`, while `getApproxPPPperCap( p )` is that value times the
PPP/MER ratio. -/
theorem stale_read_fallback (lib : Libm F) (mt : Modeltime) (g : GDP F) (p p90 : Int)
    (population : Dbl F) (h90 : mt.getyr_to_per 1990 = some p90) (hp : p90 < p)
    (hr : p = mt.getBasePeriod ∨ (1 ≤ p ∧ p < mt.getmaxper)) :
    ∃ g1, initialGDPcalc lib mt g p population = some g1
      ∧ g1.gdpAdjustedFlag p = false
      ∧ getGDP g1 p = getApproxGDP g1 p
      ∧ getGDPperCap g1 p = getApproxGDPperCap g1 p
      ∧ getPPPGDPperCap g1 p = getApproxGDPperCap g1 p
      ∧ getApproxGDPperCap g1 p = g1.gdpValue p / population
      ∧ getApproxPPPperCap g1 p
          = pppRatio lib g p p90 (getApproxGDPperCap g1 p) * getApproxGDPperCap g1 p := by
  refine ⟨_, initialGDPcalc_full lib mt g p p90 population h90 hr, ?_, ?_, ?_, ?_, ?_, ?_⟩
  · simp [not_le.mpr hp]
  · simp [getGDP, getApproxGDP]
  · simp [getGDPperCap, getApproxGDPperCap]
  · simp [getPPPGDPperCap, getApproxGDPperCap]
  · simp [getApproxGDPperCap]
  · simp [getApproxPPPperCap, getApproxGDPperCap]

/-- C25, amended, at a concrete input: period 2 of the sample object with a population of
200. -/
theorem stale_read_fallback_witness :
    sampleTime.getyr_to_per 1990 = some 1
      ∧ (1 : Int) < 2
      ∧ (1 ≤ (2 : Int) ∧ (2 : Int) < sampleTime.getmaxper)
      ∧ ∃ g1, initialGDPcalc ratLibm sampleTime (sampleGDP ℚ) 2 (Dbl.fin 200) = some g1
          ∧ g1.gdpAdjustedFlag 2 = false
          ∧ getGDP g1 2 = getApproxGDP g1 2
          ∧ getGDPperCap g1 2 = getApproxGDPperCap g1 2
          ∧ getPPPGDPperCap g1 2 = getApproxGDPperCap g1 2 := by
  obtain ⟨g1, h, hf, h1, h2, h3, _⟩ :=
    stale_read_fallback ratLibm sampleTime (sampleGDP ℚ) 2 1 (Dbl.fin 200) (by decide)
      (by decide) (Or.inr (by decide))
  exact ⟨by decide, by decide, by decide, g1, h, hf, h1, h2, h3⟩

/-- C26: for every state, period `p` and price ratios `r1`, `r2`, the result of
`adjustGDP( p, r1 )` followed by `adjustGDP( p, r2 )` is the result of `adjustGDP( p, r2 )`
alone (also when 1990 is no registered year and neither returns); with 1990 registered
both return, so the second adjustment replaces the first and `adjustGDP( p, r )` is
idempotent. -/
theorem adjustGDP_does_not_compound (lib : Libm F) (mt : Modeltime) (g : GDP F) (p : Int)
    (r1 r2 : Dbl F) :
    (adjustGDP lib mt g p r1).bind (fun g1 => adjustGDP lib mt g1 p r2)
        = adjustGDP lib mt g p r2
      ∧ (adjustGDP lib mt g p r1).bind (fun g1 => adjustGDP lib mt g1 p r1)
        = adjustGDP lib mt g p r1
      ∧ ∀ p90 : Int, mt.getyr_to_per 1990 = some p90 →
          ∃ g2, adjustGDP lib mt g p r2 = some g2 := by
  have key : ∀ a b : Dbl F,
      (adjustGDP lib mt g p a).bind (fun g1 => adjustGDP lib mt g1 p b)
        = adjustGDP lib mt g p b := by
    intro a b
    cases h90 : mt.getyr_to_per 1990 with
    | none => simp [adjustGDP, h90]
    | some p90 =>
      by_cases hp : p90 < p
      · have hne : ¬ p = p90 := by omega
        rw [adjustGDP_after_eq lib mt g p p90 a h90 hp, Option.some_bind,
          adjustGDP_after_eq lib mt _ p p90 b h90 hp,
          adjustGDP_after_eq lib mt g p p90 b h90 hp]
        by_cases hpass : passThrough g p p90
        · have hpass2 := hpass
          unfold passThrough at hpass2
          simp [adjustedLevel, pppRatio, deltaAfter, deltaAt, passThrough, hne, hpass2]
        · have hpass2 := hpass
          unfold passThrough at hpass2
          simp [adjustedLevel, pppRatio, deltaAfter, deltaAt, passThrough, hne, hpass2]
      · have hle : p ≤ p90 := not_lt.mp hp
        rw [adjustGDP_notAfter_eq lib mt g p p90 a h90 hle, Option.some_bind,
          adjustGDP_notAfter_eq lib mt _ p p90 b h90 hle,
          adjustGDP_notAfter_eq lib mt g p p90 b h90 hle]
        by_cases hpass : passThrough g p p90
        · have hpass2 := hpass
          unfold passThrough at hpass2
          simp [pppRatio, deltaAfter, deltaAt, passThrough, hpass2]
        · have hpass2 := hpass
          unfold passThrough at hpass2
          have heq : p = p90 := by
            have : ¬ p < p90 := fun h => hpass2 (Or.inr (Or.inl h))
            omega
          subst heq
          have hc : g.constRatio = false := by
            cases hcr : g.constRatio with
            | false => rfl
            | true => exact absurd (Or.inl hcr) hpass2
          have hl : Dbl.lt g.PPPConversionFact (Dbl.fin 1) = false := by
            cases hlt : Dbl.lt g.PPPConversionFact (Dbl.fin 1) with
            | false => rfl
            | true => exact absurd (Or.inr (Or.inr hlt)) hpass2
          simp [pppRatio, deltaAfter, deltaAt, passThrough, hc, hl]
  refine ⟨key r1 r2, key r1 r1, ?_⟩
  intro p90 h90
  by_cases hp : p90 < p
  · exact ⟨_, adjustGDP_after_eq lib mt g p p90 r2 h90 hp⟩
  · exact ⟨_, adjustGDP_notAfter_eq lib mt g p p90 r2 h90 (not_lt.mp hp)⟩

/-- C26 at a concrete input: on the sample horizon, where 1990 is period 1, adjusting
period 2 of the sample object with ratio 3 and then with ratio 2 gives the state that the
adjustment with ratio 2 gives alone, and that call returns. -/
theorem adjustGDP_does_not_compound_witness :
    sampleTime.getyr_to_per 1990 = some 1
      ∧ (adjustGDP ratLibm sampleTime (sampleGDP ℚ) 2 (Dbl.fin 3)).bind
            (fun g1 => adjustGDP ratLibm sampleTime g1 2 (Dbl.fin 2))
          = adjustGDP ratLibm sampleTime (sampleGDP ℚ) 2 (Dbl.fin 2)
      ∧ ∃ g2, adjustGDP ratLibm sampleTime (sampleGDP ℚ) 2 (Dbl.fin 2) = some g2 :=
  ⟨by decide,
    (adjustGDP_does_not_compound ratLibm sampleTime (sampleGDP ℚ) 2 (Dbl.fin 3) (Dbl.fin 2)).1,
    (adjustGDP_does_not_compound ratLibm sampleTime (sampleGDP ℚ) 2 (Dbl.fin 3)
      (Dbl.fin 2)).2.2 1 (by decide)⟩

end GDP

end Gcam
